import Mathlib

/-!
# V8.NET native proxy: handle lifecycle

A shallow embedding of the handle registry of `Source/V8.NET-Proxy`
(`HandleProxy.cpp`, `V8EngineProxy.cpp`, `ProxyTypes.h`, `Exports.cpp`).

Modelling conventions.

* A `HandleProxy*` is the index of the object in `V8EngineProxy.heap`, the list of all
  `HandleProxy` objects the engine created with `new HandleProxy`; `nullptr` is `none`.
  `_Handles` is the C++ vector of such pointers.
* `int32_t` fields are `Int`, and the arithmetic on them (`_NextNonTemplateObjectID--`,
  `(_ObjectID + 100) * 2`) is exact: it is the C++ arithmetic wherever that does not
  overflow.  The narrowing cast `(int32_t)(int64_t)` is `toInt32`.  The bitmask `_Disposed`
  is a `Nat` and `x & ~m` is `x &&& (0xFFFFFFFF ^^^ m)`.
* A V8 value is the record of the answers it gives to the capability checks the code
  performs on it (`Value`); an empty `Handle<Value>` is `none`.
* Exceptions (`throw runtime_error`, `vector::at`) are `Except.error`.
* Mutexes are not modelled: the embedding is sequential, so `try_to_lock` on the
  recursive registry mutex succeeds.
* A JavaScript object has no identity of its own in the model: a write to the object
  (`ConnectObject`) shows in the handle of the proxy it goes through.
* `std::vector<bool>::capacity()` is a parameter of the engine constructor.
-/

namespace V8DotNet

/-! ## Values -/

/-- The enum `JSValueType` of `ProxyTypes.h`. -/
inductive JSValueType where
  | JSV_ExecutionTerminated
  | JSV_ExecutionError
  | JSV_CompilerError
  | JSV_InternalError
  | JSV_Uninitialized
  | JSV_Undefined
  | JSV_Script
  | JSV_Null
  | JSV_Bool
  | JSV_BoolObject
  | JSV_Int32
  | JSV_Number
  | JSV_NumberObject
  | JSV_String
  | JSV_StringObject
  | JSV_Object
  | JSV_Function
  | JSV_Date
  | JSV_Array
  | JSV_RegExp
  deriving DecidableEq, Repr

/-- The numeric value of a `JSValueType` enumerator. -/
def JSValueType.toInt : JSValueType → Int
  | .JSV_ExecutionTerminated => -4
  | .JSV_ExecutionError => -3
  | .JSV_CompilerError => -2
  | .JSV_InternalError => -1
  | .JSV_Uninitialized => 0
  | .JSV_Undefined => 1
  | .JSV_Script => 2
  | .JSV_Null => 3
  | .JSV_Bool => 4
  | .JSV_BoolObject => 5
  | .JSV_Int32 => 6
  | .JSV_Number => 7
  | .JSV_NumberObject => 8
  | .JSV_String => 9
  | .JSV_StringObject => 10
  | .JSV_Object => 11
  | .JSV_Function => 12
  | .JSV_Date => 13
  | .JSV_Array => 14
  | .JSV_RegExp => 15

/-- Conversion `(int32_t)(int64_t)x`: reduction modulo `2^32` into the signed range. -/
def toInt32 (x : Int) : Int := (x + 2147483648) % 4294967296 - 2147483648

/-- The value read back by `obj->GetPrivate(ctx, "$ManagedObjectID")`, as far as the code
looks at it: `IsInt32()` and `Int32Value()`. -/
structure PrivateValue where
  IsInt32 : Bool
  Int32Value : Int
  deriving DecidableEq, Repr

/-- A V8 value, as seen through the checks `HandleProxy::SetHandle` and the static
`HandleProxy::GetManagedObjectID` perform on it.  `InternalField1External` is `some p` when
`GetInternalField(1)->IsExternal()` holds, `p` being the stored pointer;
`PrivateManagedObjectID` is the `MaybeLocal` returned by `GetPrivate`: `none` when it is
empty, otherwise the value read (`undefined`, hence no int32, when the object has no such
private property). -/
structure Value where
  IsBoolean : Bool := false
  IsBooleanObject : Bool := false
  IsInt32 : Bool := false
  IsNumber : Bool := false
  IsNumberObject : Bool := false
  IsString : Bool := false
  IsStringObject : Bool := false
  IsDate : Bool := false
  IsArray : Bool := false
  IsRegExp : Bool := false
  IsNull : Bool := false
  IsFunction : Bool := false
  IsExternal : Bool := false
  IsNativeError : Bool := false
  IsUndefined : Bool := false
  IsObject : Bool := false
  IsFalse : Bool := false
  IsTrue : Bool := false
  InternalFieldCount : Nat := 0
  InternalField1External : Option Int := none
  PrivateManagedObjectID : Option PrivateValue := some { IsInt32 := false, Int32Value := 0 }
  deriving DecidableEq, Repr

/-- A `CopyablePersistent<Value>` that is not empty: the value and its weak flag. -/
structure Persistent where
  value : Value
  weak : Bool
  deriving DecidableEq, Repr

/-- The call `MaybeLocal<T>::ToLocal(&out)`: returns whether the `MaybeLocal` holds a value and
stores it (or an empty handle) in `out`. -/
def MaybeLocal.ToLocal {α : Type} (m : Option α) : Bool × Option α := (m.isSome, m)

/-! ## Proxies -/

/-- The struct `HandleProxy` of `ProxyTypes.h` (the cached snapshot `_Value` is left out);
`freed` records that `delete this` ran on the object. -/
structure HandleProxy where
  _ID : Int
  _ObjectID : Int
  _CLRTypeID : Int
  _Type : JSValueType
  _ManagedReference : Int
  _Disposed : Nat
  _EngineID : Int
  _EngineProxy : Option Int
  _Handle : Option Persistent
  _Script : Option Nat
  freed : Bool
  deriving DecidableEq, Repr

namespace HandleProxy

/-- The constructor `HandleProxy::HandleProxy(engineProxy, id)`; `_Type` starts as
`(JSValueType)-1`. -/
def ctor (engineID : Int) (id : Int) : HandleProxy :=
  { _ID := id, _ObjectID := -1, _CLRTypeID := -1, _Type := .JSV_InternalError,
    _ManagedReference := 0, _Disposed := 0, _EngineID := engineID,
    _EngineProxy := some engineID, _Handle := none, _Script := none, freed := false }

/-- The handle is currently in use: `(_Disposed & 19) == 0`. -/
def IsInUse (h : HandleProxy) : Bool := (h._Disposed &&& 19) == 0

/-- The managed side is done with the handle:
`(_Disposed & 2) > 0 || (_Disposed & 4) > 0 || _ManagedReference < 2`. -/
def IsDisposeReadyManagedSide (h : HandleProxy) : Bool :=
  decide ((h._Disposed &&& 2) > 0) || decide ((h._Disposed &&& 4) > 0)
    || decide (h._ManagedReference < 2)

/-- The handle is queued for disposal: `(_Disposed & 16) > 0`. -/
def IsDisposing (h : HandleProxy) : Bool := decide ((h._Disposed &&& 16) > 0)

/-- The handle is disposed and cached: `(_Disposed & 1) > 0`. -/
def IsDisposed (h : HandleProxy) : Bool := decide ((h._Disposed &&& 1) > 0)

/-- The test `_Handle.IsWeak()`. -/
def IsWeak (h : HandleProxy) : Bool :=
  match h._Handle with
  | some p => p.weak
  | none => false

/-- The function `HandleProxy::_ClearHandleValue`: both persistent handles are reset and the type tag
becomes `JSV_Uninitialized`.  The closing assertion (`_Handle.IsWeak()` throws) cannot fire,
the handle having just been reset. -/
def _ClearHandleValue (h : HandleProxy) : HandleProxy :=
  { h with _Handle := none, _Script := none, _Type := .JSV_Uninitialized }

/-- The static `HandleProxy::GetManagedObjectID(v8::Handle<Value> h)`. -/
def GetManagedObjectIDStatic (h : Option Value) : Int :=
  match h with
  | none => -1
  | some v =>
    if v.IsObject then
      if v.InternalFieldCount > 1 then
        match v.InternalField1External with
        | some ptr => toInt32 ptr
        | none => -1
      else
        let r := MaybeLocal.ToLocal v.PrivateManagedObjectID
        if !r.1 then
          match r.2 with
          | some handleL => if handleL.IsInt32 then handleL.Int32Value else -1
          | none => -1
        else -1
    else -1

/-- The ordered checks of `HandleProxy::SetHandle(v8::Handle<Value>)`: the tag of the first
branch that matches, and whether that branch calls `GetManagedObjectID()`. -/
def classify (handle : Option Value) : JSValueType × Bool :=
  match handle with
  | none => (.JSV_Undefined, false)
  | some v =>
    if v.IsBoolean then (.JSV_Bool, false)
    else if v.IsBooleanObject then (.JSV_BoolObject, true)
    else if v.IsInt32 then (.JSV_Int32, false)
    else if v.IsNumber then (.JSV_Number, false)
    else if v.IsNumberObject then (.JSV_NumberObject, true)
    else if v.IsString then (.JSV_String, false)
    else if v.IsStringObject then (.JSV_StringObject, true)
    else if v.IsDate then (.JSV_Date, true)
    else if v.IsArray then (.JSV_Array, true)
    else if v.IsRegExp then (.JSV_RegExp, true)
    else if v.IsNull then (.JSV_Null, false)
    else if v.IsFunction then (.JSV_Function, true)
    else if v.IsExternal then (.JSV_Undefined, false)
    else if v.IsNativeError then (.JSV_Undefined, false)
    else if v.IsUndefined then (.JSV_Undefined, false)
    else if v.IsObject then (.JSV_Object, true)
    else if v.IsFalse then (.JSV_Bool, false)
    else if v.IsTrue then (.JSV_Bool, false)
    else (.JSV_Undefined, false)

end HandleProxy

/-! ## Engines -/

/-- The static members of `V8EngineProxy`: the table of disposed engines and the next
engine id. -/
structure Statics where
  _DisposedEngines : List Bool
  _NextEngineID : Int
  deriving DecidableEq, Repr

/-- The class `V8EngineProxy` of `ProxyTypes.h`, restricted to the handle system, together
with the `HandleProxy` objects it allocated (`heap`). -/
structure V8EngineProxy where
  _EngineID : Int
  _NextNonTemplateObjectID : Int
  _ManagedV8GarbageCollectionRequestCallback : Option (HandleProxy → Bool)
  _Handles : List Nat
  _HandlesPendingDisposal : List Nat
  _DisposedHandles : List Int
  _HandlesToBeMadeWeak : List Nat
  _HandlesToBeMadeStrong : List Nat
  _Objects : List (Option Nat)
  _IsExecutingScript : Bool
  _InCallbackScope : Int
  heap : List HandleProxy

namespace V8EngineProxy

/-- The function `V8EngineProxy::IsDisposed(engineID)`: `engineID < 0 || _DisposedEngines[engineID]`. -/
def IsDisposed (g : Statics) (engineID : Int) : Bool :=
  decide (engineID < 0) || g._DisposedEngines.getD engineID.toNat false

/-- The handle-system members as the constructor `V8EngineProxy::V8EngineProxy` leaves
them: every vector cleared, `_NextNonTemplateObjectID = -2`, no callback registered. -/
def init (engineID : Int) : V8EngineProxy :=
  { _EngineID := engineID, _NextNonTemplateObjectID := -2,
    _ManagedV8GarbageCollectionRequestCallback := none,
    _Handles := [], _HandlesPendingDisposal := [], _DisposedHandles := [],
    _HandlesToBeMadeWeak := [], _HandlesToBeMadeStrong := [], _Objects := [],
    _IsExecutingScript := false, _InCallbackScope := 0, heap := [] }

/-- The function `V8EngineProxy::IsExecutingScript`. -/
def IsExecutingScript (e : V8EngineProxy) : Bool :=
  e._IsExecutingScript || decide (e._InCallbackScope > 0)

/-- The function `V8EngineProxy::GetNextNonTemplateObjectID`: `return _NextNonTemplateObjectID--`. -/
def GetNextNonTemplateObjectID (e : V8EngineProxy) : V8EngineProxy × Int :=
  ({ e with _NextNonTemplateObjectID := e._NextNonTemplateObjectID - 1 },
    e._NextNonTemplateObjectID)

/-- Write access through a `HandleProxy*`: the object at address `p` becomes `f` of
itself (nothing happens at an address that holds no object). -/
def update (e : V8EngineProxy) (p : Nat) (f : HandleProxy → HandleProxy) : V8EngineProxy :=
  match e.heap[p]? with
  | some h => { e with heap := e.heap.set p (f h) }
  | none => e

/-- The call `std::vector::resize(n, nullptr)` on the identity table. -/
def resizeObjects (objs : List (Option Nat)) (n : Nat) : List (Option Nat) :=
  objs.take n ++ List.replicate (n - objs.length) none

end V8EngineProxy

/-! ## Identity ids -/

/-- The function `HandleProxy::SetManagedObjectID`.  The closing block on "type" objects acts only when
reading the property `$__TypeID` fails, where it dereferences an empty handle; on every
defined execution it changes nothing and is left out.  A null `_EngineProxy` is a null
dereference in the source: the model changes nothing there. -/
def HandleProxy.SetManagedObjectID (e : V8EngineProxy) (this : Nat) (id : Int) :
    V8EngineProxy × Int :=
  match e.heap[this]? with
  | none => (e, id)
  | some h =>
    match h._EngineProxy with
    | none => (e, id)
    | some _ =>
      let objs1 :=
        if 0 ≤ h._ObjectID ∧ h._ObjectID < (e._Objects.length : Int)
        then e._Objects.set h._ObjectID.toNat none else e._Objects
      if 0 ≤ id then
        let objs2 :=
          if id ≥ (objs1.length : Int)
          then V8EngineProxy.resizeObjects objs1 ((id + 100) * 2).toNat else objs1
        ({ e with _Objects := objs2.set id.toNat (some this),
                  heap := e.heap.set this { h with _ObjectID := id } }, id)
      else if id = -1 then
        let r := V8EngineProxy.GetNextNonTemplateObjectID { e with _Objects := objs1 }
        ({ r.1 with heap := r.1.heap.set this { h with _ObjectID := r.2 } }, r.2)
      else
        ({ e with _Objects := objs1, heap := e.heap.set this { h with _ObjectID := id } }, id)

/-- The member function `HandleProxy::GetManagedObjectID()`. -/
def HandleProxy.GetManagedObjectID (e : V8EngineProxy) (this : Nat) : V8EngineProxy × Int :=
  match e.heap[this]? with
  | none => (e, -1)
  | some h =>
    if h.IsDisposed then (e, -1)
    else if h._ObjectID < -1 ∨ h._ObjectID ≥ 0 then (e, h._ObjectID)
    else HandleProxy.SetManagedObjectID e this
      (HandleProxy.GetManagedObjectIDStatic (h._Handle.map (fun p => p.value)))

/-- The function `HandleProxy::SetHandle(v8::Handle<Value>)`: the old value is cleared, the new one
persisted (strong), the tag set by the first matching check, and for the object kinds the
identity id is pulled. -/
def HandleProxy.SetHandle (e : V8EngineProxy) (this : Nat) (handle : Option Value) :
    V8EngineProxy :=
  let c := HandleProxy.classify handle
  let e1 := e.update this (fun h =>
    { HandleProxy._ClearHandleValue h with
      _Handle := handle.map (fun v => { value := v, weak := false }), _Type := c.1 })
  if c.2 then (HandleProxy.GetManagedObjectID e1 this).1 else e1

/-- The function `HandleProxy::MakeWeak`. -/
def HandleProxy.MakeWeak (e : V8EngineProxy) (this : Nat) : V8EngineProxy :=
  e.update this (fun h =>
    match h._Handle with
    | some p => { h with _Handle := some { p with weak := true } }
    | none => h)

/-- The function `HandleProxy::MakeStrong`. -/
def HandleProxy.MakeStrong (e : V8EngineProxy) (this : Nat) : V8EngineProxy :=
  e.update this (fun h =>
    match h._Handle with
    | some p => { h with _Handle := some { p with weak := false } }
    | none => h)

/-! ## Disposal -/

/-- The body of `HandleProxy::_Dispose(registerDisposal)`, the call
`_EngineProxy->DisposeHandleProxy(this)` being the parameter `disposeHandleProxy`.
`delete this` runs the destructor and marks the object freed. -/
def HandleProxy._DisposeWith (disposeHandleProxy : V8EngineProxy → Nat → V8EngineProxy)
    (g : Statics) (e : V8EngineProxy) (this : Nat) (registerDisposal : Bool) :
    V8EngineProxy × Bool :=
  match e.heap[this]? with
  | none => (e, true)
  | some h =>
    if h.IsDisposed then (e, true)
    else if V8EngineProxy.IsDisposed g h._EngineID then
      (e.update this (fun h =>
        { HandleProxy._ClearHandleValue h with
          _ObjectID := -1, _Disposed := 3, _ManagedReference := 0, freed := true }), false)
    else if !h.IsDisposed && h.IsDisposeReadyManagedSide then
      if registerDisposal then (disposeHandleProxy e this, true)
      else
        (e.update this (fun h =>
          { HandleProxy._ClearHandleValue { h with _Disposed := 3 } with
            _ObjectID := -1, _CLRTypeID := -1, _ManagedReference := 0,
            _Type := .JSV_Uninitialized, _EngineID := -1, _EngineProxy := none }), true)
    else (e, true)

/-- The function `V8EngineProxy::DisposeHandleProxy` (release build: the `#if DEBUG` search for a
duplicate id is not compiled).  The inner call is `handleProxy->_Dispose(false)`, which
never calls back. -/
def V8EngineProxy.DisposeHandleProxy (g : Statics) (e : V8EngineProxy)
    (handleProxy : Option Nat) : V8EngineProxy :=
  match handleProxy with
  | none => e
  | some p =>
    match e.heap[p]? with
    | none => e
    | some h =>
      if h.IsDisposed then e
      else
        let e1 :=
          if 0 ≤ h._ObjectID ∧ h._ObjectID < (e._Objects.length : Int)
          then { e with _Objects := e._Objects.set h._ObjectID.toNat none } else e
        let r := HandleProxy._DisposeWith (fun e0 _ => e0) g e1 p false
        if r.2 then
          match r.1.heap[p]? with
          | some h2 => { r.1 with _DisposedHandles := r.1._DisposedHandles ++ [h2._ID] }
          | none => r.1
        else r.1

/-- The function `HandleProxy::_Dispose(registerDisposal)`. -/
def HandleProxy._Dispose (g : Statics) (e : V8EngineProxy) (this : Nat)
    (registerDisposal : Bool) : V8EngineProxy × Bool :=
  HandleProxy._DisposeWith (fun e0 p => V8EngineProxy.DisposeHandleProxy g e0 (some p))
    g e this registerDisposal

/-- The function `HandleProxy::Dispose`. -/
def HandleProxy.Dispose (g : Statics) (e : V8EngineProxy) (this : Nat) :
    V8EngineProxy × Bool :=
  HandleProxy._Dispose g e this true

/-- The function `HandleProxy::TryDispose`. -/
def HandleProxy.TryDispose (g : Statics) (e : V8EngineProxy) (this : Nat) :
    V8EngineProxy × Bool :=
  match e.heap[this]? with
  | none => (e, false)
  | some h => if h.IsDisposeReadyManagedSide then HandleProxy.Dispose g e this else (e, false)

/-- The function `HandleProxy::Initialize`: the result is `this`, or null when `_Dispose(false)` fails. -/
def HandleProxy.Initialize (g : Statics) (e : V8EngineProxy) (this : Nat)
    (handle : Option Value) : V8EngineProxy × Option Nat :=
  match e.heap[this]? with
  | none => (e, none)
  | some h =>
    let r := if h._Disposed ≠ 0 then HandleProxy._Dispose g e this false else (e, true)
    if !r.2 then (r.1, none)
    else
      (HandleProxy.SetHandle (r.1.update this (fun h0 => { h0 with _Disposed := 0 })) this
        handle, some this)

/-! ## Transition queues -/

/-- The function `V8EngineProxy::QueueHandleDisposal`. -/
def V8EngineProxy.QueueHandleDisposal (e : V8EngineProxy) (handleProxy : Option Nat) :
    V8EngineProxy :=
  match handleProxy with
  | none => e
  | some p =>
    match e.heap[p]? with
    | none => e
    | some h =>
      if !h.IsDisposed && !h.IsDisposing then
        let e1 := e.update p (fun h0 => { h0 with _Disposed := h0._Disposed ||| 16 })
        let isAlreadyIn :=
          match e1._HandlesPendingDisposal.getLast? with
          | some hLast =>
            (match e1.heap[hLast]? with
             | some l => decide (l._ID = h._ID)
             | none => false)
          | none => false
        if !isAlreadyIn then
          { e1 with _HandlesPendingDisposal := e1._HandlesPendingDisposal ++ [p] }
        else e1
      else e

/-- The function `V8EngineProxy::QueueMakeWeak`. -/
def V8EngineProxy.QueueMakeWeak (e : V8EngineProxy) (handleProxy : Nat) : V8EngineProxy :=
  match e.heap[handleProxy]? with
  | none => e
  | some h =>
    if h._Disposed &&& 4 = 0 then
      { e.update handleProxy (fun h0 => { h0 with _Disposed := h0._Disposed ||| 4 }) with
        _HandlesToBeMadeWeak := e._HandlesToBeMadeWeak ++ [handleProxy] }
    else e

/-- The function `V8EngineProxy::QueueMakeStrong`. -/
def V8EngineProxy.QueueMakeStrong (e : V8EngineProxy) (handleProxy : Nat) : V8EngineProxy :=
  match e.heap[handleProxy]? with
  | none => e
  | some h =>
    if h._Disposed &&& 8 = 0 then
      { e.update handleProxy (fun h0 => { h0 with _Disposed := h0._Disposed ||| 8 }) with
        _HandlesToBeMadeStrong := e._HandlesToBeMadeStrong ++ [handleProxy] }
    else e

/-- Clearing the bits `m` of a 32-bit mask: `x & ~m`. -/
def clearBits (x m : Nat) : Nat := x &&& (4294967295 ^^^ m)

/-- First block of the loop body of `ProcessHandleQueues`: one pending disposal, applied
only while `_InCallbackScope == 0`. -/
def V8EngineProxy.processPendingDisposal (g : Statics) (e : V8EngineProxy) : V8EngineProxy :=
  if e._HandlesPendingDisposal.length > 0 ∧ e._InCallbackScope = 0 then
    match e._HandlesPendingDisposal.getLast? with
    | some h =>
      let e1 := { e with _HandlesPendingDisposal := e._HandlesPendingDisposal.dropLast }
      let e2 := e1.update h (fun h0 => { h0 with _Disposed := clearBits h0._Disposed 16 })
      (HandleProxy.Dispose g e2 h).1
    | none => e
  else e

/-- Second block of the loop body: one queued make-weak request; the flag is
`didSomething`. -/
def V8EngineProxy.processMakeWeak (e : V8EngineProxy) : V8EngineProxy × Bool :=
  match e._HandlesToBeMadeWeak.getLast? with
  | some h =>
    let e1 := { e with _HandlesToBeMadeWeak := e._HandlesToBeMadeWeak.dropLast }
    let e2 := e1.update h (fun h0 =>
      { h0 with _Disposed := clearBits (clearBits h0._Disposed 4) 16 })
    (HandleProxy.MakeWeak e2 h, true)
  | none => (e, false)

/-- Third block of the loop body: one queued make-strong request. -/
def V8EngineProxy.processMakeStrong (e : V8EngineProxy) : V8EngineProxy × Bool :=
  match e._HandlesToBeMadeStrong.getLast? with
  | some h =>
    let e1 := { e with _HandlesToBeMadeStrong := e._HandlesToBeMadeStrong.dropLast }
    let e2 := e1.update h (fun h0 => { h0 with _Disposed := clearBits h0._Disposed 8 })
    (HandleProxy.MakeStrong e2 h, true)
  | none => (e, false)

/-- One iteration of the loop of `ProcessHandleQueues`: the new state and `didSomething`
(which the disposal block never sets). -/
def V8EngineProxy.processStep (g : Statics) (e : V8EngineProxy) : V8EngineProxy × Bool :=
  let e1 := e.processPendingDisposal g
  let w := e1.processMakeWeak
  let s := w.1.processMakeStrong
  (s.1, w.2 || s.2)

/-- The loop `while (loops-- > 0 && didSomething)` with `n` the remaining value of
`loops`. -/
def V8EngineProxy.processLoop (g : Statics) : Nat → Bool → V8EngineProxy → V8EngineProxy
  | 0, _, e => e
  | n + 1, didSomething, e =>
    if didSomething then
      let r := e.processStep g
      V8EngineProxy.processLoop g n r.2 r.1
    else e

/-- The function `V8EngineProxy::ProcessHandleQueues(loops)`. -/
def V8EngineProxy.ProcessHandleQueues (g : Statics) (e : V8EngineProxy) (loops : Int) :
    V8EngineProxy :=
  V8EngineProxy.processLoop g loops.toNat true e

/-! ## The revival callback and the collector -/

/-- The function `HandleProxy::_RevivableCallback`, the weak callback V8 invokes on a proxy whose value
it is about to collect. -/
def HandleProxy._RevivableCallback (g : Statics) (e : V8EngineProxy) (handleProxy : Nat) :
    V8EngineProxy :=
  match e.heap[handleProxy]? with
  | none => e
  | some h =>
    let e1 := { e with _InCallbackScope := e._InCallbackScope + 1 }
    let canDisposeNow :=
      h.IsDisposeReadyManagedSide ||
        (match e1._ManagedV8GarbageCollectionRequestCallback with
         | some callback => callback h
         | none => false)
    let e2 := { e1 with _InCallbackScope := e1._InCallbackScope - 1 }
    if canDisposeNow then
      (HandleProxy.Dispose g (e2.update handleProxy HandleProxy._ClearHandleValue)
        handleProxy).1
    else HandleProxy.MakeStrong e2 handleProxy

/-- The call `_Isolate->IdleNotificationDeadline(100)` as far as it reaches this code: V8
may collect and then invokes `_RevivableCallback` on weak handles.  Which ones, and in
which order, is the collector's choice, given by `gc`. -/
def V8EngineProxy.IdleNotificationDeadline (g : Statics) (e : V8EngineProxy)
    (gc : List Nat) : V8EngineProxy :=
  gc.foldl (fun e0 p =>
    match e0.heap[p]? with
    | some h => if h.IsWeak then HandleProxy._RevivableCallback g e0 p else e0
    | none => e0) e

/-! ## Acquiring a proxy -/

/-- First lines of `GetHandleProxy`: the proxy the identity table `_Objects` holds for the
identity id of the value, null when the id is out of range. -/
def V8EngineProxy.lookup (e : V8EngineProxy) (handle : Option Value) : Option Nat :=
  if 0 ≤ HandleProxy.GetManagedObjectIDStatic handle ∧
      HandleProxy.GetManagedObjectIDStatic handle < (e._Objects.length : Int)
  then e._Objects.getD (HandleProxy.GetManagedObjectIDStatic handle).toNat none else none

/-- The call `ProcessHandleQueues(2)` at the start of the locked block of `GetHandleProxy` and, when
the free-list is still empty, the call of `IdleNotificationDeadline`. -/
def V8EngineProxy.drained (g : Statics) (e : V8EngineProxy) (gc : List Nat) : V8EngineProxy :=
  if (e.ProcessHandleQueues g 2)._DisposedHandles.length = 0
  then (e.ProcessHandleQueues g 2).IdleNotificationDeadline g gc
  else e.ProcessHandleQueues g 2

/-- The rest of the locked block of `GetHandleProxy`: the last id of the free-list is
popped and its proxy initialised again, or a new proxy is allocated, initialised, recorded
in `_Handles`, and the queues are processed once more (release build: the `#if DEBUG`
check of the engine id is not compiled). -/
def V8EngineProxy.acquire (g : Statics) (e2 : V8EngineProxy) (handle : Option Value) :
    V8EngineProxy × Except String Nat :=
  match e2._DisposedHandles.getLast? with
  | some id0 =>
    let e3 := { e2 with _DisposedHandles := e2._DisposedHandles.dropLast }
    match (if 0 ≤ id0 then e3._Handles[id0.toNat]? else none) with
    | none => (e3, .error "vector::at: out of range")
    | some p =>
      let e4 := e3.update p (fun h =>
        { h with _EngineProxy := some e3._EngineID, _EngineID := e3._EngineID })
      let r := HandleProxy.Initialize g e4 p handle
      match r.2 with
      | some q => (r.1, .ok q)
      | none => (r.1, .error
          "V8EngineProxy::GetHandleProxy(): The engine is gone! Cannot create any handles.")
  | none =>
    let p := e2.heap.length
    let e3 := { e2 with heap := e2.heap ++ [HandleProxy.ctor e2._EngineID e2._Handles.length] }
    let r := HandleProxy.Initialize g e3 p handle
    match r.2 with
    | some q =>
      (V8EngineProxy.ProcessHandleQueues g { r.1 with _Handles := r.1._Handles ++ [q] } 10,
        .ok q)
    | none => (r.1, .error
        "V8EngineProxy::GetHandleProxy(): The engine is gone! Cannot create any handles.")

/-- The function `V8EngineProxy::GetHandleProxy`.  `gc` is the collector's choice should the function
call `IdleNotificationDeadline`. -/
def V8EngineProxy.GetHandleProxy (g : Statics) (e : V8EngineProxy) (handle : Option Value)
    (gc : List Nat) : V8EngineProxy × Except String Nat :=
  match e.lookup handle with
  | some p => (e, .ok p)
  | none => V8EngineProxy.acquire g (e.drained g gc) handle

/-! ## Exported entry points -/

/-- The function `HandleProxy::EngineProxy()`: the owning engine, or null once it is disposed. -/
def HandleProxy.EngineProxy (g : Statics) (h : HandleProxy) : Option Int :=
  if 0 ≤ h._EngineID ∧ V8EngineProxy.IsDisposed g h._EngineID = false then h._EngineProxy
  else none

/-- The exported `DisposeHandleProxy` of `Exports.cpp`; the engine the proxy points to is
`e`. -/
def Exports.DisposeHandleProxy (g : Statics) (e : V8EngineProxy) (handleProxy : Option Nat) :
    V8EngineProxy :=
  match handleProxy with
  | none => e
  | some p =>
    match e.heap[p]? with
    | none => e
    | some h =>
      match h.EngineProxy g with
      | none => e
      | some _ =>
        if e.IsExecutingScript then e.QueueHandleDisposal (some p)
        else (HandleProxy.Dispose g e p).1

/-- The exported `MakeWeakHandle` of `Exports.cpp`; the engine the proxy points to is `e`. -/
def Exports.MakeWeakHandle (g : Statics) (e : V8EngineProxy) (handleProxy : Option Nat) :
    V8EngineProxy :=
  match handleProxy with
  | none => e
  | some p =>
    match e.heap[p]? with
    | none => e
    | some h =>
      match h.EngineProxy g with
      | none => e
      | some _ => HandleProxy.MakeWeak e p

/-- The exported `MakeStrongHandle` of `Exports.cpp`; the engine the proxy points to is `e`. -/
def Exports.MakeStrongHandle (g : Statics) (e : V8EngineProxy) (handleProxy : Option Nat) :
    V8EngineProxy :=
  match handleProxy with
  | none => e
  | some p =>
    match e.heap[p]? with
    | none => e
    | some h =>
      match h.EngineProxy g with
      | none => e
      | some _ => HandleProxy.MakeStrong e p

/-! ## Construction and destruction of engines -/

/-- The static initialisers `_DisposedEngines(100, false)` and `_NextEngineID = 0`. -/
def Statics.initial : Statics :=
  { _DisposedEngines := List.replicate 100 false, _NextEngineID := 0 }

/-- The call `std::vector<bool>::resize(n)`: the entries added are `false`. -/
def Statics.resize (l : List Bool) (n : Nat) : List Bool :=
  l.take n ++ List.replicate (n - l.length) false

/-- The constructor `V8EngineProxy::V8EngineProxy`, as far as the table of disposed engines, the engine
id and the handle system go.  `capacity` is what `_DisposedEngines.capacity()` returns,
which the implementation of `std::vector<bool>` decides; it is at least the size. -/
def V8EngineProxy.ctor (g : Statics) (capacity : Nat) : Statics × V8EngineProxy :=
  let t1 :=
    if decide (g._NextEngineID < 0) || decide (capacity ≤ g._NextEngineID.toNat)
    then Statics.resize g._DisposedEngines (capacity + 32) else g._DisposedEngines
  let t2 := if g._NextEngineID = 0 then [] else t1
  ({ _DisposedEngines := t2 ++ [false], _NextEngineID := g._NextEngineID + 1 },
    V8EngineProxy.init g._NextEngineID)

/-- The destructor `V8EngineProxy::~V8EngineProxy`, as far as proxies and the table of disposed
engines go: every value is cleared, the engine is flagged, and `_Dispose(false)` is called
on each cached proxy.  An index outside a vector is undefined behaviour in the source:
the model changes nothing there. -/
def V8EngineProxy.dtor (g : Statics) (e : V8EngineProxy) : Statics × V8EngineProxy :=
  let e1 := e._Handles.foldl (fun e0 p => e0.update p HandleProxy._ClearHandleValue) e
  let g1 : Statics :=
    { g with
      _DisposedEngines :=
        if 0 ≤ e._EngineID then g._DisposedEngines.set e._EngineID.toNat true
        else g._DisposedEngines }
  let e2 := e1._DisposedHandles.foldl (fun e0 id =>
    match (if 0 ≤ id then e0._Handles[id.toNat]? else none) with
    | some p => (HandleProxy._Dispose g1 e0 p false).1
    | none => e0) e1
  (g1, e2)

/-! ## Connecting an object to the host -/

/-- The object once `ConnectObject` stored the identity id in it: internal field 1 holds
the id when the object has more than one internal field.  The private property written
has the name `ManagedObjectID`; the static `HandleProxy::GetManagedObjectID` reads `$ManagedObjectID`,
so `PrivateManagedObjectID` is as before. -/
def Value.withManagedObjectID (v : Value) (managedObjectID : Int) : Value :=
  if v.InternalFieldCount > 1 then { v with InternalField1External := some managedObjectID }
  else v

/-- The exported `ConnectObject` of `Exports.cpp`; the engine the proxy points to is `e`.
The argument `templateProxy` goes to internal field 0 only, which nothing here reads, and
is left out.  The object is reached through the handle of the proxy. -/
def Exports.ConnectObject (g : Statics) (e : V8EngineProxy) (handleProxy : Nat)
    (managedObjectID : Int) : V8EngineProxy :=
  match e.heap[handleProxy]? with
  | none => e
  | some h =>
    match h.EngineProxy g with
    | none => e
    | some _ =>
      let r := if managedObjectID = -1 then e.GetNextNonTemplateObjectID
        else (e, managedObjectID)
      let e1 := r.1.update handleProxy (fun h0 =>
        match h0._Handle with
        | some pv =>
          if pv.value.IsObject
          then { h0 with _Handle := some { pv with value := pv.value.withManagedObjectID r.2 } }
          else h0
        | none => h0)
      (HandleProxy.SetManagedObjectID e1 handleProxy r.2).1

/-! ## Resource constraints -/

/-- The constant `constexpr int KB = 1024`. -/
def KB : Int := 1024

/-- The constant `constexpr int MB = KB * 1024`, the product taken in `int`. -/
def MB : Int := toInt32 (KB * 1024)

/-- The constant `constexpr int GB = MB * 1024`, the product taken in `int`. -/
def GB : Int := toInt32 (MB * 1024)

/-- The expression `10 * GB` the constructor passes as maximum heap size, evaluated in
`int` with overflow modulo `2^32`. -/
def V8EngineProxy.maximumHeapSize : Int := toInt32 (10 * GB)

/-- The expression `9 * GB` the constructor passes as code range size, evaluated in `int`
with overflow modulo `2^32`. -/
def V8EngineProxy.codeRangeSize : Int := toInt32 (9 * GB)

/-! ## The registry invariant and the shapes of states -/

/-- The fields of a proxy the registry bookkeeping depends on. -/
def HandleProxy.core (h : HandleProxy) : Int × Int × Int × Int × Option Int × Bool :=
  (h._ID, h._ObjectID, h._ManagedReference, h._EngineID, h._EngineProxy, h.IsDisposed)

/-- The registry invariant. -/
structure Inv (g : Statics) (e : V8EngineProxy) : Prop where
  live : V8EngineProxy.IsDisposed g e._EngineID = false
  next : e._NextNonTemplateObjectID ≤ -2
  handles : e._Handles = List.range e.heap.length
  ids : ∀ (p : Nat) (h : HandleProxy), e.heap[p]? = some h → h._ID = (p : Int)
  ready : ∀ (p : Nat) (h : HandleProxy), e.heap[p]? = some h → h._ManagedReference < 2
  owner : ∀ (p : Nat) (h : HandleProxy), e.heap[p]? = some h → h.IsDisposed = false →
    h._EngineID = e._EngineID ∧ h._EngineProxy = some e._EngineID
  cleared : ∀ (p : Nat) (h : HandleProxy), e.heap[p]? = some h → h.IsDisposed = true → h._ObjectID = -1
  freeNodup : e._DisposedHandles.Nodup
  freeDisposed : ∀ id ∈ e._DisposedHandles,
    0 ≤ id ∧ ∃ h, e.heap[id.toNat]? = some h ∧ h.IsDisposed = true
  pendingValid : ∀ p ∈ e._HandlesPendingDisposal, p < e.heap.length
  weakValid : ∀ p ∈ e._HandlesToBeMadeWeak, p < e.heap.length
  strongValid : ∀ p ∈ e._HandlesToBeMadeStrong, p < e.heap.length
  objsSound : ∀ (i p : Nat), e._Objects[i]? = some (some p) →
    ∃ h, e.heap[p]? = some h ∧ h.IsDisposed = false ∧ h._ObjectID = (i : Int)
  objsComplete : ∀ (p : Nat) (h : HandleProxy), e.heap[p]? = some h → h.IsDisposed = false → 0 ≤ h._ObjectID →
    e._Objects[h._ObjectID.toNat]? = some (some p)

/-- The state `_Dispose(false)` leaves a proxy in: cleared and cached. -/
def HandleProxy.clearedState (h : HandleProxy) : HandleProxy :=
  { h with _Disposed := 3, _Handle := none, _Script := none, _ObjectID := -1,
           _CLRTypeID := -1, _ManagedReference := 0, _Type := .JSV_Uninitialized,
           _EngineID := -1, _EngineProxy := none }

/-- What the disposal-side operations guarantee, from a state that satisfies the registry
invariant: the invariant again, and a frame. -/
structure Drains (g : Statics) (e e' : V8EngineProxy) : Prop where
  inv : Inv g e'
  engineID : e'._EngineID = e._EngineID
  next : e'._NextNonTemplateObjectID = e._NextNonTemplateObjectID
  scope : e'._InCallbackScope = e._InCallbackScope
  callback : e'._ManagedV8GarbageCollectionRequestCallback
    = e._ManagedV8GarbageCollectionRequestCallback
  handles : e'._Handles = e._Handles
  heapLen : e'.heap.length = e.heap.length
  objsLen : e'._Objects.length = e._Objects.length
  objsFree : ∀ i : Nat, e._Objects.getD i none = none → e'._Objects.getD i none = none

/-- The identity table after the identity id `id` was registered for the proxy `p`. -/
def registerObject (objs : List (Option Nat)) (p : Nat) (id : Int) : List (Option Nat) :=
  if 0 ≤ id then
    (if id ≥ (objs.length : Int)
      then V8EngineProxy.resizeObjects objs ((id + 100) * 2).toNat else objs).set
      id.toNat (some p)
  else objs

/-- The identity id `SetHandle` leaves in a proxy whose `_ObjectID` was `-1`: pulled from
the value for the object kinds (the engine's next non-template id when the value has
none), `-1` otherwise. -/
def HandleProxy.pulledID (next : Int) (handle : Option Value) : Int :=
  if (HandleProxy.classify handle).2 then
    (if HandleProxy.GetManagedObjectIDStatic handle = -1 then next
      else HandleProxy.GetManagedObjectIDStatic handle)
  else -1

/-- The proxy `SetHandle` leaves behind. -/
def HandleProxy.withValue (h : HandleProxy) (next : Int) (handle : Option Value) :
    HandleProxy :=
  { h with _Handle := handle.map (fun v => { value := v, weak := false }), _Script := none,
           _Type := (HandleProxy.classify handle).1,
           _ObjectID := HandleProxy.pulledID next handle }

/-- The proxy a recycled slot holds when `Initialize` has reset `_Disposed`. -/
def HandleProxy.reactivated (h : HandleProxy) (engineID : Int) : HandleProxy :=
  { h with _EngineProxy := some engineID, _EngineID := engineID, _Disposed := 0 }

/-- The engine once the last id of the free-list was popped and its proxy reactivated. -/
def V8EngineProxy.recycled (e : V8EngineProxy) (p : Nat) (h : HandleProxy) : V8EngineProxy :=
  { e with _DisposedHandles := e._DisposedHandles.dropLast,
           heap := e.heap.set p (h.reactivated e._EngineID) }

/-- The engine once a new proxy was allocated and recorded in `_Handles`. -/
def V8EngineProxy.allocated (e : V8EngineProxy) : V8EngineProxy :=
  { e with heap := e.heap ++ [HandleProxy.ctor e._EngineID e._Handles.length],
           _Handles := e._Handles ++ [e.heap.length] }

/-- What a drain leaves untouched about a proxy `p` that is not queued for disposal. -/
structure Keeps (p : Nat) (e e' : V8EngineProxy) : Prop where
  proxy : ∀ h : HandleProxy, e.heap[p]? = some h →
    ∃ h', e'.heap[p]? = some h' ∧ h'.core = h.core ∧ (h._Disposed = 0 → h'._Disposed = 0)
  objs : ∀ i : Nat, e._Objects[i]? = some (some p) → e'._Objects[i]? = some (some p)
  pending : ∀ q ∈ e'._HandlesPendingDisposal, q ∈ e._HandlesPendingDisposal

/-- The states an engine reaches from its construction through the handle operations:
`GetHandleProxy`, the disposal requests, the queues and their drain, the weak and strong
requests, the collector's weak callbacks, and the callback scopes of the host. -/
inductive Reachable (g : Statics) : V8EngineProxy → Prop where
  | init (engineID : Int) (hlive : V8EngineProxy.IsDisposed g engineID = false) :
      Reachable g (V8EngineProxy.init engineID)
  | getHandleProxy {e : V8EngineProxy} (v : Option Value) (gc : List Nat) :
      Reachable g e → Reachable g (e.GetHandleProxy g v gc).1
  | dispose {e : V8EngineProxy} (p : Nat) :
      Reachable g e → Reachable g (HandleProxy.Dispose g e p).1
  | tryDispose {e : V8EngineProxy} (p : Nat) :
      Reachable g e → Reachable g (HandleProxy.TryDispose g e p).1
  | disposeHandleProxy {e : V8EngineProxy} (p : Option Nat) :
      Reachable g e → Reachable g (V8EngineProxy.DisposeHandleProxy g e p)
  | queueHandleDisposal {e : V8EngineProxy} (p : Option Nat) :
      Reachable g e → Reachable g (e.QueueHandleDisposal p)
  | processHandleQueues {e : V8EngineProxy} (loops : Int) :
      Reachable g e → Reachable g (e.ProcessHandleQueues g loops)
  | exportedDisposeHandleProxy {e : V8EngineProxy} (p : Option Nat) :
      Reachable g e → Reachable g (Exports.DisposeHandleProxy g e p)
  | makeWeak {e : V8EngineProxy} (p : Nat) :
      Reachable g e → Reachable g (HandleProxy.MakeWeak e p)
  | makeStrong {e : V8EngineProxy} (p : Nat) :
      Reachable g e → Reachable g (HandleProxy.MakeStrong e p)
  | queueMakeWeak {e : V8EngineProxy} (p : Nat) :
      Reachable g e → Reachable g (e.QueueMakeWeak p)
  | queueMakeStrong {e : V8EngineProxy} (p : Nat) :
      Reachable g e → Reachable g (e.QueueMakeStrong p)
  | collect {e : V8EngineProxy} (gc : List Nat) :
      Reachable g e → Reachable g (e.IdleNotificationDeadline g gc)
  | registerGCCallback {e : V8EngineProxy} (c : Option (HandleProxy → Bool)) :
      Reachable g e →
        Reachable g { e with _ManagedV8GarbageCollectionRequestCallback := c }
  | enterCallbackScope {e : V8EngineProxy} :
      Reachable g e → Reachable g { e with _InCallbackScope := e._InCallbackScope + 1 }
  | leaveCallbackScope {e : V8EngineProxy} :
      Reachable g e → Reachable g { e with _InCallbackScope := e._InCallbackScope - 1 }
  | setExecutingScript {e : V8EngineProxy} (b : Bool) :
      Reachable g e → Reachable g { e with _IsExecutingScript := b }

/-- A process in which one engine, with engine id 0, was constructed and is alive. -/
def Example.statics : Statics := { _DisposedEngines := [false], _NextEngineID := 1 }

/-- A plain script object: no internal fields, no identity. -/
def Example.objectA : Value := { IsObject := true }

/-- Another plain object (an array). -/
def Example.objectB : Value := { IsObject := true, IsArray := true }

/-- An object created from a template, whose internal field 1 holds the identity id 5. -/
def Example.templateObject : Value :=
  { IsObject := true, InternalFieldCount := 2, InternalField1External := some 5 }

/-- A small integer value. -/
def Example.number : Value := { IsInt32 := true, IsNumber := true }

/-- The engine with id 0 after `GetHandleProxy` on `objectA`. -/
def Example.wrappedA : V8EngineProxy :=
  ((V8EngineProxy.init 0).GetHandleProxy Example.statics (some Example.objectA) []).1

/-- The engine with id 0 after `GetHandleProxy` on `templateObject`. -/
def Example.wrappedT : V8EngineProxy :=
  ((V8EngineProxy.init 0).GetHandleProxy Example.statics (some Example.templateObject) []).1

/-- The engine of `wrappedT` once the disposal of its proxy was queued. -/
def Example.queuedT : V8EngineProxy := Example.wrappedT.QueueHandleDisposal (some 0)

/-- The engine of `wrappedA` once the managed side recorded a reference of its own to the
proxy (`_ManagedReference = 2`). -/
def Example.trackedA : V8EngineProxy :=
  Example.wrappedA.update 0 (fun h => { h with _ManagedReference := 2 })

/-- The engine of `wrappedA` inside a callback to the host (`_InCallbackScope = 1`). -/
def Example.inCallbackA : V8EngineProxy :=
  { Example.wrappedA with _InCallbackScope := Example.wrappedA._InCallbackScope + 1 }

/-- What the queue blocks of `ProcessHandleQueues` leave untouched while no disposal is
applied. -/
structure Quiet (e e' : V8EngineProxy) : Prop where
  scope : e'._InCallbackScope = e._InCallbackScope
  pending : e'._HandlesPendingDisposal = e._HandlesPendingDisposal
  free : e'._DisposedHandles = e._DisposedHandles
  objs : e'._Objects = e._Objects
  handles : e'._Handles = e._Handles
  disposed : e'.heap.map HandleProxy.IsDisposed = e.heap.map HandleProxy.IsDisposed

/-- A number that is not a small integer. -/
def Example.number2 : Value := { IsNumber := true }

/-- The engine 0 after `GetHandleProxy` on `number`. -/
def Example.wrappedNumber : V8EngineProxy :=
  ((V8EngineProxy.init 0).GetHandleProxy Example.statics (some Example.number) []).1

/-- The engine of `wrappedNumber` once its proxy was disposed. -/
def Example.disposedNumber : V8EngineProxy :=
  (HandleProxy.Dispose Example.statics Example.wrappedNumber 0).1

/-- The engine of `inCallbackA` after the exported `DisposeHandleProxy` on slot 0. -/
def Example.queuedA : V8EngineProxy :=
  Exports.DisposeHandleProxy Example.statics Example.inCallbackA (some 0)

/-- The engine of `queuedA` once the callback returned and `ProcessHandleQueues(10)` ran. -/
def Example.freedA : V8EngineProxy :=
  V8EngineProxy.ProcessHandleQueues Example.statics
    { Example.queuedA with _InCallbackScope := Example.queuedA._InCallbackScope - 1 } 10

/-- One cycle: `GetHandleProxy` on a value, then `HandleProxy::Dispose` of the proxy it
returned.  The second component of `x` is the collector's choice during the call. -/
def wrapDisposeCycle (g : Statics) (e : V8EngineProxy) (x : Option Value × List Nat) :
    V8EngineProxy :=
  match (e.GetHandleProxy g x.1 x.2).2 with
  | .ok p => (HandleProxy.Dispose g (e.GetHandleProxy g x.1 x.2).1 p).1
  | .error _ => (e.GetHandleProxy g x.1 x.2).1

/-- Consecutive cycles, one for each element of `xs`. -/
def wrapDisposeCycles (g : Statics) (e : V8EngineProxy) (xs : List (Option Value × List Nat)) :
    V8EngineProxy :=
  xs.foldl (wrapDisposeCycle g) e

/-- The engine between two cycles: one slot, parked on the free-list; nothing queued, no
identity registered. -/
structure Parked (g : Statics) (e : V8EngineProxy) : Prop where
  inv : Inv g e
  oneSlot : e._Handles.length = 1
  free : e._DisposedHandles = [0]
  pending : e._HandlesPendingDisposal = []
  weak : e._HandlesToBeMadeWeak = []
  strong : e._HandlesToBeMadeStrong = []
  objs : ∀ (i q : Nat), e._Objects[i]? ≠ some (some q)

/-- The engine of `trackedA` with a host revival predicate that always answers true
registered and the value of the proxy made weak. -/
def Example.weakTrackedA : V8EngineProxy :=
  HandleProxy.MakeWeak
    { Example.trackedA with
      _ManagedV8GarbageCollectionRequestCallback := some (fun _ => true) } 0

/-- The proxy of `trackedA`, its value made weak. -/
def Example.weakProxyA : HandleProxy :=
  { _ID := 0, _ObjectID := -2, _CLRTypeID := -1, _Type := .JSV_Object, _ManagedReference := 2,
    _Disposed := 0, _EngineID := 0, _EngineProxy := some 0,
    _Handle := some { value := Example.objectA, weak := true }, _Script := none,
    freed := false }

/-- The engine of `trackedA` with a host revival predicate that always answers false
registered and the value of the proxy made weak. -/
def Example.refusingA : V8EngineProxy :=
  HandleProxy.MakeWeak
    { Example.trackedA with
      _ManagedV8GarbageCollectionRequestCallback := some (fun _ => false) } 0

/-- The statics once engine 0 was destroyed. -/
def Example.staticsGone : Statics := { _DisposedEngines := [true], _NextEngineID := 1 }

/-- The proxy of `wrappedA`. -/
def Example.proxyA : HandleProxy :=
  { _ID := 0, _ObjectID := -2, _CLRTypeID := -1, _Type := .JSV_Object, _ManagedReference := 0,
    _Disposed := 0, _EngineID := 0, _EngineProxy := some 0,
    _Handle := some { value := Example.objectA, weak := false }, _Script := none,
    freed := false }

/-- The state `delete this` leaves a proxy in: the destructor `~HandleProxy` ran. -/
def HandleProxy.deleted (h : HandleProxy) : HandleProxy :=
  { h with _Handle := none, _Script := none, _Type := .JSV_Uninitialized, _ObjectID := -1,
           _Disposed := 3, _ManagedReference := 0, freed := true }

/-- The proxy `h` with its value strong. -/
def HandleProxy.strengthened (h : HandleProxy) : HandleProxy :=
  { h with _Handle := h._Handle.map (fun v => { value := v.value, weak := false }) }

/-- What V8 guarantees about the answers one value gives to the checks of `v8::Value`:
an int32 is a number, `true` and `false` are booleans, the values of the object classes
are objects, a value is of at most one of the kinds undefined, null, boolean, number,
string and object, and an object is of at most one of the classes boolean-object,
number-object, string-object, date, array, regexp and function. -/
def Value.Coherent (v : Value) : Prop :=
  (v.IsInt32 = true → v.IsNumber = true) ∧
  (v.IsTrue = true → v.IsBoolean = true) ∧
  (v.IsFalse = true → v.IsBoolean = true) ∧
  ((v.IsBooleanObject || v.IsNumberObject || v.IsStringObject || v.IsDate || v.IsArray
      || v.IsRegExp || v.IsFunction || v.IsNativeError) = true → v.IsObject = true) ∧
  List.count true
    [v.IsObject, v.IsBoolean, v.IsNumber, v.IsString, v.IsNull, v.IsUndefined] ≤ 1 ∧
  List.count true
    [v.IsBooleanObject, v.IsNumberObject, v.IsStringObject, v.IsDate, v.IsArray, v.IsRegExp,
      v.IsFunction] ≤ 1

instance (v : Value) : Decidable v.Coherent := by
  unfold Value.Coherent
  infer_instance

/-- The checks of `HandleProxy::SetHandle` on a non-empty handle, in the order of the source, each
with the tag its branch assigns. -/
def HandleProxy.checks : List ((Value → Bool) × JSValueType) :=
  [ (Value.IsBoolean, .JSV_Bool), (Value.IsBooleanObject, .JSV_BoolObject),
    (Value.IsInt32, .JSV_Int32), (Value.IsNumber, .JSV_Number),
    (Value.IsNumberObject, .JSV_NumberObject), (Value.IsString, .JSV_String),
    (Value.IsStringObject, .JSV_StringObject), (Value.IsDate, .JSV_Date),
    (Value.IsArray, .JSV_Array), (Value.IsRegExp, .JSV_RegExp), (Value.IsNull, .JSV_Null),
    (Value.IsFunction, .JSV_Function), (Value.IsExternal, .JSV_Undefined),
    (Value.IsNativeError, .JSV_Undefined), (Value.IsUndefined, .JSV_Undefined),
    (Value.IsObject, .JSV_Object), (Value.IsFalse, .JSV_Bool), (Value.IsTrue, .JSV_Bool) ]

/-- The tag the proxy at `p` carries after `SetHandle(handle)`. -/
def HandleProxy.tagAfterSetHandle (e : V8EngineProxy) (p : Nat) (handle : Option Value) :
    Option JSValueType :=
  ((HandleProxy.SetHandle e p handle).heap[p]?).map (fun h => h._Type)

/-- A function object. -/
def Example.function : Value := { IsFunction := true, IsObject := true }

/-- A symbol: a value none of the checks of `SetHandle` recognises. -/
def Example.symbol : Value := { }

/-- A process, as far as engines come and go: the statics, the ids of the engines that
are alive, and the history: the ids handed out, in the order of construction, and the ids
of the engines destroyed so far. -/
structure Process where
  statics : Statics
  alive : List Int
  constructed : List Int
  destroyed : List Int

/-- The process before the first engine is constructed. -/
def Process.initial : Process :=
  { statics := Statics.initial, alive := [], constructed := [], destroyed := [] }

/-- A process after the construction of one more engine. -/
def Process.construct (s : Process) (capacity : Nat) : Process :=
  { statics := (V8EngineProxy.ctor s.statics capacity).1,
    alive := s.alive ++ [(V8EngineProxy.ctor s.statics capacity).2._EngineID],
    constructed := s.constructed ++ [(V8EngineProxy.ctor s.statics capacity).2._EngineID],
    destroyed := s.destroyed }

/-- A process after the destruction of the engine whose state is `e`. -/
def Process.destroy (s : Process) (e : V8EngineProxy) : Process :=
  { statics := (V8EngineProxy.dtor s.statics e).1,
    alive := s.alive.erase e._EngineID,
    constructed := s.constructed,
    destroyed := e._EngineID :: s.destroyed }

/-- The processes that arise from constructions and destructions of engines.  An engine
that is destroyed is alive, `e` being the state its handle operations left it in. -/
inductive Process.Reachable : Process → Prop where
  | initial : Process.Reachable Process.initial
  | construct {s : Process} (capacity : Nat)
      (hcap : s.statics._DisposedEngines.length ≤ capacity) :
      Process.Reachable s → Process.Reachable (s.construct capacity)
  | destroy {s : Process} (e : V8EngineProxy) (halive : e._EngineID ∈ s.alive) :
      Process.Reachable s → Process.Reachable (s.destroy e)

/-- The bookkeeping of engine ids. -/
structure Process.Inv (s : Process) : Prop where
  next : s.statics._NextEngineID = (s.constructed.length : Int)
  ids : ∀ (k : Nat) (id : Int), s.constructed[k]? = some id → id = (k : Int)
  bound : s.constructed.length = 0 ∨ s.constructed.length ≤ s.statics._DisposedEngines.length
  flagged : ∀ i : Nat, s.statics._DisposedEngines.getD i false = true → (i : Int) ∈ s.destroyed
  destroyed : ∀ id ∈ s.destroyed,
    id ∈ s.constructed ∧ s.statics._DisposedEngines.getD id.toNat false = true
  alive : ∀ id ∈ s.alive, id ∈ s.constructed ∧ id ∉ s.destroyed
  accounted : ∀ id ∈ s.constructed, id ∈ s.alive ∨ id ∈ s.destroyed
  nodup : s.alive.Nodup

/-- Two engines constructed, the first one destroyed. -/
def Example.process : Process :=
  ((Process.initial.construct 128).construct 128).destroy (V8EngineProxy.init 0)

/-- A disposed proxy no longer points to an engine. -/
def HandleProxy.Detached (h : HandleProxy) : Prop :=
  h.IsDisposed = true → h._EngineID = -1 ∧ h._EngineProxy = none

/-- Every disposed proxy of the engine is detached. -/
def V8EngineProxy.Detached (e : V8EngineProxy) : Prop :=
  ∀ (p : Nat) (h : HandleProxy), e.heap[p]? = some h → h.Detached

/-- The identity table after the entry of the identity id `id` was nulled. -/
def unregisterObject (objs : List (Option Nat)) (id : Int) : List (Option Nat) :=
  if 0 ≤ id ∧ id < (objs.length : Int) then objs.set id.toNat none else objs

/-- No non-disposed proxy other than `p` has the identity id `id`. -/
def V8EngineProxy.Unused (e : V8EngineProxy) (p : Nat) (id : Int) : Prop :=
  ∀ (q : Nat) (x : HandleProxy), q ≠ p → e.heap[q]? = some x → x.IsDisposed = false →
    x._ObjectID ≠ id

/-- The states an engine reaches from its construction through `GetHandleProxy`,
`HandleProxy::SetManagedObjectID`, the exported `ConnectObject`, `HandleProxy::Dispose` and
`ProcessHandleQueues`, the host never giving a proxy a non-negative identity id that
another non-disposed proxy holds. -/
inductive IdentityReachable (g : Statics) : V8EngineProxy → Prop where
  | init (engineID : Int) (hlive : V8EngineProxy.IsDisposed g engineID = false) :
      IdentityReachable g (V8EngineProxy.init engineID)
  | getHandleProxy {e : V8EngineProxy} (v : Option Value) (gc : List Nat) :
      IdentityReachable g e → IdentityReachable g (e.GetHandleProxy g v gc).1
  | setManagedObjectID {e : V8EngineProxy} (p : Nat) (id : Int)
      (hunused : 0 ≤ id → e.Unused p id) :
      IdentityReachable g e → IdentityReachable g (HandleProxy.SetManagedObjectID e p id).1
  | connectObject {e : V8EngineProxy} (p : Nat) (id : Int)
      (hunused : 0 ≤ id → e.Unused p id) :
      IdentityReachable g e → IdentityReachable g (Exports.ConnectObject g e p id)
  | dispose {e : V8EngineProxy} (p : Nat) :
      IdentityReachable g e → IdentityReachable g (HandleProxy.Dispose g e p).1
  | processHandleQueues {e : V8EngineProxy} (loops : Int) :
      IdentityReachable g e → IdentityReachable g (e.ProcessHandleQueues g loops)

/-- A decidable test for `Unused`. -/
def V8EngineProxy.unusedCheck (e : V8EngineProxy) (p : Nat) (id : Int) : Bool :=
  (List.range e.heap.length).all (fun q =>
    q == p ||
      (match e.heap[q]? with
       | some x => x.IsDisposed || decide (x._ObjectID ≠ id)
       | none => true))

/-- The engine with id 0 after `GetHandleProxy` on `objectA` and on `objectB`: two
proxies, slots 0 and 1. -/
def Example.wrappedAB : V8EngineProxy :=
  (Example.wrappedA.GetHandleProxy Example.statics (some Example.objectB) []).1

/-- The engine of `wrappedAB` after the host connected both proxies to the identity
id 7. -/
def Example.sharedID : V8EngineProxy :=
  Exports.ConnectObject Example.statics
    (Exports.ConnectObject Example.statics Example.wrappedAB 0 7) 1 7

/-- The engine of `wrappedAB` after the host connected the proxies to the identity ids 7
and 8. -/
def Example.connectedAB : V8EngineProxy :=
  Exports.ConnectObject Example.statics
    (Exports.ConnectObject Example.statics Example.wrappedAB 0 7) 1 8

/-- The proxy of slot 0 in `connectedAB`: connected to the identity id 7. -/
def Example.connectedProxyA : HandleProxy := { Example.proxyA with _ObjectID := 7 }

/-- The proxy of slot 1 in `connectedAB`: it holds `objectB` and is connected to the
identity id 8. -/
def Example.connectedProxyB : HandleProxy :=
  { _ID := 1, _ObjectID := 8, _CLRTypeID := -1, _Type := .JSV_Array, _ManagedReference := 0,
    _Disposed := 0, _EngineID := 0, _EngineProxy := some 0,
    _Handle := some { value := Example.objectB, weak := false }, _Script := none,
    freed := false }

/-- The engine of `wrappedA` after the host connected its proxy to the identity id 7. -/
def Example.connectedA : V8EngineProxy :=
  Exports.ConnectObject Example.statics Example.wrappedA 0 7

/-- A native error object: it passes the native-error check and the object check. -/
def Example.nativeError : Value := { IsNativeError := true, IsObject := true }

/-- The pairs of tag and identity pull that `SetHandle` has for the object kinds. -/
def HandleProxy.objectKinds : List (JSValueType × Bool) :=
  [ (.JSV_BoolObject, true), (.JSV_NumberObject, true), (.JSV_StringObject, true),
    (.JSV_Date, true), (.JSV_Array, true), (.JSV_RegExp, true), (.JSV_Function, true),
    (.JSV_Object, true) ]

/-- The reentrancy counter and the three queues are the same in both states. -/
structure SameQueues (e e' : V8EngineProxy) : Prop where
  scope : e'._InCallbackScope = e._InCallbackScope
  pending : e'._HandlesPendingDisposal = e._HandlesPendingDisposal
  weak : e'._HandlesToBeMadeWeak = e._HandlesToBeMadeWeak
  strong : e'._HandlesToBeMadeStrong = e._HandlesToBeMadeStrong

/-- One iteration of the loop of `ProcessHandleQueues`, the state only. -/
def V8EngineProxy.iteration (g : Statics) (e : V8EngineProxy) : V8EngineProxy :=
  (e.processStep g).1

/-- The proxies the disposal block of `ProcessHandleQueues` pops and applies `Dispose` to
in `n` successive iterations, first one first. -/
def V8EngineProxy.appliedDisposals (g : Statics) : Nat → V8EngineProxy → List Nat
  | 0, _ => []
  | n + 1, e =>
    (if e._InCallbackScope = 0 then e._HandlesPendingDisposal.getLast?.toList else []) ++
      V8EngineProxy.appliedDisposals g n (e.iteration g)

/-- The proxies the make-weak block pops and applies `MakeWeak` to in `n` successive
iterations. -/
def V8EngineProxy.appliedMakeWeaks (g : Statics) : Nat → V8EngineProxy → List Nat
  | 0, _ => []
  | n + 1, e =>
    e._HandlesToBeMadeWeak.getLast?.toList ++ V8EngineProxy.appliedMakeWeaks g n (e.iteration g)

/-- The proxies the make-strong block pops and applies `MakeStrong` to in `n` successive
iterations. -/
def V8EngineProxy.appliedMakeStrongs (g : Statics) : Nat → V8EngineProxy → List Nat
  | 0, _ => []
  | n + 1, e =>
    e._HandlesToBeMadeStrong.getLast?.toList ++
      V8EngineProxy.appliedMakeStrongs g n (e.iteration g)

/-- The engine of `wrappedAB` after `QueueHandleDisposal` on slot 0 and then on slot 1. -/
def Example.twoQueued : V8EngineProxy :=
  (Example.wrappedAB.QueueHandleDisposal (some 0)).QueueHandleDisposal (some 1)

/-- The state of the pending-disposal queue while no proxy is weak and nothing waits to be
made weak: no proxy is queued twice, and a queued proxy is not disposed and has bit 16
set. -/
structure PendingOK (e : V8EngineProxy) : Prop where
  nodup : e._HandlesPendingDisposal.Nodup
  queued : ∀ p ∈ e._HandlesPendingDisposal,
    ∃ h, e.heap[p]? = some h ∧ h.IsDisposed = false ∧ h.IsDisposing = true
  noWeakQueue : e._HandlesToBeMadeWeak = []
  noWeak : ∀ (p : Nat) (h : HandleProxy), e.heap[p]? = some h → h.IsWeak = false

/-- The states an engine reaches from its construction through `GetHandleProxy`,
`QueueHandleDisposal`, `QueueMakeStrong`, `ProcessHandleQueues`, and `HandleProxy::Dispose` called
on proxies that are not in the pending-disposal queue. -/
inductive DisposalReachable (g : Statics) : V8EngineProxy → Prop where
  | init (engineID : Int) (hlive : V8EngineProxy.IsDisposed g engineID = false) :
      DisposalReachable g (V8EngineProxy.init engineID)
  | getHandleProxy {e : V8EngineProxy} (v : Option Value) (gc : List Nat) :
      DisposalReachable g e → DisposalReachable g (e.GetHandleProxy g v gc).1
  | queueHandleDisposal {e : V8EngineProxy} (p : Option Nat) :
      DisposalReachable g e → DisposalReachable g (e.QueueHandleDisposal p)
  | queueMakeStrong {e : V8EngineProxy} (p : Nat) :
      DisposalReachable g e → DisposalReachable g (e.QueueMakeStrong p)
  | dispose {e : V8EngineProxy} (p : Nat) (hq : p ∉ e._HandlesPendingDisposal) :
      DisposalReachable g e → DisposalReachable g (HandleProxy.Dispose g e p).1
  | processHandleQueues {e : V8EngineProxy} (loops : Int) :
      DisposalReachable g e → DisposalReachable g (e.ProcessHandleQueues g loops)

/-- The engine of `wrappedA` after `QueueHandleDisposal` on its proxy and then
`HandleProxy::Dispose` on it. -/
def Example.staleQueue : V8EngineProxy :=
  (HandleProxy.Dispose Example.statics (Example.wrappedA.QueueHandleDisposal (some 0)) 0).1

/-- The engine of `wrappedAB` after slot 1 and then slot 0 were queued for disposal, both
were disposed by `HandleProxy::Dispose`, and `GetHandleProxy` on `number` recycled slot 1. -/
def Example.recycledWhileQueued : V8EngineProxy :=
  ((HandleProxy.Dispose Example.statics
      (HandleProxy.Dispose Example.statics
        ((Example.wrappedAB.QueueHandleDisposal (some 1)).QueueHandleDisposal (some 0))
        0).1 1).1.GetHandleProxy Example.statics (some Example.number) []).1

/-- The engine after `k` calls of `GetNextNonTemplateObjectID`. -/
def V8EngineProxy.afterNextIDs (e : V8EngineProxy) : Nat → V8EngineProxy
  | 0 => e
  | k + 1 => (V8EngineProxy.afterNextIDs e k).GetNextNonTemplateObjectID.1

/-- The identity ids of an engine with respect to its counter of non-template ids: every
id a proxy holds is above the id the counter hands out next, and an id below `-1` is held by
one proxy only. -/
structure Fresh (e : V8EngineProxy) : Prop where
  above : ∀ (p : Nat) (h : HandleProxy), e.heap[p]? = some h →
    e._NextNonTemplateObjectID < h._ObjectID
  distinct : ∀ (p q : Nat) (x y : HandleProxy), p ≠ q → e.heap[p]? = some x →
    e.heap[q]? = some y → x._ObjectID < -1 → x._ObjectID ≠ y._ObjectID

/-- The states an engine reaches from its construction through `GetHandleProxy` on values
that carry an identity id of the host or none, `HandleProxy::GetManagedObjectID`,
`SetManagedObjectID` and `ConnectObject` with host ids (`-1` for none) that no other live
proxy holds, `HandleProxy::Dispose` and `ProcessHandleQueues`. -/
inductive NativeReachable (g : Statics) : V8EngineProxy → Prop where
  | init (engineID : Int) (hlive : V8EngineProxy.IsDisposed g engineID = false) :
      NativeReachable g (V8EngineProxy.init engineID)
  | getHandleProxy {e : V8EngineProxy} (v : Option Value) (gc : List Nat)
      (hv : -1 ≤ HandleProxy.GetManagedObjectIDStatic v) :
      NativeReachable g e → NativeReachable g (e.GetHandleProxy g v gc).1
  | getManagedObjectID {e : V8EngineProxy} (p : Nat)
      (hv : ∀ h : HandleProxy, e.heap[p]? = some h →
        -1 ≤ HandleProxy.GetManagedObjectIDStatic (h._Handle.map (fun x => x.value)))
      (hunused : ∀ h : HandleProxy, e.heap[p]? = some h →
        0 ≤ HandleProxy.GetManagedObjectIDStatic (h._Handle.map (fun x => x.value)) →
        e.Unused p (HandleProxy.GetManagedObjectIDStatic (h._Handle.map (fun x => x.value)))) :
      NativeReachable g e → NativeReachable g (HandleProxy.GetManagedObjectID e p).1
  | setManagedObjectID {e : V8EngineProxy} (p : Nat) (id : Int) (hid : -1 ≤ id)
      (hunused : 0 ≤ id → e.Unused p id) :
      NativeReachable g e → NativeReachable g (HandleProxy.SetManagedObjectID e p id).1
  | connectObject {e : V8EngineProxy} (p : Nat) (id : Int) (hid : -1 ≤ id)
      (hunused : 0 ≤ id → e.Unused p id) :
      NativeReachable g e → NativeReachable g (Exports.ConnectObject g e p id)
  | dispose {e : V8EngineProxy} (p : Nat) :
      NativeReachable g e → NativeReachable g (HandleProxy.Dispose g e p).1
  | processHandleQueues {e : V8EngineProxy} (loops : Int) :
      NativeReachable g e → NativeReachable g (e.ProcessHandleQueues g loops)

/-- The proxy of `wrappedNumber`: it wraps a number and holds no identity id. -/
def Example.proxyNumber : HandleProxy :=
  { _ID := 0, _ObjectID := -1, _CLRTypeID := -1, _Type := .JSV_Int32, _ManagedReference := 0,
    _Disposed := 0, _EngineID := 0, _EngineProxy := some 0,
    _Handle := some { value := Example.number, weak := false }, _Script := none,
    freed := false }

/-! ## Lemmas -/

theorem and_one_pos (d : Nat) : decide (d &&& 1 > 0) = d.testBit 0 := by
  have h := Nat.and_two_pow d 0
  simp only [pow_zero, mul_one] at h
  rw [h]
  cases d.testBit 0 <;> simp

theorem isDisposed_eq_testBit (h : HandleProxy) : h.IsDisposed = h._Disposed.testBit 0 := by
  unfold HandleProxy.IsDisposed
  exact and_one_pos _

@[simp] theorem V8EngineProxy.update_EngineID (e : V8EngineProxy) (p : Nat)
    (f : HandleProxy → HandleProxy) : (e.update p f)._EngineID = e._EngineID := by
  unfold update; split <;> rfl

@[simp] theorem V8EngineProxy.update_NextNonTemplateObjectID (e : V8EngineProxy) (p : Nat)
    (f : HandleProxy → HandleProxy) :
    (e.update p f)._NextNonTemplateObjectID = e._NextNonTemplateObjectID := by
  unfold update; split <;> rfl

@[simp] theorem V8EngineProxy.update_Callback (e : V8EngineProxy) (p : Nat)
    (f : HandleProxy → HandleProxy) :
    (e.update p f)._ManagedV8GarbageCollectionRequestCallback
      = e._ManagedV8GarbageCollectionRequestCallback := by
  unfold update; split <;> rfl

@[simp] theorem V8EngineProxy.update_Handles (e : V8EngineProxy) (p : Nat)
    (f : HandleProxy → HandleProxy) : (e.update p f)._Handles = e._Handles := by
  unfold update; split <;> rfl

@[simp] theorem V8EngineProxy.update_HandlesPendingDisposal (e : V8EngineProxy) (p : Nat)
    (f : HandleProxy → HandleProxy) :
    (e.update p f)._HandlesPendingDisposal = e._HandlesPendingDisposal := by
  unfold update; split <;> rfl

@[simp] theorem V8EngineProxy.update_DisposedHandles (e : V8EngineProxy) (p : Nat)
    (f : HandleProxy → HandleProxy) :
    (e.update p f)._DisposedHandles = e._DisposedHandles := by
  unfold update; split <;> rfl

@[simp] theorem V8EngineProxy.update_HandlesToBeMadeWeak (e : V8EngineProxy) (p : Nat)
    (f : HandleProxy → HandleProxy) :
    (e.update p f)._HandlesToBeMadeWeak = e._HandlesToBeMadeWeak := by
  unfold update; split <;> rfl

@[simp] theorem V8EngineProxy.update_HandlesToBeMadeStrong (e : V8EngineProxy) (p : Nat)
    (f : HandleProxy → HandleProxy) :
    (e.update p f)._HandlesToBeMadeStrong = e._HandlesToBeMadeStrong := by
  unfold update; split <;> rfl

@[simp] theorem V8EngineProxy.update_Objects (e : V8EngineProxy) (p : Nat)
    (f : HandleProxy → HandleProxy) : (e.update p f)._Objects = e._Objects := by
  unfold update; split <;> rfl

@[simp] theorem V8EngineProxy.update_IsExecutingScript (e : V8EngineProxy) (p : Nat)
    (f : HandleProxy → HandleProxy) :
    (e.update p f)._IsExecutingScript = e._IsExecutingScript := by
  unfold update; split <;> rfl

@[simp] theorem V8EngineProxy.update_InCallbackScope (e : V8EngineProxy) (p : Nat)
    (f : HandleProxy → HandleProxy) :
    (e.update p f)._InCallbackScope = e._InCallbackScope := by
  unfold update; split <;> rfl

@[simp] theorem V8EngineProxy.update_heap_length (e : V8EngineProxy) (p : Nat)
    (f : HandleProxy → HandleProxy) : (e.update p f).heap.length = e.heap.length := by
  unfold update; split <;> simp

theorem V8EngineProxy.update_getElem? (e : V8EngineProxy) (p : Nat)
    (f : HandleProxy → HandleProxy) (q : Nat) :
    (e.update p f).heap[q]? = if q = p then (e.heap[p]?).map f else e.heap[q]? := by
  unfold update
  split
  · rename_i h hp
    simp only [List.getElem?_set]
    by_cases hq : p = q
    · subst hq
      have : p < e.heap.length := by
        by_contra hlt
        have := List.getElem?_eq_none (Nat.le_of_not_lt hlt)
        simp [this] at hp
      simp [this, hp]
    · have hq2 : ¬ q = p := fun h => hq h.symm
      simp [hq, hq2]
  · rename_i hp
    by_cases hq : q = p
    · subst hq; simp [hp]
    · simp [hq]

theorem V8EngineProxy.update_getElem?_self (e : V8EngineProxy) (p : Nat)
    (f : HandleProxy → HandleProxy) : (e.update p f).heap[p]? = (e.heap[p]?).map f := by
  simp [update_getElem?]

theorem V8EngineProxy.update_getElem?_ne (e : V8EngineProxy) (p : Nat)
    (f : HandleProxy → HandleProxy) (q : Nat) (hq : q ≠ p) : (e.update p f).heap[q]? = e.heap[q]? := by
  simp [update_getElem?, hq]

theorem V8EngineProxy.update_map_core (e : V8EngineProxy) (p : Nat)
    (f : HandleProxy → HandleProxy) (hf : ∀ h, (f h).core = h.core) :
    (e.update p f).heap.map HandleProxy.core = e.heap.map HandleProxy.core := by
  apply List.ext_getElem?
  intro q
  simp only [List.getElem?_map, update_getElem?]
  by_cases hq : q = p
  · subst hq
    simp only [if_true]
    cases e.heap[q]? with
    | none => rfl
    | some h => simp [hf]
  · simp [hq]

theorem core_of_map_eq {l l' : List HandleProxy}
    (hm : l'.map HandleProxy.core = l.map HandleProxy.core) (p : Nat) (h' : HandleProxy)
    (hp : l'[p]? = some h') : ∃ h, l[p]? = some h ∧ h.core = h'.core := by
  have h1 := congrArg (fun x => x[p]?) hm
  simp only [List.getElem?_map, hp, Option.map_some'] at h1
  cases hl : l[p]? with
  | none => simp [hl] at h1
  | some h =>
    refine ⟨h, rfl, ?_⟩
    simp [hl] at h1
    exact h1.symm

theorem length_of_map_eq {l l' : List HandleProxy}
    (hm : l'.map HandleProxy.core = l.map HandleProxy.core) : l'.length = l.length := by
  have := congrArg List.length hm
  simpa using this

theorem Inv.frame {g : Statics} {e e' : V8EngineProxy} (hI : Inv g e)
    (hid : e'._EngineID = e._EngineID)
    (hN : e'._NextNonTemplateObjectID = e._NextNonTemplateObjectID) (hH : e'._Handles = e._Handles)
    (hF : e'._DisposedHandles = e._DisposedHandles) (hO : e'._Objects = e._Objects)
    (hheap : e'.heap.map HandleProxy.core = e.heap.map HandleProxy.core)
    (hP : ∀ p ∈ e'._HandlesPendingDisposal, p < e.heap.length)
    (hW : ∀ p ∈ e'._HandlesToBeMadeWeak, p < e.heap.length)
    (hS : ∀ p ∈ e'._HandlesToBeMadeStrong, p < e.heap.length) : Inv g e' := by
  have hlen := length_of_map_eq hheap
  have hsym : e.heap.map HandleProxy.core = e'.heap.map HandleProxy.core := hheap.symm
  constructor
  · rw [hid]; exact hI.live
  · rw [hN]; exact hI.next
  · rw [hH, hlen]; exact hI.handles
  · intro p h' hp
    obtain ⟨h, hh, hc⟩ := core_of_map_eq hheap p h' hp
    simp only [HandleProxy.core, Prod.mk.injEq] at hc
    rw [← hc.1]; exact hI.ids p h hh
  · intro p h' hp
    obtain ⟨h, hh, hc⟩ := core_of_map_eq hheap p h' hp
    simp only [HandleProxy.core, Prod.mk.injEq] at hc
    rw [← hc.2.2.1]; exact hI.ready p h hh
  · intro p h' hp hd
    obtain ⟨h, hh, hc⟩ := core_of_map_eq hheap p h' hp
    simp only [HandleProxy.core, Prod.mk.injEq] at hc
    rw [← hc.2.2.2.1, ← hc.2.2.2.2.1, hid]
    exact hI.owner p h hh (by rw [hc.2.2.2.2.2]; exact hd)
  · intro p h' hp hd
    obtain ⟨h, hh, hc⟩ := core_of_map_eq hheap p h' hp
    simp only [HandleProxy.core, Prod.mk.injEq] at hc
    rw [← hc.2.1]
    exact hI.cleared p h hh (by rw [hc.2.2.2.2.2]; exact hd)
  · rw [hF]; exact hI.freeNodup
  · intro id hid'
    rw [hF] at hid'
    obtain ⟨h0, h, hh, hd⟩ := hI.freeDisposed id hid'
    obtain ⟨h', hh', hc⟩ := core_of_map_eq hsym id.toNat h hh
    simp only [HandleProxy.core, Prod.mk.injEq] at hc
    exact ⟨h0, h', hh', by rw [hc.2.2.2.2.2]; exact hd⟩
  · intro p hp; rw [hlen]; exact hP p hp
  · intro p hp; rw [hlen]; exact hW p hp
  · intro p hp; rw [hlen]; exact hS p hp
  · intro i p hp
    rw [hO] at hp
    obtain ⟨h, hh, hd, ho⟩ := hI.objsSound i p hp
    obtain ⟨h', hh', hc⟩ := core_of_map_eq hsym p h hh
    simp only [HandleProxy.core, Prod.mk.injEq] at hc
    exact ⟨h', hh', by rw [hc.2.2.2.2.2]; exact hd, by rw [hc.2.1]; exact ho⟩
  · intro p h' hp hd ho
    obtain ⟨h, hh, hc⟩ := core_of_map_eq hheap p h' hp
    simp only [HandleProxy.core, Prod.mk.injEq] at hc
    rw [hO, ← hc.2.1]
    exact hI.objsComplete p h hh (by rw [hc.2.2.2.2.2]; exact hd) (by rw [hc.2.1]; exact ho)

theorem getElem?_lt {α : Type} {l : List α} {p : Nat} {a : α} (h : l[p]? = some a) :
    p < l.length := by
  by_contra hlt
  have := List.getElem?_eq_none (Nat.le_of_not_lt hlt)
  simp [this] at h

theorem update_eq_set (e : V8EngineProxy) (p : Nat) (f : HandleProxy → HandleProxy)
    (h : HandleProxy) (hp : e.heap[p]? = some h) :
    e.update p f = { e with heap := e.heap.set p (f h) } := by
  unfold V8EngineProxy.update
  simp [hp]

theorem DisposeHandleProxy_eq (g : Statics) (e : V8EngineProxy) (p : Nat) (h : HandleProxy)
    (hp : e.heap[p]? = some h) (hd : h.IsDisposed = false)
    (hl : V8EngineProxy.IsDisposed g h._EngineID = false)
    (hr : h.IsDisposeReadyManagedSide = true) :
    V8EngineProxy.DisposeHandleProxy g e (some p) =
      { e with
        _Objects :=
          if 0 ≤ h._ObjectID ∧ h._ObjectID < (e._Objects.length : Int)
          then e._Objects.set h._ObjectID.toNat none else e._Objects,
        heap := e.heap.set p h.clearedState,
        _DisposedHandles := e._DisposedHandles ++ [h._ID] } := by
  have hlt := getElem?_lt hp
  unfold V8EngineProxy.DisposeHandleProxy
  simp only [hp, hd]
  by_cases hc : 0 ≤ h._ObjectID ∧ h._ObjectID < (e._Objects.length : Int)
  · simp [hc, HandleProxy._DisposeWith, hp, hd, hl, hr, V8EngineProxy.update, hlt,
      HandleProxy.clearedState, HandleProxy._ClearHandleValue]
  · simp [hc, HandleProxy._DisposeWith, hp, hd, hl, hr, V8EngineProxy.update, hlt,
      HandleProxy.clearedState, HandleProxy._ClearHandleValue]

theorem Dispose_eq (g : Statics) (e : V8EngineProxy) (p : Nat) (h : HandleProxy)
    (hp : e.heap[p]? = some h) (hd : h.IsDisposed = false)
    (hl : V8EngineProxy.IsDisposed g h._EngineID = false)
    (hr : h.IsDisposeReadyManagedSide = true) :
    HandleProxy.Dispose g e p = (V8EngineProxy.DisposeHandleProxy g e (some p), true) := by
  simp [HandleProxy.Dispose, HandleProxy._Dispose, HandleProxy._DisposeWith, hp, hd, hl, hr]

theorem Dispose_of_disposed (g : Statics) (e : V8EngineProxy) (p : Nat) (h : HandleProxy)
    (hp : e.heap[p]? = some h) (hd : h.IsDisposed = true) (b : Bool) :
    HandleProxy._Dispose g e p b = (e, true) := by
  simp [HandleProxy._Dispose, HandleProxy._DisposeWith, hp, hd]

theorem Dispose_of_invalid (g : Statics) (e : V8EngineProxy) (p : Nat)
    (hp : e.heap[p]? = none) (b : Bool) :
    HandleProxy._Dispose g e p b = (e, true) := by
  simp [HandleProxy._Dispose, HandleProxy._DisposeWith, hp]

theorem ready_of_lt (h : HandleProxy) (hm : h._ManagedReference < 2) :
    h.IsDisposeReadyManagedSide = true := by
  simp [HandleProxy.IsDisposeReadyManagedSide, hm]

theorem clearedState_isDisposed (h : HandleProxy) : h.clearedState.IsDisposed = true := by
  simp [HandleProxy.clearedState, HandleProxy.IsDisposed]

theorem Inv.not_mem_free {g : Statics} {e : V8EngineProxy} (hI : Inv g e) {p : Nat}
    {h : HandleProxy} (hp : e.heap[p]? = some h) (hd : h.IsDisposed = false) :
    (p : Int) ∉ e._DisposedHandles := by
  intro hm
  obtain ⟨_, h', hh', hd'⟩ := hI.freeDisposed _ hm
  simp only [Int.toNat_ofNat] at hh'
  rw [hp] at hh'
  cases hh'
  rw [hd] at hd'
  cases hd'

/-- Disposal of a live proxy keeps the registry invariant. -/
theorem Inv.disposeHandleProxy {g : Statics} {e : V8EngineProxy} (hI : Inv g e) (p : Nat) :
    Inv g (V8EngineProxy.DisposeHandleProxy g e (some p)) := by
  cases hp : e.heap[p]? with
  | none => simpa [V8EngineProxy.DisposeHandleProxy, hp] using hI
  | some h =>
  cases hd : h.IsDisposed with
  | true => simpa [V8EngineProxy.DisposeHandleProxy, hp, hd] using hI
  | false =>
  have hown := hI.owner p h hp hd
  have hl : V8EngineProxy.IsDisposed g h._EngineID = false := by rw [hown.1]; exact hI.live
  have hr := ready_of_lt h (hI.ready p h hp)
  have hid := hI.ids p h hp
  have hlt := getElem?_lt hp
  rw [DisposeHandleProxy_eq g e p h hp hd hl hr]
  have hget : ∀ q : Nat, (e.heap.set p h.clearedState)[q]? =
      if q = p then some h.clearedState else e.heap[q]? := by
    intro q
    rw [List.getElem?_set]
    by_cases hq : p = q
    · subst hq; simp [hlt]
    · have : ¬ q = p := fun h => hq h.symm
      simp [hq, this]
  constructor
  · exact hI.live
  · exact hI.next
  · simpa using hI.handles
  · intro q x hx
    simp only [hget] at hx
    by_cases hq : q = p
    · subst hq
      simp at hx
      subst hx
      simpa [HandleProxy.clearedState] using hid
    · simp [hq] at hx
      exact hI.ids q x hx
  · intro q x hx
    simp only [hget] at hx
    by_cases hq : q = p
    · subst hq
      simp at hx
      subst hx
      simp [HandleProxy.clearedState]
    · simp [hq] at hx
      exact hI.ready q x hx
  · intro q x hx hxd
    simp only [hget] at hx
    by_cases hq : q = p
    · subst hq
      simp at hx
      subst hx
      rw [clearedState_isDisposed] at hxd
      cases hxd
    · simp [hq] at hx
      exact hI.owner q x hx hxd
  · intro q x hx hxd
    simp only [hget] at hx
    by_cases hq : q = p
    · subst hq
      simp at hx
      subst hx
      simp [HandleProxy.clearedState]
    · simp [hq] at hx
      exact hI.cleared q x hx hxd
  · show (e._DisposedHandles ++ [h._ID]).Nodup
    rw [List.nodup_append]
    refine ⟨hI.freeNodup, List.nodup_singleton _, ?_⟩
    intro a ha hb
    simp at hb
    subst hb
    rw [hid] at ha
    exact hI.not_mem_free hp hd ha
  · intro id hmem
    simp only [List.mem_append, List.mem_singleton] at hmem
    rcases hmem with hmem | hmem
    · obtain ⟨h0, x, hx, hxd⟩ := hI.freeDisposed id hmem
      refine ⟨h0, ?_⟩
      simp only [hget]
      by_cases hq : id.toNat = p
      · simp [hq, clearedState_isDisposed]
      · simp [hq]
        exact ⟨x, hx, hxd⟩
    · subst hmem
      rw [hid]
      refine ⟨by omega, ?_⟩
      simp [hget, clearedState_isDisposed]
  · intro q hq; simpa using hI.pendingValid q hq
  · intro q hq; simpa using hI.weakValid q hq
  · intro q hq; simpa using hI.strongValid q hq
  · intro i q hiq
    have hold : e._Objects[i]? = some (some q) ∧
        ¬ (0 ≤ h._ObjectID ∧ h._ObjectID < (e._Objects.length : Int) ∧ h._ObjectID.toNat = i) := by
      by_cases hc : 0 ≤ h._ObjectID ∧ h._ObjectID < (e._Objects.length : Int)
      · simp only [hc, and_self, if_true] at hiq
        rw [List.getElem?_set] at hiq
        by_cases hi : h._ObjectID.toNat = i
        · simp [hi] at hiq
        · simp [hi] at hiq
          exact ⟨hiq, fun hh => hi hh.2.2⟩
      · simp only [hc, if_false] at hiq
        exact ⟨hiq, fun hh => hc ⟨hh.1, hh.2.1⟩⟩
    obtain ⟨x, hx, hxd, hxo⟩ := hI.objsSound i q hold.1
    have hqp : q ≠ p := by
      intro hqp
      subst hqp
      rw [hp] at hx
      cases hx
      apply hold.2
      have hil := getElem?_lt hold.1
      refine ⟨by omega, by omega, by omega⟩
    refine ⟨x, ?_, hxd, hxo⟩
    simp [hget, hqp, hx]
  · intro q x hx hxd hxo
    simp only [hget] at hx
    by_cases hq : q = p
    · subst hq
      simp at hx
      subst hx
      rw [clearedState_isDisposed] at hxd
      cases hxd
    · simp [hq] at hx
      have hold := hI.objsComplete q x hx hxd hxo
      show (if 0 ≤ h._ObjectID ∧ h._ObjectID < (e._Objects.length : Int)
          then e._Objects.set h._ObjectID.toNat none else e._Objects)[x._ObjectID.toNat]? = _
      by_cases hc : 0 ≤ h._ObjectID ∧ h._ObjectID < (e._Objects.length : Int)
      · simp only [hc, and_self, if_true]
        rw [List.getElem?_set]
        by_cases hi : h._ObjectID.toNat = x._ObjectID.toNat
        · exfalso
          have hpc := hI.objsComplete p h hp hd hc.1
          rw [hi, hold] at hpc
          simp at hpc
          exact hq hpc
        · simp [hi, hold]
      · simp only [hc, if_false]
        exact hold

theorem core_setDisposed (h : HandleProxy) (d : Nat)
    (hd : d.testBit 0 = h._Disposed.testBit 0) :
    ({ h with _Disposed := d } : HandleProxy).core = h.core := by
  simp [HandleProxy.core, isDisposed_eq_testBit, hd]

theorem core_or (h : HandleProxy) (m : Nat) (hm : m.testBit 0 = false) :
    ({ h with _Disposed := h._Disposed ||| m } : HandleProxy).core = h.core := by
  apply core_setDisposed
  rw [Nat.testBit_or, hm]; simp

theorem testBit_zero_clearBits (d m : Nat) (hm : (4294967295 ^^^ m).testBit 0 = true) :
    (clearBits d m).testBit 0 = d.testBit 0 := by
  unfold clearBits
  rw [Nat.testBit_and, hm]; simp

theorem core_clear16 (h : HandleProxy) :
    ({ h with _Disposed := clearBits h._Disposed 16 } : HandleProxy).core = h.core :=
  core_setDisposed h _ (testBit_zero_clearBits _ 16 (by decide))

theorem core_clear8 (h : HandleProxy) :
    ({ h with _Disposed := clearBits h._Disposed 8 } : HandleProxy).core = h.core :=
  core_setDisposed h _ (testBit_zero_clearBits _ 8 (by decide))

theorem core_clear4_16 (h : HandleProxy) :
    ({ h with _Disposed := clearBits (clearBits h._Disposed 4) 16 } : HandleProxy).core
      = h.core := by
  apply core_setDisposed
  rw [testBit_zero_clearBits _ 16 (by decide), testBit_zero_clearBits _ 4 (by decide)]

theorem core_clearHandleValue (h : HandleProxy) : h._ClearHandleValue.core = h.core := by
  simp [HandleProxy.core, HandleProxy._ClearHandleValue, HandleProxy.IsDisposed]

theorem core_setWeak (b : Bool) (h : HandleProxy) :
    (match h._Handle with
      | some p => { h with _Handle := some { p with weak := b } }
      | none => h : HandleProxy).core = h.core := by
  cases h._Handle <;> simp [HandleProxy.core, HandleProxy.IsDisposed]

theorem Inv.update_core {g : Statics} {e : V8EngineProxy} (hI : Inv g e) (p : Nat)
    (f : HandleProxy → HandleProxy) (hf : ∀ h, (f h).core = h.core) :
    Inv g (e.update p f) :=
  hI.frame (by simp) (by simp) (by simp) (by simp) (by simp)
    (V8EngineProxy.update_map_core e p f hf)
    (by simpa using hI.pendingValid) (by simpa using hI.weakValid)
    (by simpa using hI.strongValid)

theorem Inv.setPending {g : Statics} {e : V8EngineProxy} (hI : Inv g e) (l : List Nat)
    (hl : ∀ p ∈ l, p < e.heap.length) : Inv g { e with _HandlesPendingDisposal := l } :=
  hI.frame rfl rfl rfl rfl rfl rfl hl hI.weakValid hI.strongValid

theorem Inv.setWeak {g : Statics} {e : V8EngineProxy} (hI : Inv g e) (l : List Nat)
    (hl : ∀ p ∈ l, p < e.heap.length) : Inv g { e with _HandlesToBeMadeWeak := l } :=
  hI.frame rfl rfl rfl rfl rfl rfl hI.pendingValid hl hI.strongValid

theorem Inv.setStrong {g : Statics} {e : V8EngineProxy} (hI : Inv g e) (l : List Nat)
    (hl : ∀ p ∈ l, p < e.heap.length) : Inv g { e with _HandlesToBeMadeStrong := l } :=
  hI.frame rfl rfl rfl rfl rfl rfl hI.pendingValid hI.weakValid hl

theorem Inv.setScope {g : Statics} {e : V8EngineProxy} (hI : Inv g e) (n : Int) :
    Inv g { e with _InCallbackScope := n } :=
  hI.frame rfl rfl rfl rfl rfl rfl hI.pendingValid hI.weakValid hI.strongValid

theorem Inv.setExecuting {g : Statics} {e : V8EngineProxy} (hI : Inv g e) (b : Bool) :
    Inv g { e with _IsExecutingScript := b } :=
  hI.frame rfl rfl rfl rfl rfl rfl hI.pendingValid hI.weakValid hI.strongValid

theorem Inv.setCallback {g : Statics} {e : V8EngineProxy} (hI : Inv g e)
    (c : Option (HandleProxy → Bool)) :
    Inv g { e with _ManagedV8GarbageCollectionRequestCallback := c } :=
  hI.frame rfl rfl rfl rfl rfl rfl hI.pendingValid hI.weakValid hI.strongValid

theorem mem_of_getLast? {α : Type} {l : List α} {a : α} (h : l.getLast? = some a) :
    a ∈ l := List.mem_of_getLast?_eq_some h

theorem eq_dropLast_append {α : Type} {l : List α} {a : α} (h : l.getLast? = some a) :
    l = l.dropLast ++ [a] := by
  induction l using List.reverseRecOn with
  | nil => simp at h
  | append_singleton l b _ =>
    simp at h
    subst h
    simp

theorem mem_of_mem_dropLast {α : Type} {l : List α} {a : α} (h : a ∈ l.dropLast) : a ∈ l :=
  List.dropLast_subset l h

theorem Drains.same {g : Statics} {e : V8EngineProxy} (hI : Inv g e) : Drains g e e :=
  ⟨hI, rfl, rfl, rfl, rfl, rfl, rfl, rfl, fun _ h => h⟩

theorem Drains.andThen {g : Statics} {a b c : V8EngineProxy} (h1 : Drains g a b)
    (h2 : Drains g b c) : Drains g a c :=
  ⟨h2.inv, h2.engineID.trans h1.engineID, h2.next.trans h1.next, h2.scope.trans h1.scope,
    h2.callback.trans h1.callback,
    h2.handles.trans h1.handles, h2.heapLen.trans h1.heapLen, h2.objsLen.trans h1.objsLen,
    fun i h => h2.objsFree i (h1.objsFree i h)⟩

theorem drains_update_core {g : Statics} {e : V8EngineProxy} (hI : Inv g e) (p : Nat)
    (f : HandleProxy → HandleProxy) (hf : ∀ h, (f h).core = h.core) :
    Drains g e (e.update p f) :=
  ⟨hI.update_core p f hf, by simp, by simp, by simp, by simp, by simp, by simp, by simp,
    fun i h => by simpa using h⟩

theorem drains_setPending {g : Statics} {e : V8EngineProxy} (hI : Inv g e) (l : List Nat)
    (hl : ∀ p ∈ l, p < e.heap.length) :
    Drains g e { e with _HandlesPendingDisposal := l } :=
  ⟨hI.setPending l hl, rfl, rfl, rfl, rfl, rfl, rfl, rfl, fun _ h => h⟩

theorem drains_setWeak {g : Statics} {e : V8EngineProxy} (hI : Inv g e) (l : List Nat)
    (hl : ∀ p ∈ l, p < e.heap.length) :
    Drains g e { e with _HandlesToBeMadeWeak := l } :=
  ⟨hI.setWeak l hl, rfl, rfl, rfl, rfl, rfl, rfl, rfl, fun _ h => h⟩

theorem drains_setStrong {g : Statics} {e : V8EngineProxy} (hI : Inv g e) (l : List Nat)
    (hl : ∀ p ∈ l, p < e.heap.length) :
    Drains g e { e with _HandlesToBeMadeStrong := l } :=
  ⟨hI.setStrong l hl, rfl, rfl, rfl, rfl, rfl, rfl, rfl, fun _ h => h⟩

theorem getD_set_none (l : List (Option Nat)) (j i : Nat) (h : l.getD i none = none) :
    (l.set j none).getD i none = none := by
  simp only [List.getD_eq_getElem?_getD, List.getElem?_set] at *
  by_cases hji : j = i
  · subst hji
    by_cases hlt : j < l.length <;> simp [hlt]
  · simp [hji, h]

theorem drains_disposeHandleProxy {g : Statics} {e : V8EngineProxy} (hI : Inv g e)
    (p : Nat) : Drains g e (V8EngineProxy.DisposeHandleProxy g e (some p)) := by
  have hInv := hI.disposeHandleProxy p
  cases hp : e.heap[p]? with
  | none =>
    have : V8EngineProxy.DisposeHandleProxy g e (some p) = e := by
      simp [V8EngineProxy.DisposeHandleProxy, hp]
    rw [this]; exact Drains.same hI
  | some h =>
  cases hd : h.IsDisposed with
  | true =>
    have : V8EngineProxy.DisposeHandleProxy g e (some p) = e := by
      simp [V8EngineProxy.DisposeHandleProxy, hp, hd]
    rw [this]; exact Drains.same hI
  | false =>
  have hown := hI.owner p h hp hd
  have hl : V8EngineProxy.IsDisposed g h._EngineID = false := by rw [hown.1]; exact hI.live
  have hr := ready_of_lt h (hI.ready p h hp)
  rw [DisposeHandleProxy_eq g e p h hp hd hl hr] at hInv ⊢
  refine ⟨hInv, rfl, rfl, rfl, rfl, rfl, by simp, ?_, ?_⟩
  · show (if _ then _ else _ : List (Option Nat)).length = _
    split <;> simp
  · intro i hi
    show (if _ then _ else _ : List (Option Nat)).getD i none = none
    split
    · exact getD_set_none _ _ _ hi
    · exact hi

theorem drains_dispose {g : Statics} {e : V8EngineProxy} (hI : Inv g e) (p : Nat) :
    Drains g e (HandleProxy.Dispose g e p).1 := by
  cases hp : e.heap[p]? with
  | none =>
    have : HandleProxy.Dispose g e p = (e, true) := Dispose_of_invalid g e p hp true
    rw [this]; exact Drains.same hI
  | some h =>
  cases hd : h.IsDisposed with
  | true =>
    have : HandleProxy.Dispose g e p = (e, true) := Dispose_of_disposed g e p h hp hd true
    rw [this]; exact Drains.same hI
  | false =>
  have hown := hI.owner p h hp hd
  have hl : V8EngineProxy.IsDisposed g h._EngineID = false := by rw [hown.1]; exact hI.live
  have hr := ready_of_lt h (hI.ready p h hp)
  rw [Dispose_eq g e p h hp hd hl hr]
  exact drains_disposeHandleProxy hI p

theorem drains_tryDispose {g : Statics} {e : V8EngineProxy} (hI : Inv g e) (p : Nat) :
    Drains g e (HandleProxy.TryDispose g e p).1 := by
  unfold HandleProxy.TryDispose
  split
  · exact Drains.same hI
  · split
    · exact drains_dispose hI p
    · exact Drains.same hI

theorem drains_queueHandleDisposal {g : Statics} {e : V8EngineProxy} (hI : Inv g e)
    (hp : Option Nat) : Drains g e (e.QueueHandleDisposal hp) := by
  unfold V8EngineProxy.QueueHandleDisposal
  split
  · exact Drains.same hI
  · rename_i p
    split
    · exact Drains.same hI
    · rename_i h hh
      split
      · have h1 := drains_update_core hI p
          (fun h0 => { h0 with _Disposed := h0._Disposed ||| 16 })
          (fun h0 => core_or h0 16 (by decide))
        simp only []
        split
        · refine h1.andThen (drains_setPending h1.inv _ ?_)
          intro q hq
          simp only [V8EngineProxy.update_HandlesPendingDisposal, List.mem_append,
            List.mem_singleton] at hq
          rw [V8EngineProxy.update_heap_length]
          rcases hq with hq | hq
          · exact hI.pendingValid q hq
          · subst hq; exact getElem?_lt hh
        · exact h1
      · exact Drains.same hI

theorem drains_makeWeak {g : Statics} {e : V8EngineProxy} (hI : Inv g e) (p : Nat) :
    Drains g e (HandleProxy.MakeWeak e p) :=
  drains_update_core hI p _ (core_setWeak true)

theorem drains_makeStrong {g : Statics} {e : V8EngineProxy} (hI : Inv g e) (p : Nat) :
    Drains g e (HandleProxy.MakeStrong e p) :=
  drains_update_core hI p _ (core_setWeak false)

theorem drains_queueMakeWeak {g : Statics} {e : V8EngineProxy} (hI : Inv g e) (p : Nat) :
    Drains g e (e.QueueMakeWeak p) := by
  unfold V8EngineProxy.QueueMakeWeak
  split
  · exact Drains.same hI
  · rename_i h hh
    split
    · have h1 := drains_update_core hI p
        (fun h0 => { h0 with _Disposed := h0._Disposed ||| 4 })
        (fun h0 => core_or h0 4 (by decide))
      refine h1.andThen (drains_setWeak h1.inv _ ?_)
      intro q hq
      simp only [List.mem_append, List.mem_singleton] at hq
      rw [V8EngineProxy.update_heap_length]
      rcases hq with hq | hq
      · exact hI.weakValid q hq
      · subst hq; exact getElem?_lt hh
    · exact Drains.same hI

theorem drains_queueMakeStrong {g : Statics} {e : V8EngineProxy} (hI : Inv g e) (p : Nat) :
    Drains g e (e.QueueMakeStrong p) := by
  unfold V8EngineProxy.QueueMakeStrong
  split
  · exact Drains.same hI
  · rename_i h hh
    split
    · have h1 := drains_update_core hI p
        (fun h0 => { h0 with _Disposed := h0._Disposed ||| 8 })
        (fun h0 => core_or h0 8 (by decide))
      refine h1.andThen (drains_setStrong h1.inv _ ?_)
      intro q hq
      simp only [List.mem_append, List.mem_singleton] at hq
      rw [V8EngineProxy.update_heap_length]
      rcases hq with hq | hq
      · exact hI.strongValid q hq
      · subst hq; exact getElem?_lt hh
    · exact Drains.same hI

theorem drains_processPendingDisposal {g : Statics} {e : V8EngineProxy} (hI : Inv g e) :
    Drains g e (e.processPendingDisposal g) := by
  unfold V8EngineProxy.processPendingDisposal
  split
  · split
    · rename_i h hh
      have h1 := drains_setPending hI e._HandlesPendingDisposal.dropLast
        (fun q hq => hI.pendingValid q (mem_of_mem_dropLast hq))
      have h2 := drains_update_core h1.inv h
        (fun h0 => { h0 with _Disposed := clearBits h0._Disposed 16 }) core_clear16
      exact (h1.andThen h2).andThen (drains_dispose h2.inv h)
    · exact Drains.same hI
  · exact Drains.same hI

theorem drains_processMakeWeak {g : Statics} {e : V8EngineProxy} (hI : Inv g e) :
    Drains g e e.processMakeWeak.1 := by
  unfold V8EngineProxy.processMakeWeak
  split
  · rename_i h hh
    have h1 := drains_setWeak hI e._HandlesToBeMadeWeak.dropLast
      (fun q hq => hI.weakValid q (mem_of_mem_dropLast hq))
    have h2 := drains_update_core h1.inv h
      (fun h0 => { h0 with _Disposed := clearBits (clearBits h0._Disposed 4) 16 })
      core_clear4_16
    exact (h1.andThen h2).andThen (drains_makeWeak h2.inv h)
  · exact Drains.same hI

theorem drains_processMakeStrong {g : Statics} {e : V8EngineProxy} (hI : Inv g e) :
    Drains g e e.processMakeStrong.1 := by
  unfold V8EngineProxy.processMakeStrong
  split
  · rename_i h hh
    have h1 := drains_setStrong hI e._HandlesToBeMadeStrong.dropLast
      (fun q hq => hI.strongValid q (mem_of_mem_dropLast hq))
    have h2 := drains_update_core h1.inv h
      (fun h0 => { h0 with _Disposed := clearBits h0._Disposed 8 }) core_clear8
    exact (h1.andThen h2).andThen (drains_makeStrong h2.inv h)
  · exact Drains.same hI

theorem drains_processStep {g : Statics} {e : V8EngineProxy} (hI : Inv g e) :
    Drains g e (e.processStep g).1 := by
  unfold V8EngineProxy.processStep
  have h1 := drains_processPendingDisposal hI
  have h2 := drains_processMakeWeak h1.inv
  have h3 := drains_processMakeStrong h2.inv
  exact (h1.andThen h2).andThen h3

theorem drains_processLoop {g : Statics} (n : Nat) :
    ∀ (d : Bool) (e : V8EngineProxy), Inv g e →
      Drains g e (V8EngineProxy.processLoop g n d e) := by
  induction n with
  | zero => intro d e hI; exact Drains.same hI
  | succ n ih =>
    intro d e hI
    unfold V8EngineProxy.processLoop
    split
    · have h1 := drains_processStep hI
      exact h1.andThen (ih _ _ h1.inv)
    · exact Drains.same hI

theorem drains_processHandleQueues {g : Statics} {e : V8EngineProxy} (hI : Inv g e)
    (loops : Int) : Drains g e (e.ProcessHandleQueues g loops) :=
  drains_processLoop _ _ _ hI

theorem drains_setScope {g : Statics} {e : V8EngineProxy} (hI : Inv g e) :
    Drains g e { e with _InCallbackScope := e._InCallbackScope + 1 - 1 } :=
  ⟨hI.setScope _, rfl, rfl, by simp, rfl, rfl, rfl, rfl, fun _ h => h⟩

theorem drains_revivableCallback {g : Statics} {e : V8EngineProxy} (hI : Inv g e)
    (p : Nat) : Drains g e (HandleProxy._RevivableCallback g e p) := by
  unfold HandleProxy._RevivableCallback
  split
  · exact Drains.same hI
  · have h1 := drains_setScope hI
    simp only []
    split
    · have h2 := drains_update_core h1.inv p HandleProxy._ClearHandleValue
        core_clearHandleValue
      exact (h1.andThen h2).andThen (drains_dispose h2.inv p)
    · exact h1.andThen (drains_makeStrong h1.inv p)

theorem drains_idleNotificationDeadline {g : Statics} (gc : List Nat) :
    ∀ e : V8EngineProxy, Inv g e → Drains g e (e.IdleNotificationDeadline g gc) := by
  induction gc with
  | nil => intro e hI; exact Drains.same hI
  | cons p gc ih =>
    intro e hI
    unfold V8EngineProxy.IdleNotificationDeadline
    simp only [List.foldl_cons]
    have hstep : Drains g e
        (match e.heap[p]? with
          | some h => if h.IsWeak then HandleProxy._RevivableCallback g e p else e
          | none => e) := by
      split
      · split
        · exact drains_revivableCallback hI p
        · exact Drains.same hI
      · exact Drains.same hI
    exact hstep.andThen (ih _ hstep.inv)

theorem SetHandle_eq (e : V8EngineProxy) (p : Nat) (handle : Option Value) (h : HandleProxy)
    (x : Int) (hp : e.heap[p]? = some h) (hd : h.IsDisposed = false)
    (ho : h._ObjectID = -1) (hx : h._EngineProxy = some x) :
    HandleProxy.SetHandle e p handle =
      { e with
        heap := e.heap.set p (h.withValue e._NextNonTemplateObjectID handle),
        _Objects :=
          if (HandleProxy.classify handle).2
          then registerObject e._Objects p (HandleProxy.GetManagedObjectIDStatic handle)
          else e._Objects,
        _NextNonTemplateObjectID :=
          if (HandleProxy.classify handle).2 ∧ HandleProxy.GetManagedObjectIDStatic handle = -1
          then e._NextNonTemplateObjectID - 1 else e._NextNonTemplateObjectID } := by
  have hlt := getElem?_lt hp
  unfold HandleProxy.SetHandle
  simp only [update_eq_set e p _ h hp]
  cases hc : (HandleProxy.classify handle).2 with
  | false =>
    simp [HandleProxy.withValue, HandleProxy.pulledID, hc, HandleProxy._ClearHandleValue, ho]
  | true =>
    have hmap : (Option.map (fun (p : Persistent) => p.value)
        (Option.map (fun v => ({ value := v, weak := false } : Persistent)) handle)) = handle := by
      cases handle <;> rfl
    simp only [if_true, HandleProxy.GetManagedObjectID, List.getElem?_set, hlt, if_true,
      HandleProxy._ClearHandleValue, HandleProxy.IsDisposed] 
    have hd' : decide (h._Disposed &&& 1 > 0) = false := hd
    simp only [hd', ho]
    simp only [HandleProxy.SetManagedObjectID, List.getElem?_set, hlt, hx, hmap, ho]
    simp only [registerObject, HandleProxy.withValue, HandleProxy.pulledID, hc]
    by_cases h0 : 0 ≤ HandleProxy.GetManagedObjectIDStatic handle
    · have hne : ¬ HandleProxy.GetManagedObjectIDStatic handle = -1 := by omega
      simp [h0, hne, hx]
    · by_cases h1 : HandleProxy.GetManagedObjectIDStatic handle = -1
      · simp [h1, V8EngineProxy.GetNextNonTemplateObjectID, hx]
      · simp [h0, h1, hx]

theorem resizeObjects_length (objs : List (Option Nat)) (n : Nat) :
    (V8EngineProxy.resizeObjects objs n).length = n := by
  simp [V8EngineProxy.resizeObjects]
  omega

theorem resizeObjects_getElem?_of_lt (objs : List (Option Nat)) (n j : Nat)
    (hj : j < objs.length) (hn : objs.length ≤ n) :
    (V8EngineProxy.resizeObjects objs n)[j]? = objs[j]? := by
  unfold V8EngineProxy.resizeObjects
  rw [List.take_of_length_le hn]
  rw [List.getElem?_append_left hj]

theorem resizeObjects_getElem?_some (objs : List (Option Nat)) (n j q : Nat)
    (h : (V8EngineProxy.resizeObjects objs n)[j]? = some (some q)) :
    objs[j]? = some (some q) := by
  unfold V8EngineProxy.resizeObjects at h
  by_cases hj : j < (objs.take n).length
  · rw [List.getElem?_append_left hj] at h
    rw [List.getElem?_take] at h
    split at h
    · exact h
    · cases h
  · rw [List.getElem?_append_right (Nat.le_of_not_lt hj)] at h
    rw [List.getElem?_replicate] at h
    split at h <;> simp at h

theorem registerObject_getElem?_self (objs : List (Option Nat)) (p : Nat) (id : Int)
    (h0 : 0 ≤ id) : (registerObject objs p id)[id.toNat]? = some (some p) := by
  unfold registerObject
  simp only [h0, if_true]
  rw [List.getElem?_set]
  simp only [if_true]
  split
  · rename_i hge
    rw [resizeObjects_length]
    have : id.toNat < ((id + 100) * 2).toNat := by omega
    simp [this]
  · rename_i hlt
    have : id.toNat < objs.length := by omega
    simp [this]

theorem registerObject_getElem?_some (objs : List (Option Nat)) (p : Nat) (id : Int)
    (i q : Nat) (h : (registerObject objs p id)[i]? = some (some q)) :
    (0 ≤ id ∧ id.toNat = i ∧ q = p) ∨ objs[i]? = some (some q) := by
  unfold registerObject at h
  split at h
  · rename_i h0
    rw [List.getElem?_set] at h
    by_cases hi : id.toNat = i
    · left
      simp only [hi, if_true] at h
      refine ⟨h0, hi, ?_⟩
      split at h
      · split at h
        · simp at h; exact h.symm
        · cases h
      · split at h
        · simp at h; exact h.symm
        · cases h
    · right
      simp only [hi, if_false] at h
      split at h
      · exact resizeObjects_getElem?_some _ _ _ _ h
      · exact h
  · right; exact h

theorem registerObject_getElem?_other (objs : List (Option Nat)) (p : Nat) (id : Int)
    (j : Nat) (hj : j < objs.length) (hne : id.toNat ≠ j) :
    (registerObject objs p id)[j]? = objs[j]? := by
  unfold registerObject
  split
  · rw [List.getElem?_set]
    simp only [hne, if_false]
    split
    · rename_i hge
      exact resizeObjects_getElem?_of_lt _ _ _ hj (by omega)
    · rfl
  · rfl

theorem set_getElem? {α : Type} (l : List α) (p : Nat) (a : α) (hlt : p < l.length) (q : Nat) :
    (l.set p a)[q]? = if q = p then some a else l[q]? := by
  rw [List.getElem?_set]
  by_cases hq : p = q
  · subst hq; simp [hlt]
  · have : ¬ q = p := fun h => hq h.symm
    simp [hq, this]

theorem withValue_isDisposed (h : HandleProxy) (n : Int) (v : Option Value) :
    (h.withValue n v).IsDisposed = h.IsDisposed := rfl

theorem pulledID_nonneg {next : Int} {v : Option Value} (hn : next ≤ -2)
    (h : 0 ≤ HandleProxy.pulledID next v) :
    (HandleProxy.classify v).2 = true ∧ 0 ≤ HandleProxy.GetManagedObjectIDStatic v ∧
      HandleProxy.pulledID next v = HandleProxy.GetManagedObjectIDStatic v := by
  unfold HandleProxy.pulledID at h ⊢
  split at h
  · rename_i hc
    split at h
    · omega
    · rename_i hne
      simp [hc, hne, h]
  · omega

/-- Setting the value of a live proxy that has no identity yet keeps the invariant, provided
the identity the value carries is not registered. -/
theorem Inv.setHandle {g : Statics} {e : V8EngineProxy} (hI : Inv g e) (p : Nat)
    (h : HandleProxy) (hp : e.heap[p]? = some h) (hd : h.IsDisposed = false)
    (ho : h._ObjectID = -1) (v : Option Value)
    (hfree : 0 ≤ HandleProxy.GetManagedObjectIDStatic v →
      e._Objects.getD (HandleProxy.GetManagedObjectIDStatic v).toNat none = none) :
    Inv g (HandleProxy.SetHandle e p v) := by
  have hown := hI.owner p h hp hd
  have hlt := getElem?_lt hp
  rw [SetHandle_eq e p v h _ hp hd ho hown.2]
  have hget := set_getElem? e.heap p (h.withValue e._NextNonTemplateObjectID v) hlt
  have hnext := hI.next
  have hobjs : ∀ (i q : Nat),
      (if (HandleProxy.classify v).2
        then registerObject e._Objects p (HandleProxy.GetManagedObjectIDStatic v)
        else e._Objects)[i]? = some (some q) →
      ((HandleProxy.classify v).2 = true ∧ 0 ≤ HandleProxy.GetManagedObjectIDStatic v ∧
        (HandleProxy.GetManagedObjectIDStatic v).toNat = i ∧ q = p) ∨
      e._Objects[i]? = some (some q) := by
    intro i q hiq
    split at hiq
    · rename_i hc
      rcases registerObject_getElem?_some _ _ _ _ _ hiq with h1 | h1
      · exact Or.inl ⟨hc, h1⟩
      · exact Or.inr h1
    · exact Or.inr hiq
  constructor
  · exact hI.live
  · show (if _ then _ else _ : Int) ≤ -2
    split
    · exact Int.le_trans (Int.sub_le_self _ (by decide)) hnext
    · exact hnext
  · simpa using hI.handles
  · intro q x hx
    simp only [hget] at hx
    by_cases hq : q = p
    · subst hq
      simp at hx
      subst hx
      exact hI.ids q h hp
    · simp [hq] at hx
      exact hI.ids q x hx
  · intro q x hx
    simp only [hget] at hx
    by_cases hq : q = p
    · subst hq
      simp at hx
      subst hx
      exact hI.ready q h hp
    · simp [hq] at hx
      exact hI.ready q x hx
  · intro q x hx hxd
    simp only [hget] at hx
    by_cases hq : q = p
    · subst hq
      simp at hx
      subst hx
      exact hown
    · simp [hq] at hx
      exact hI.owner q x hx hxd
  · intro q x hx hxd
    simp only [hget] at hx
    by_cases hq : q = p
    · subst hq
      simp at hx
      subst hx
      rw [withValue_isDisposed, hd] at hxd
      cases hxd
    · simp [hq] at hx
      exact hI.cleared q x hx hxd
  · exact hI.freeNodup
  · intro id hmem
    obtain ⟨h0, x, hx, hxd⟩ := hI.freeDisposed id hmem
    refine ⟨h0, x, ?_, hxd⟩
    simp only [hget]
    have : id.toNat ≠ p := by
      intro hq
      rw [hq, hp] at hx
      cases hx
      rw [hd] at hxd
      cases hxd
    simp [this, hx]
  · intro q hq; simpa using hI.pendingValid q hq
  · intro q hq; simpa using hI.weakValid q hq
  · intro q hq; simpa using hI.strongValid q hq
  · intro i q hiq
    rcases hobjs i q hiq with ⟨hc, h0, hi, hqp⟩ | hold
    · subst hqp
      refine ⟨h.withValue e._NextNonTemplateObjectID v, by simp [hget],
        by rw [withValue_isDisposed]; exact hd, ?_⟩
      have hne : ¬ HandleProxy.GetManagedObjectIDStatic v = -1 := by omega
      simp only [HandleProxy.withValue, HandleProxy.pulledID, hc, if_true, hne, if_false]
      omega
    · obtain ⟨x, hx, hxd, hxo⟩ := hI.objsSound i q hold
      have hqp : q ≠ p := by
        intro hqp
        subst hqp
        rw [hp] at hx
        cases hx
        omega
      exact ⟨x, by simp [hget, hqp, hx], hxd, hxo⟩
  · intro q x hx hxd hxo
    simp only [hget] at hx
    show (if _ then _ else _ : List (Option Nat))[x._ObjectID.toNat]? = _
    by_cases hq : q = p
    · subst hq
      simp at hx
      subst hx
      obtain ⟨hc, h0, heq⟩ := pulledID_nonneg hnext hxo
      simp only [hc, if_true]
      have : (h.withValue e._NextNonTemplateObjectID v)._ObjectID
          = HandleProxy.GetManagedObjectIDStatic v := heq
      rw [this]
      exact registerObject_getElem?_self _ _ _ h0
    · simp [hq] at hx
      have hold := hI.objsComplete q x hx hxd hxo
      split
      · rename_i hc
        have hj := getElem?_lt hold
        by_cases h0 : 0 ≤ HandleProxy.GetManagedObjectIDStatic v
        · rw [registerObject_getElem?_other _ _ _ _ hj ?_]
          · exact hold
          · intro heq
            have hf := hfree h0
            rw [heq] at hf
            simp [List.getD_eq_getElem?_getD, hold] at hf
        · simp only [registerObject, h0, if_false]
          exact hold
      · exact hold

theorem reactivated_isDisposed (h : HandleProxy) (n : Int) :
    (h.reactivated n).IsDisposed = false := by
  simp [HandleProxy.reactivated, HandleProxy.IsDisposed]

theorem Inv.recycled {g : Statics} {e : V8EngineProxy} (hI : Inv g e) (id0 : Int)
    (hlast : e._DisposedHandles.getLast? = some id0) (h : HandleProxy)
    (hp : e.heap[id0.toNat]? = some h) :
    Inv g (e.recycled id0.toNat h) := by
  have hmem := mem_of_getLast? hlast
  obtain ⟨h0, x, hx, hxd⟩ := hI.freeDisposed id0 hmem
  rw [hp] at hx
  cases hx
  have hlt := getElem?_lt hp
  have hget := set_getElem? e.heap id0.toNat (h.reactivated e._EngineID) hlt
  have hsplit := eq_dropLast_append hlast
  have hnd := hI.freeNodup
  rw [hsplit] at hnd
  have hnot : id0 ∉ e._DisposedHandles.dropLast := by
    intro hin
    have := (List.nodup_append.mp hnd).2.2
    exact this hin (List.mem_singleton_self _) 
  unfold V8EngineProxy.recycled
  constructor
  · exact hI.live
  · exact hI.next
  · simpa using hI.handles
  · intro q y hy
    simp only [hget] at hy
    by_cases hq : q = id0.toNat
    · subst hq
      simp at hy
      subst hy
      exact hI.ids _ h hp
    · simp [hq] at hy
      exact hI.ids q y hy
  · intro q y hy
    simp only [hget] at hy
    by_cases hq : q = id0.toNat
    · subst hq
      simp at hy
      subst hy
      exact hI.ready _ h hp
    · simp [hq] at hy
      exact hI.ready q y hy
  · intro q y hy hyd
    simp only [hget] at hy
    by_cases hq : q = id0.toNat
    · subst hq
      simp at hy
      subst hy
      simp [HandleProxy.reactivated]
    · simp [hq] at hy
      exact hI.owner q y hy hyd
  · intro q y hy hyd
    simp only [hget] at hy
    by_cases hq : q = id0.toNat
    · subst hq
      simp at hy
      subst hy
      rw [reactivated_isDisposed] at hyd
      cases hyd
    · simp [hq] at hy
      exact hI.cleared q y hy hyd
  · exact (List.nodup_append.mp hnd).1
  · intro id hin
    have hin' : id ∈ e._DisposedHandles := mem_of_mem_dropLast hin
    obtain ⟨hid0, y, hy, hyd⟩ := hI.freeDisposed id hin'
    refine ⟨hid0, y, ?_, hyd⟩
    have hne : id.toNat ≠ id0.toNat := by
      intro heq
      apply hnot
      have : id = id0 := by omega
      rw [← this]; exact hin
    simp [hget, hne, hy]
  · intro q hq; simpa using hI.pendingValid q hq
  · intro q hq; simpa using hI.weakValid q hq
  · intro q hq; simpa using hI.strongValid q hq
  · intro i q hiq
    obtain ⟨y, hy, hyd, hyo⟩ := hI.objsSound i q hiq
    have hne : q ≠ id0.toNat := by
      intro heq
      subst heq
      rw [hp] at hy
      cases hy
      rw [hxd] at hyd
      cases hyd
    exact ⟨y, by simp [hget, hne, hy], hyd, hyo⟩
  · intro q y hy hyd hyo
    simp only [hget] at hy
    by_cases hq : q = id0.toNat
    · subst hq
      simp at hy
      subst hy
      have := hI.cleared _ h hp hxd
      simp [HandleProxy.reactivated, this] at hyo
    · simp [hq] at hy
      exact hI.objsComplete q y hy hyd hyo

theorem append_getElem? {α : Type} (l : List α) (a : α) (q : Nat) :
    (l ++ [a])[q]? = if q = l.length then some a else l[q]? := by
  by_cases hq : q < l.length
  · rw [List.getElem?_append_left hq]
    have : ¬ q = l.length := by omega
    simp [this]
  · rw [List.getElem?_append_right (Nat.le_of_not_lt hq)]
    by_cases hq2 : q = l.length
    · subst hq2; simp
    · have h1 : l[q]? = none := List.getElem?_eq_none (Nat.le_of_not_lt hq)
      have h2 : q - l.length ≠ 0 := by omega
      simp [hq2, h1]
      omega

theorem Inv.allocated {g : Statics} {e : V8EngineProxy} (hI : Inv g e) :
    Inv g e.allocated := by
  have hget := append_getElem? e.heap (HandleProxy.ctor e._EngineID e._Handles.length)
  have hlen : e._Handles.length = e.heap.length := by
    rw [hI.handles]; simp
  have hold : ∀ (q : Nat) (y : HandleProxy), e.heap[q]? = some y →
      e.allocated.heap[q]? = some y := by
    intro q y hy
    have := getElem?_lt hy
    show (e.heap ++ _)[q]? = _
    rw [List.getElem?_append_left this]; exact hy
  unfold V8EngineProxy.allocated
  constructor
  · exact hI.live
  · exact hI.next
  · show e._Handles ++ [e.heap.length] = List.range (e.heap ++ _).length
    rw [List.length_append, List.length_singleton, List.range_succ, hI.handles]
  · intro q y hy
    simp only [hget] at hy
    by_cases hq : q = e.heap.length
    · subst hq
      simp at hy
      subst hy
      simp [HandleProxy.ctor, hlen]
    · simp [hq] at hy
      exact hI.ids q y hy
  · intro q y hy
    simp only [hget] at hy
    by_cases hq : q = e.heap.length
    · subst hq
      simp at hy
      subst hy
      simp [HandleProxy.ctor]
    · simp [hq] at hy
      exact hI.ready q y hy
  · intro q y hy hyd
    simp only [hget] at hy
    by_cases hq : q = e.heap.length
    · subst hq
      simp at hy
      subst hy
      simp [HandleProxy.ctor]
    · simp [hq] at hy
      exact hI.owner q y hy hyd
  · intro q y hy hyd
    simp only [hget] at hy
    by_cases hq : q = e.heap.length
    · subst hq
      simp at hy
      subst hy
      simp [HandleProxy.ctor, HandleProxy.IsDisposed] at hyd
    · simp [hq] at hy
      exact hI.cleared q y hy hyd
  · exact hI.freeNodup
  · intro id hin
    obtain ⟨hid0, y, hy, hyd⟩ := hI.freeDisposed id hin
    exact ⟨hid0, y, hold _ y hy, hyd⟩
  · intro q hq
    have := hI.pendingValid q hq
    simp only [List.length_append, List.length_singleton]; omega
  · intro q hq
    have := hI.weakValid q hq
    simp only [List.length_append, List.length_singleton]; omega
  · intro q hq
    have := hI.strongValid q hq
    simp only [List.length_append, List.length_singleton]; omega
  · intro i q hiq
    obtain ⟨y, hy, hyd, hyo⟩ := hI.objsSound i q hiq
    exact ⟨y, hold _ y hy, hyd, hyo⟩
  · intro q y hy hyd hyo
    simp only [hget] at hy
    by_cases hq : q = e.heap.length
    · subst hq
      simp at hy
      subst hy
      simp [HandleProxy.ctor] at hyo
    · simp [hq] at hy
      exact hI.objsComplete q y hy hyd hyo

theorem drains_drained {g : Statics} {e : V8EngineProxy} (hI : Inv g e) (gc : List Nat) :
    Drains g e (e.drained g gc) := by
  unfold V8EngineProxy.drained
  have h1 := drains_processHandleQueues hI 2
  split
  · exact h1.andThen (drains_idleNotificationDeadline gc _ h1.inv)
  · exact h1

theorem GetHandleProxy_found (g : Statics) (e : V8EngineProxy) (v : Option Value)
    (gc : List Nat) (p : Nat) (h : e.lookup v = some p) :
    e.GetHandleProxy g v gc = (e, .ok p) := by
  unfold V8EngineProxy.GetHandleProxy
  simp only [h]

theorem range_getElem? (n k : Nat) (h : k < n) : (List.range n)[k]? = some k := by
  simp [h]

theorem Initialize_of_disposed (g : Statics) (e : V8EngineProxy) (p : Nat) (v : Option Value)
    (h : HandleProxy) (hp : e.heap[p]? = some h) (hd : h.IsDisposed = true) :
    HandleProxy.Initialize g e p v =
      (HandleProxy.SetHandle { e with heap := e.heap.set p { h with _Disposed := 0 } } p v,
        some p) := by
  have hd1 : h._Disposed ≠ 0 := by
    intro hz
    simp [HandleProxy.IsDisposed, hz] at hd
  unfold HandleProxy.Initialize
  simp only [hp, hd1, ne_eq, not_false_eq_true, if_true, Dispose_of_disposed g e p h hp hd,
    Bool.not_true, Bool.false_eq_true, if_false, update_eq_set e p _ h hp]

theorem Initialize_of_fresh (g : Statics) (e : V8EngineProxy) (p : Nat) (v : Option Value)
    (h : HandleProxy) (hp : e.heap[p]? = some h) (hd : h._Disposed = 0) :
    HandleProxy.Initialize g e p v = (HandleProxy.SetHandle e p v, some p) := by
  have hlt := getElem?_lt hp
  have hh : ({ h with _Disposed := 0 } : HandleProxy) = h := by
    cases h; simp at hd; simp [hd]
  have hset : e.heap.set p h = e.heap := by
    apply List.ext_getElem?
    intro q
    rw [set_getElem? _ _ _ hlt]
    by_cases hq : q = p
    · subst hq; simp [hp]
    · simp [hq]
  unfold HandleProxy.Initialize
  simp only [hp, hd, ne_eq, not_true_eq_false, if_false, Bool.not_true, Bool.false_eq_true,
    update_eq_set e p _ h hp, hh, hset]

theorem GetHandleProxy_not_found (g : Statics) (e : V8EngineProxy) (v : Option Value)
    (gc : List Nat) (h : e.lookup v = none) :
    e.GetHandleProxy g v gc = V8EngineProxy.acquire g (e.drained g gc) v := by
  unfold V8EngineProxy.GetHandleProxy
  simp only [h]

theorem acquire_recycle (g : Statics) (e : V8EngineProxy) (v : Option Value)
    (hI : Inv g e) (id0 : Int) (hlast : e._DisposedHandles.getLast? = some id0) :
    ∃ h, e.heap[id0.toNat]? = some h ∧ h.IsDisposed = true ∧ 0 ≤ id0 ∧
      V8EngineProxy.acquire g e v =
        (HandleProxy.SetHandle (e.recycled id0.toNat h) id0.toNat v, .ok id0.toNat) := by
  obtain ⟨h0, h, hp, hd⟩ := hI.freeDisposed id0 (mem_of_getLast? hlast)
  refine ⟨h, hp, hd, h0, ?_⟩
  have hlt := getElem?_lt hp
  have hH : e._Handles[id0.toNat]? = some id0.toNat := by
    rw [hI.handles]; exact range_getElem? _ _ hlt
  unfold V8EngineProxy.acquire
  simp only [hlast, h0, if_true, hH]
  rw [update_eq_set { e with _DisposedHandles := e._DisposedHandles.dropLast } id0.toNat _ h hp]
  rw [Initialize_of_disposed g _ id0.toNat v
    { h with _EngineProxy := some e._EngineID, _EngineID := e._EngineID }
    (by simp [hlt]) (by simpa [HandleProxy.IsDisposed] using hd)]
  simp [V8EngineProxy.recycled, HandleProxy.reactivated]

theorem acquire_new (g : Statics) (e : V8EngineProxy) (v : Option Value)
    (hnil : e._DisposedHandles = []) :
    V8EngineProxy.acquire g e v =
      ((HandleProxy.SetHandle e.allocated e.heap.length v).ProcessHandleQueues g 10,
        .ok e.heap.length) := by
  have hp : ({ e with heap := e.heap ++ [HandleProxy.ctor e._EngineID e._Handles.length] }
      : V8EngineProxy).heap[e.heap.length]?
      = some (HandleProxy.ctor e._EngineID e._Handles.length) := by simp
  have hp2 : e.allocated.heap[e.heap.length]?
      = some (HandleProxy.ctor e._EngineID e._Handles.length) := by
    simp [V8EngineProxy.allocated]
  have hl : e._DisposedHandles.getLast? = none := by rw [hnil]; rfl
  unfold V8EngineProxy.acquire
  simp only [hl]
  rw [Initialize_of_fresh g _ e.heap.length v _ hp rfl]
  simp only []
  have hcd : (HandleProxy.ctor e._EngineID e._Handles.length).IsDisposed = false := by
    simp [HandleProxy.ctor, HandleProxy.IsDisposed]
  rw [SetHandle_eq _ _ v _ e._EngineID hp hcd rfl rfl,
    SetHandle_eq _ _ v _ e._EngineID hp2 hcd rfl rfl]
  rfl

theorem lookup_none_free {e : V8EngineProxy} {v : Option Value} (h : e.lookup v = none)
    (h0 : 0 ≤ HandleProxy.GetManagedObjectIDStatic v) :
    e._Objects.getD (HandleProxy.GetManagedObjectIDStatic v).toNat none = none := by
  unfold V8EngineProxy.lookup at h
  by_cases hlt : HandleProxy.GetManagedObjectIDStatic v < (e._Objects.length : Int)
  · simpa [h0, hlt] using h
  · have : e._Objects.length ≤ (HandleProxy.GetManagedObjectIDStatic v).toNat := by omega
    simp [List.getD_eq_getElem?_getD, List.getElem?_eq_none this]

theorem recycled_getElem?_self (e : V8EngineProxy) (p : Nat) (h x : HandleProxy)
    (hp : e.heap[p]? = some x) :
    (e.recycled p h).heap[p]? = some (h.reactivated e._EngineID) := by
  have hlt := getElem?_lt hp
  simp [V8EngineProxy.recycled, hlt]

theorem allocated_getElem?_self (e : V8EngineProxy) :
    e.allocated.heap[e.heap.length]? = some (HandleProxy.ctor e._EngineID e._Handles.length) := by
  simp [V8EngineProxy.allocated]

theorem ctor_isDisposed (a b : Int) : (HandleProxy.ctor a b).IsDisposed = false := by
  simp [HandleProxy.ctor, HandleProxy.IsDisposed]

/-- Recycling or allocating keeps the invariant and yields a proxy. -/
theorem Inv.acquire {g : Statics} {e : V8EngineProxy} (hI : Inv g e) (v : Option Value)
    (hfree : 0 ≤ HandleProxy.GetManagedObjectIDStatic v →
      e._Objects.getD (HandleProxy.GetManagedObjectIDStatic v).toNat none = none) :
    Inv g (V8EngineProxy.acquire g e v).1 ∧ ∃ p, (V8EngineProxy.acquire g e v).2 = .ok p := by
  cases hlast : e._DisposedHandles.getLast? with
  | some id0 =>
    obtain ⟨h, hp, hd, h0, heq⟩ := acquire_recycle g e v hI id0 hlast
    rw [heq]
    refine ⟨?_, _, rfl⟩
    have hR := hI.recycled id0 hlast h hp
    refine hR.setHandle id0.toNat _ (recycled_getElem?_self e _ h h hp)
      (reactivated_isDisposed _ _) ?_ v hfree
    exact hI.cleared _ h hp hd
  | none =>
    have hnil : e._DisposedHandles = [] := List.getLast?_eq_none_iff.mp hlast
    rw [acquire_new g e v hnil]
    refine ⟨?_, _, rfl⟩
    have hA := hI.allocated
    have hS := hA.setHandle e.heap.length _ (allocated_getElem?_self e) (ctor_isDisposed _ _)
      rfl v hfree
    exact (drains_processHandleQueues hS 10).inv

theorem Inv.getHandleProxy {g : Statics} {e : V8EngineProxy} (hI : Inv g e)
    (v : Option Value) (gc : List Nat) :
    Inv g (e.GetHandleProxy g v gc).1 ∧ ∃ p, (e.GetHandleProxy g v gc).2 = .ok p := by
  cases hl : e.lookup v with
  | some p =>
    rw [GetHandleProxy_found g e v gc p hl]
    exact ⟨hI, p, rfl⟩
  | none =>
    rw [GetHandleProxy_not_found g e v gc hl]
    have hD := drains_drained hI gc
    apply hD.inv.acquire v
    intro h0
    exact hD.objsFree _ (lookup_none_free hl h0)

theorem Keeps.still (p : Nat) (e : V8EngineProxy) : Keeps p e e :=
  ⟨fun h hh => ⟨h, hh, rfl, fun x => x⟩, fun _ h => h, fun _ h => h⟩

theorem Keeps.andAlso {p : Nat} {a b c : V8EngineProxy} (h1 : Keeps p a b) (h2 : Keeps p b c) :
    Keeps p a c := by
  refine ⟨?_, fun i h => h2.objs i (h1.objs i h), fun q h => h1.pending q (h2.pending q h)⟩
  intro h hh
  obtain ⟨h', hh', hc', hz'⟩ := h1.proxy h hh
  obtain ⟨h'', hh'', hc'', hz''⟩ := h2.proxy h' hh'
  exact ⟨h'', hh'', hc''.trans hc', fun x => hz'' (hz' x)⟩

theorem keeps_update (p : Nat) (e : V8EngineProxy) (q : Nat) (f : HandleProxy → HandleProxy)
    (hf : ∀ h, (f h).core = h.core) (hz : ∀ h, h._Disposed = 0 → (f h)._Disposed = 0) :
    Keeps p e (e.update q f) := by
  refine ⟨?_, fun i h => by simpa using h, fun x h => by simpa using h⟩
  intro h hh
  rw [V8EngineProxy.update_getElem?]
  by_cases hq : p = q
  · subst hq
    simp only [if_true, hh, Option.map_some']
    exact ⟨f h, rfl, hf h, hz h⟩
  · simp only [hq, if_false]
    exact ⟨h, hh, rfl, fun x => x⟩

theorem clearBits_zero (m : Nat) : clearBits 0 m = 0 := by
  simp [clearBits]

theorem keeps_dispose {g : Statics} {e : V8EngineProxy} (hI : Inv g e) (p q : Nat)
    (hne : q ≠ p) : Keeps p e (HandleProxy.Dispose g e q).1 := by
  cases hq : e.heap[q]? with
  | none =>
    have : HandleProxy.Dispose g e q = (e, true) := Dispose_of_invalid g e q hq true
    rw [this]; exact Keeps.still p e
  | some x =>
  cases hd : x.IsDisposed with
  | true =>
    have : HandleProxy.Dispose g e q = (e, true) := Dispose_of_disposed g e q x hq hd true
    rw [this]; exact Keeps.still p e
  | false =>
  have hown := hI.owner q x hq hd
  have hl : V8EngineProxy.IsDisposed g x._EngineID = false := by rw [hown.1]; exact hI.live
  have hr := ready_of_lt x (hI.ready q x hq)
  rw [Dispose_eq g e q x hq hd hl hr, DisposeHandleProxy_eq g e q x hq hd hl hr]
  have hlt := getElem?_lt hq
  refine ⟨?_, ?_, fun y h => h⟩
  · intro h hh
    refine ⟨h, ?_, rfl, fun z => z⟩
    show (e.heap.set q x.clearedState)[p]? = some h
    rw [set_getElem? _ _ _ hlt]
    have : ¬ p = q := fun h => hne h.symm
    simp [this, hh]
  · intro i hi
    show (if _ then _ else _ : List (Option Nat))[i]? = _
    split
    · rename_i hc
      rw [List.getElem?_set]
      by_cases hxi : x._ObjectID.toNat = i
      · exfalso
        have := hI.objsComplete q x hq hd hc.1
        rw [hxi, hi] at this
        simp at this
        exact hne this.symm
      · simp [hxi, hi]
    · exact hi

theorem keeps_processPendingDisposal {g : Statics} {e : V8EngineProxy} (hI : Inv g e)
    (p : Nat) (hp : p ∉ e._HandlesPendingDisposal) :
    Keeps p e (e.processPendingDisposal g) := by
  unfold V8EngineProxy.processPendingDisposal
  split
  · split
    · rename_i q hq
      have hqp : q ≠ p := by
        intro h; subst h; exact hp (mem_of_getLast? hq)
      have h1 := drains_setPending hI e._HandlesPendingDisposal.dropLast
        (fun q hq => hI.pendingValid q (mem_of_mem_dropLast hq))
      have k1 : Keeps p e
          { e with _HandlesPendingDisposal := e._HandlesPendingDisposal.dropLast } :=
        ⟨fun h hh => ⟨h, hh, rfl, fun x => x⟩, fun _ h => h,
          fun y hy => mem_of_mem_dropLast hy⟩
      have h2 := drains_update_core h1.inv q
        (fun h0 => { h0 with _Disposed := clearBits h0._Disposed 16 }) core_clear16
      have k2 := keeps_update p
        { e with _HandlesPendingDisposal := e._HandlesPendingDisposal.dropLast } q
        (fun h0 => { h0 with _Disposed := clearBits h0._Disposed 16 }) core_clear16
        (fun h hz => by simp [hz, clearBits_zero])
      exact (k1.andAlso k2).andAlso (keeps_dispose h2.inv p q hqp)
    · exact Keeps.still p e
  · exact Keeps.still p e

theorem keeps_processMakeWeak (p : Nat) (e : V8EngineProxy) :
    Keeps p e e.processMakeWeak.1 := by
  unfold V8EngineProxy.processMakeWeak
  split
  · rename_i q hq
    have k1 : Keeps p e
        { e with _HandlesToBeMadeWeak := e._HandlesToBeMadeWeak.dropLast } :=
      ⟨fun h hh => ⟨h, hh, rfl, fun x => x⟩, fun _ h => h, fun y hy => hy⟩
    have k2 := keeps_update p
      { e with _HandlesToBeMadeWeak := e._HandlesToBeMadeWeak.dropLast } q
      (fun h0 => { h0 with _Disposed := clearBits (clearBits h0._Disposed 4) 16 })
      core_clear4_16 (fun h hz => by simp [hz, clearBits_zero])
    have k3 := keeps_update p
      ({ e with _HandlesToBeMadeWeak := e._HandlesToBeMadeWeak.dropLast }.update q
        (fun h0 => { h0 with _Disposed := clearBits (clearBits h0._Disposed 4) 16 })) q _
      (core_setWeak true) (fun h hz => by cases hh : h._Handle <;> simp [hz])
    exact (k1.andAlso k2).andAlso k3
  · exact Keeps.still p e

theorem keeps_processMakeStrong (p : Nat) (e : V8EngineProxy) :
    Keeps p e e.processMakeStrong.1 := by
  unfold V8EngineProxy.processMakeStrong
  split
  · rename_i q hq
    have k1 : Keeps p e
        { e with _HandlesToBeMadeStrong := e._HandlesToBeMadeStrong.dropLast } :=
      ⟨fun h hh => ⟨h, hh, rfl, fun x => x⟩, fun _ h => h, fun y hy => hy⟩
    have k2 := keeps_update p
      { e with _HandlesToBeMadeStrong := e._HandlesToBeMadeStrong.dropLast } q
      (fun h0 => { h0 with _Disposed := clearBits h0._Disposed 8 })
      core_clear8 (fun h hz => by simp [hz, clearBits_zero])
    have k3 := keeps_update p
      ({ e with _HandlesToBeMadeStrong := e._HandlesToBeMadeStrong.dropLast }.update q
        (fun h0 => { h0 with _Disposed := clearBits h0._Disposed 8 })) q _
      (core_setWeak false) (fun h hz => by cases hh : h._Handle <;> simp [hz])
    exact (k1.andAlso k2).andAlso k3
  · exact Keeps.still p e

theorem keeps_processStep {g : Statics} {e : V8EngineProxy} (hI : Inv g e)
    (p : Nat) (hp : p ∉ e._HandlesPendingDisposal) :
    Keeps p e (e.processStep g).1 := by
  unfold V8EngineProxy.processStep
  exact ((keeps_processPendingDisposal hI p hp).andAlso (keeps_processMakeWeak p _)).andAlso
    (keeps_processMakeStrong p _)

theorem keeps_processLoop {g : Statics} (p : Nat) (n : Nat) :
    ∀ (d : Bool) (e : V8EngineProxy), Inv g e → p ∉ e._HandlesPendingDisposal →
      Keeps p e (V8EngineProxy.processLoop g n d e) := by
  induction n with
  | zero => intro d e _ _; exact Keeps.still p e
  | succ n ih =>
    intro d e hI hp
    unfold V8EngineProxy.processLoop
    split
    · have h1 := drains_processStep (g := g) hI
      have k1 := keeps_processStep hI p hp
      exact k1.andAlso (ih _ _ h1.inv (fun hin => hp (k1.pending p hin)))
    · exact Keeps.still p e

theorem keeps_processHandleQueues {g : Statics} {e : V8EngineProxy} (hI : Inv g e)
    (p : Nat) (hp : p ∉ e._HandlesPendingDisposal) (loops : Int) :
    Keeps p e (e.ProcessHandleQueues g loops) :=
  keeps_processLoop p _ _ _ hI hp

theorem Inv.init {g : Statics} (engineID : Int)
    (hlive : V8EngineProxy.IsDisposed g engineID = false) :
    Inv g (V8EngineProxy.init engineID) := by
  constructor <;> simp [V8EngineProxy.init, hlive]

theorem drains_exportedDisposeHandleProxy {g : Statics} {e : V8EngineProxy} (hI : Inv g e)
    (p : Option Nat) : Drains g e (Exports.DisposeHandleProxy g e p) := by
  unfold Exports.DisposeHandleProxy
  split
  · exact Drains.same hI
  · split
    · exact Drains.same hI
    · split
      · exact Drains.same hI
      · split
        · exact drains_queueHandleDisposal hI _
        · exact drains_dispose hI _

theorem Reachable.inv {g : Statics} {e : V8EngineProxy} (hR : Reachable g e) : Inv g e := by
  induction hR with
  | init engineID hlive => exact Inv.init engineID hlive
  | getHandleProxy v gc _ ih => exact (ih.getHandleProxy v gc).1
  | dispose p _ ih => exact (drains_dispose ih p).inv
  | tryDispose p _ ih => exact (drains_tryDispose ih p).inv
  | disposeHandleProxy p _ ih =>
    cases p with
    | none => exact ih
    | some p => exact (drains_disposeHandleProxy ih p).inv
  | queueHandleDisposal p _ ih => exact (drains_queueHandleDisposal ih p).inv
  | processHandleQueues loops _ ih => exact (drains_processHandleQueues ih loops).inv
  | exportedDisposeHandleProxy p _ ih => exact (drains_exportedDisposeHandleProxy ih p).inv
  | makeWeak p _ ih => exact (drains_makeWeak ih p).inv
  | makeStrong p _ ih => exact (drains_makeStrong ih p).inv
  | queueMakeWeak p _ ih => exact (drains_queueMakeWeak ih p).inv
  | queueMakeStrong p _ ih => exact (drains_queueMakeStrong ih p).inv
  | collect gc _ ih => exact (drains_idleNotificationDeadline gc _ ih).inv
  | registerGCCallback c _ ih => exact ih.setCallback c
  | enterCallbackScope _ ih => exact ih.setScope _
  | leaveCallbackScope _ ih => exact ih.setScope _
  | setExecutingScript b _ ih => exact ih.setExecuting b

theorem not_inUse_of_disposed (h : HandleProxy) (hd : h.IsDisposed = true) :
    h.IsInUse = false := by
  rw [isDisposed_eq_testBit] at hd
  unfold HandleProxy.IsInUse
  have h1 : (h._Disposed &&& 19).testBit 0 = true := by
    rw [Nat.testBit_and, hd]; decide
  cases hz : (h._Disposed &&& 19 == 0) with
  | false => rfl
  | true =>
    have : h._Disposed &&& 19 = 0 := by simpa using hz
    rw [this] at h1
    simp at h1

theorem withValue_Disposed (h : HandleProxy) (n : Int) (v : Option Value) :
    (h.withValue n v)._Disposed = h._Disposed := rfl

theorem lookup_of_entry {e : V8EngineProxy} {v : Option Value} {p : Nat}
    (h0 : 0 ≤ HandleProxy.GetManagedObjectIDStatic v)
    (h : e._Objects[(HandleProxy.GetManagedObjectIDStatic v).toNat]? = some (some p)) :
    e.lookup v = some p := by
  have hlt := getElem?_lt h
  unfold V8EngineProxy.lookup
  have : HandleProxy.GetManagedObjectIDStatic v < (e._Objects.length : Int) := by omega
  simp [h0, this, List.getD_eq_getElem?_getD, h]

theorem entry_of_lookup {e : V8EngineProxy} {v : Option Value} {p : Nat}
    (h : e.lookup v = some p) :
    0 ≤ HandleProxy.GetManagedObjectIDStatic v ∧
    HandleProxy.GetManagedObjectIDStatic v < (e._Objects.length : Int) ∧
    e._Objects[(HandleProxy.GetManagedObjectIDStatic v).toNat]? = some (some p) := by
  unfold V8EngineProxy.lookup at h
  split at h
  · rename_i hc
    refine ⟨hc.1, hc.2, ?_⟩
    have hlt : (HandleProxy.GetManagedObjectIDStatic v).toNat < e._Objects.length := by omega
    rw [List.getD_eq_getElem?_getD, List.getElem?_eq_getElem hlt] at h
    rw [List.getElem?_eq_getElem hlt]
    simpa using h
  · cases h

/-- What `acquire` returns from a state that satisfies the invariant. -/
theorem acquire_result {g : Statics} {e : V8EngineProxy} (hI : Inv g e) (v : Option Value)
    (hfree : 0 ≤ HandleProxy.GetManagedObjectIDStatic v →
      e._Objects.getD (HandleProxy.GetManagedObjectIDStatic v).toNat none = none) :
    ∃ (p : Nat) (h : HandleProxy),
      (V8EngineProxy.acquire g e v).2 = .ok p ∧
      (V8EngineProxy.acquire g e v).1.heap[p]? = some h ∧ h._Disposed = 0 ∧
      ((HandleProxy.classify v).2 = true → 0 ≤ HandleProxy.GetManagedObjectIDStatic v →
        (V8EngineProxy.acquire g e v).1.lookup v = some p) := by
  cases hlast : e._DisposedHandles.getLast? with
  | some id0 =>
    obtain ⟨h, hp, hd, h0, heq⟩ := acquire_recycle g e v hI id0 hlast
    have hR := hI.recycled id0 hlast h hp
    have hp' := recycled_getElem?_self e _ h h hp
    have hlt := getElem?_lt hp'
    rw [heq, SetHandle_eq _ _ v _ e._EngineID hp' (reactivated_isDisposed _ _)
      (hI.cleared _ h hp hd) rfl]
    refine ⟨id0.toNat,
      (h.reactivated e._EngineID).withValue (e.recycled id0.toNat h)._NextNonTemplateObjectID v,
      rfl, ?_, ?_, ?_⟩
    · show (List.set _ _ _)[id0.toNat]? = _
      rw [set_getElem? _ _ _ hlt]; simp
    · rfl
    · intro hc hid
      apply lookup_of_entry hid
      show (if _ then _ else _ : List (Option Nat))[_]? = _
      simp only [hc, if_true]
      exact registerObject_getElem?_self _ _ _ hid
  | none =>
    have hnil : e._DisposedHandles = [] := List.getLast?_eq_none_iff.mp hlast
    rw [acquire_new g e v hnil]
    have hA := hI.allocated
    have hp' := allocated_getElem?_self e
    have hlt := getElem?_lt hp'
    have hS := hA.setHandle e.heap.length _ hp' (ctor_isDisposed _ _) rfl v hfree
    have hnp : e.heap.length ∉
        (HandleProxy.SetHandle e.allocated e.heap.length v)._HandlesPendingDisposal := by
      rw [SetHandle_eq _ _ v _ e._EngineID hp' (ctor_isDisposed _ _) rfl rfl]
      intro hin
      exact Nat.lt_irrefl _ (hI.pendingValid _ hin)
    have hK := keeps_processHandleQueues hS e.heap.length hnp 10
    have hpS : (HandleProxy.SetHandle e.allocated e.heap.length v).heap[e.heap.length]? =
        some ((HandleProxy.ctor e._EngineID e._Handles.length).withValue
          e.allocated._NextNonTemplateObjectID v) := by
      rw [SetHandle_eq _ _ v _ e._EngineID hp' (ctor_isDisposed _ _) rfl rfl]
      show (List.set _ _ _)[e.heap.length]? = _
      rw [set_getElem? _ _ _ hlt]; simp
    obtain ⟨h', hh', _, hz⟩ := hK.proxy _ hpS
    refine ⟨e.heap.length, h', rfl, hh', hz rfl, ?_⟩
    intro hc hid
    apply lookup_of_entry hid
    apply hK.objs
    rw [SetHandle_eq _ _ v _ e._EngineID hp' (ctor_isDisposed _ _) rfl rfl]
    show (if _ then _ else _ : List (Option Nat))[_]? = _
    simp only [hc, if_true]
    exact registerObject_getElem?_self _ _ _ hid

theorem inUse_of_zero (h : HandleProxy) (hz : h._Disposed = 0) : h.IsInUse = true := by
  simp [HandleProxy.IsInUse, hz]

theorem not_disposed_of_zero (h : HandleProxy) (hz : h._Disposed = 0) :
    h.IsDisposed = false := by
  simp [HandleProxy.IsDisposed, hz]

theorem Dispose_of_not_ready (g : Statics) (e : V8EngineProxy) (p : Nat) (h : HandleProxy)
    (hp : e.heap[p]? = some h) (hd : h.IsDisposed = false)
    (hl : V8EngineProxy.IsDisposed g h._EngineID = false)
    (hr : h.IsDisposeReadyManagedSide = false) :
    HandleProxy.Dispose g e p = (e, true) := by
  simp [HandleProxy.Dispose, HandleProxy._Dispose, HandleProxy._DisposeWith, hp, hd, hl, hr]

theorem Quiet.unchanged (e : V8EngineProxy) : Quiet e e := ⟨rfl, rfl, rfl, rfl, rfl, rfl⟩

theorem Quiet.followedBy {a b c : V8EngineProxy} (h1 : Quiet a b) (h2 : Quiet b c) :
    Quiet a c :=
  ⟨h2.scope.trans h1.scope, h2.pending.trans h1.pending, h2.free.trans h1.free,
    h2.objs.trans h1.objs, h2.handles.trans h1.handles, h2.disposed.trans h1.disposed⟩

theorem quiet_update (e : V8EngineProxy) (p : Nat) (f : HandleProxy → HandleProxy)
    (hf : ∀ h, (f h).core = h.core) : Quiet e (e.update p f) := by
  refine ⟨by simp, by simp, by simp, by simp, by simp, ?_⟩
  have h1 := V8EngineProxy.update_map_core e p f hf
  have h2 := congrArg (List.map (fun (c : Int × Int × Int × Int × Option Int × Bool) =>
    c.2.2.2.2.2)) h1
  simpa [List.map_map, Function.comp_def, HandleProxy.core] using h2

theorem quiet_processMakeWeak (e : V8EngineProxy) : Quiet e e.processMakeWeak.1 := by
  unfold V8EngineProxy.processMakeWeak
  split
  · rename_i q hq
    have k1 : Quiet e { e with _HandlesToBeMadeWeak := e._HandlesToBeMadeWeak.dropLast } :=
      ⟨rfl, rfl, rfl, rfl, rfl, rfl⟩
    exact (k1.followedBy (quiet_update _ q _ core_clear4_16)).followedBy
      (quiet_update _ q _ (core_setWeak true))
  · exact Quiet.unchanged e

theorem quiet_processMakeStrong (e : V8EngineProxy) : Quiet e e.processMakeStrong.1 := by
  unfold V8EngineProxy.processMakeStrong
  split
  · rename_i q hq
    have k1 : Quiet e { e with _HandlesToBeMadeStrong := e._HandlesToBeMadeStrong.dropLast } :=
      ⟨rfl, rfl, rfl, rfl, rfl, rfl⟩
    exact (k1.followedBy (quiet_update _ q _ core_clear8)).followedBy
      (quiet_update _ q _ (core_setWeak false))
  · exact Quiet.unchanged e

theorem processPendingDisposal_in_scope (g : Statics) (e : V8EngineProxy)
    (hs : e._InCallbackScope ≠ 0) : e.processPendingDisposal g = e := by
  unfold V8EngineProxy.processPendingDisposal
  simp [hs]

theorem quiet_processStep (g : Statics) (e : V8EngineProxy) (hs : e._InCallbackScope ≠ 0) :
    Quiet e (e.processStep g).1 := by
  unfold V8EngineProxy.processStep
  simp only [processPendingDisposal_in_scope g e hs]
  exact (quiet_processMakeWeak e).followedBy (quiet_processMakeStrong _)

theorem quiet_processLoop (g : Statics) (n : Nat) :
    ∀ (d : Bool) (e : V8EngineProxy), e._InCallbackScope ≠ 0 →
      Quiet e (V8EngineProxy.processLoop g n d e) := by
  induction n with
  | zero => intro d e _; exact Quiet.unchanged e
  | succ n ih =>
    intro d e hs
    unfold V8EngineProxy.processLoop
    split
    · have h1 := quiet_processStep g e hs
      exact h1.followedBy (ih _ _ (by rw [h1.scope]; exact hs))
    · exact Quiet.unchanged e

theorem isDisposing_or_16 (h : HandleProxy) :
    ({ h with _Disposed := h._Disposed ||| 16 } : HandleProxy).IsDisposing = true := by
  unfold HandleProxy.IsDisposing
  have h1 := Nat.and_two_pow (h._Disposed ||| 16) 4
  have h2 : (h._Disposed ||| 16).testBit 4 = true := by
    rw [Nat.testBit_or]
    have : Nat.testBit 16 4 = true := by decide
    simp [this]
  simp only [h2, Bool.toNat_true, one_mul] at h1
  have h3 : (2 : Nat) ^ 4 = 16 := by norm_num
  rw [h3] at h1
  simp [h1]

theorem isDisposed_or_16 (h : HandleProxy) :
    ({ h with _Disposed := h._Disposed ||| 16 } : HandleProxy).IsDisposed = h.IsDisposed := by
  have := core_or h 16 (by decide)
  simp only [HandleProxy.core, Prod.mk.injEq] at this
  exact this.2.2.2.2.2

theorem exported_dispose_in_scope (g : Statics) (e : V8EngineProxy) (p : Nat)
    (h : HandleProxy) (hs : 0 < e._InCallbackScope) (hp : e.heap[p]? = some h)
    (hl : (h.EngineProxy g).isSome = true) :
    Exports.DisposeHandleProxy g e (some p) = e.QueueHandleDisposal (some p) := by
  unfold Exports.DisposeHandleProxy
  simp only [hp]
  cases hE : h.EngineProxy g with
  | none => rw [hE] at hl; cases hl
  | some x =>
    simp [V8EngineProxy.IsExecutingScript, hs]

theorem Example.freedA_reachable : Reachable Example.statics Example.freedA :=
  Reachable.processHandleQueues 10 (Reachable.leaveCallbackScope
    (Reachable.exportedDisposeHandleProxy (some 0) (Reachable.enterCallbackScope
      (Reachable.getHandleProxy (some Example.objectA) []
        (Reachable.init 0 (by decide))))))

theorem processLoop_of_empty (g : Statics) (n : Nat) :
    ∀ (d : Bool) (e : V8EngineProxy), e._HandlesPendingDisposal = [] →
      e._HandlesToBeMadeWeak = [] → e._HandlesToBeMadeStrong = [] →
      V8EngineProxy.processLoop g n d e = e := by
  induction n with
  | zero => intro d e _ _ _; rfl
  | succ n ih =>
    intro d e hp hw hs
    have hstep : e.processStep g = (e, false) := by
      simp [V8EngineProxy.processStep, V8EngineProxy.processPendingDisposal,
        V8EngineProxy.processMakeWeak, V8EngineProxy.processMakeStrong, hp, hw, hs]
    unfold V8EngineProxy.processLoop
    split
    · rw [hstep]
      exact ih _ _ hp hw hs
    · rfl

theorem lookup_of_no_objects {e : V8EngineProxy} (v : Option Value)
    (h : ∀ (i q : Nat), e._Objects[i]? ≠ some (some q)) : e.lookup v = none := by
  cases hl : e.lookup v with
  | none => rfl
  | some p => exact absurd (entry_of_lookup hl).2.2 (h _ _)

/-- The disposal that ends a cycle, from the state the wrap left. -/
theorem parked_of_wrapped {g : Statics} {s : V8EngineProxy} (hI : Inv g s)
    (hH : s._Handles.length = 1) (h : HandleProxy) (hp : s.heap[0]? = some h)
    (hd : h.IsDisposed = false) (hF : s._DisposedHandles = [])
    (hP : s._HandlesPendingDisposal = []) (hW : s._HandlesToBeMadeWeak = [])
    (hS : s._HandlesToBeMadeStrong = []) :
    Parked g (HandleProxy.Dispose g s 0).1 := by
  have hlen : s.heap.length = 1 := by
    have := congrArg List.length hI.handles
    simp at this; omega
  have hown := hI.owner 0 h hp hd
  have hl : V8EngineProxy.IsDisposed g h._EngineID = false := by rw [hown.1]; exact hI.live
  have hr := ready_of_lt h (hI.ready 0 h hp)
  have hinv := (drains_dispose hI 0).inv
  have hid : h._ID = 0 := by simpa using hI.ids 0 h hp
  rw [Dispose_eq g s 0 h hp hd hl hr, DisposeHandleProxy_eq g s 0 h hp hd hl hr] at hinv ⊢
  refine ⟨hinv, hH, ?_, hP, hW, hS, ?_⟩
  · show s._DisposedHandles ++ [h._ID] = [0]
    rw [hF, hid]; rfl
  · intro i q hiq
    have hiq' : (if 0 ≤ h._ObjectID ∧ h._ObjectID < (s._Objects.length : Int)
        then s._Objects.set h._ObjectID.toNat none else s._Objects)[i]? = some (some q) := hiq
    have hold : s._Objects[i]? = some (some q) ∧
        ¬ (0 ≤ h._ObjectID ∧ h._ObjectID < (s._Objects.length : Int) ∧
          h._ObjectID.toNat = i) := by
      by_cases hc : 0 ≤ h._ObjectID ∧ h._ObjectID < (s._Objects.length : Int)
      · simp only [hc, and_self, if_true] at hiq'
        rw [List.getElem?_set] at hiq'
        by_cases hi : h._ObjectID.toNat = i
        · simp [hi] at hiq'
        · simp [hi] at hiq'
          exact ⟨hiq', fun hh => hi hh.2.2⟩
      · simp only [hc, if_false] at hiq'
        exact ⟨hiq', fun hh => hc ⟨hh.1, hh.2.1⟩⟩
    obtain ⟨x, hx, _, hxo⟩ := hI.objsSound i q hold.1
    have hq0 : q = 0 := by
      have := getElem?_lt hx
      omega
    subst hq0
    rw [hp] at hx
    cases hx
    have hil := getElem?_lt hold.1
    exact hold.2 ⟨by omega, by omega, by omega⟩

theorem idle_of_empty_heap (g : Statics) (gc : List Nat) :
    ∀ e : V8EngineProxy, e.heap = [] → e.IdleNotificationDeadline g gc = e := by
  induction gc with
  | nil => intro e _; rfl
  | cons p gc ih =>
    intro e he
    unfold V8EngineProxy.IdleNotificationDeadline
    simp only [List.foldl_cons, he, List.getElem?_nil]
    exact ih e he

theorem wrap_of_parked {g : Statics} {e : V8EngineProxy} (hK : Parked g e)
    (v : Option Value) (gc : List Nat) :
    ∃ h, e.heap[0]? = some h ∧ h.IsDisposed = true ∧
      e.GetHandleProxy g v gc = (HandleProxy.SetHandle (e.recycled 0 h) 0 v, .ok 0) := by
  have hl := lookup_of_no_objects v hK.objs
  have hphq : e.ProcessHandleQueues g 2 = e :=
    processLoop_of_empty g _ _ e hK.pending hK.weak hK.strong
  have hdr : e.drained g gc = e := by
    unfold V8EngineProxy.drained
    rw [hphq]
    simp [hK.free]
  have hlast : e._DisposedHandles.getLast? = some 0 := by rw [hK.free]; rfl
  obtain ⟨h, hp, hd, _, heq⟩ := acquire_recycle g e v hK.inv 0 hlast
  refine ⟨h, hp, hd, ?_⟩
  rw [GetHandleProxy_not_found g e v gc hl, hdr, heq]
  rfl

theorem cycle_of_parked {g : Statics} {e : V8EngineProxy} (hK : Parked g e)
    (x : Option Value × List Nat) : Parked g (wrapDisposeCycle g e x) := by
  obtain ⟨h, hp, hd, heq⟩ := wrap_of_parked hK x.1 x.2
  have hl := lookup_of_no_objects x.1 hK.objs
  have hR : Inv g (e.recycled 0 h) := hK.inv.recycled 0 (by rw [hK.free]; rfl) h hp
  have hp' := recycled_getElem?_self e 0 h h hp
  have hlt := getElem?_lt hp'
  have hS : Inv g (HandleProxy.SetHandle (e.recycled 0 h) 0 x.1) :=
    hR.setHandle 0 _ hp' (reactivated_isDisposed _ _) (hK.inv.cleared _ h hp hd) x.1
      (fun h0 => lookup_none_free hl h0)
  have hE := SetHandle_eq _ _ x.1 _ e._EngineID hp' (reactivated_isDisposed _ _)
    (hK.inv.cleared _ h hp hd) rfl
  unfold wrapDisposeCycle
  rw [heq]
  simp only []
  apply parked_of_wrapped hS
  · rw [hE]; exact hK.oneSlot
  · rw [hE]
    show (List.set _ _ _)[0]? = _
    rw [set_getElem? _ _ _ hlt]; simp
    rfl
  · rw [withValue_isDisposed]; exact reactivated_isDisposed _ _
  · rw [hE]
    show e._DisposedHandles.dropLast = []
    rw [hK.free]; rfl
  · rw [hE]; exact hK.pending
  · rw [hE]; exact hK.weak
  · rw [hE]; exact hK.strong

theorem cycle_of_init {g : Statics} (engineID : Int)
    (hlive : V8EngineProxy.IsDisposed g engineID = false) (x : Option Value × List Nat) :
    Parked g (wrapDisposeCycle g (V8EngineProxy.init engineID) x) := by
  have hI := Inv.init engineID hlive
  have hl : (V8EngineProxy.init engineID).lookup x.1 = none :=
    lookup_of_no_objects x.1 (by simp [V8EngineProxy.init])
  have hphq : (V8EngineProxy.init engineID).ProcessHandleQueues g 2
      = V8EngineProxy.init engineID :=
    processLoop_of_empty g _ _ _ rfl rfl rfl
  have hdr : (V8EngineProxy.init engineID).drained g x.2 = V8EngineProxy.init engineID := by
    unfold V8EngineProxy.drained
    rw [hphq]
    simp only [V8EngineProxy.init, List.length_nil, if_true]
    exact idle_of_empty_heap g x.2 _ rfl
  have hA := hI.allocated
  have hp' := allocated_getElem?_self (V8EngineProxy.init engineID)
  have hlt := getElem?_lt hp'
  have hS := hA.setHandle _ _ hp' (ctor_isDisposed _ _) rfl x.1
    (fun h0 => lookup_none_free hl h0)
  have hE := SetHandle_eq _ _ x.1 _ engineID hp' (ctor_isDisposed _ _) rfl rfl
  have hphq2 : (HandleProxy.SetHandle (V8EngineProxy.init engineID).allocated
      (V8EngineProxy.init engineID).heap.length x.1).ProcessHandleQueues g 10
      = HandleProxy.SetHandle (V8EngineProxy.init engineID).allocated
      (V8EngineProxy.init engineID).heap.length x.1 := by
    apply processLoop_of_empty <;> rw [hE] <;> rfl
  unfold wrapDisposeCycle
  rw [GetHandleProxy_not_found g _ x.1 x.2 hl, hdr, acquire_new g _ x.1 rfl, hphq2]
  simp only []
  apply parked_of_wrapped hS
  · rw [hE]; rfl
  · rw [hE]
    show (List.set _ _ _)[0]? = _
    rw [set_getElem? _ _ _ hlt]
    simp [V8EngineProxy.init]
    rfl
  · rw [withValue_isDisposed]; exact ctor_isDisposed _ _
  · rw [hE]; rfl
  · rw [hE]; rfl
  · rw [hE]; rfl
  · rw [hE]; rfl

theorem cycles_of_parked {g : Statics} (xs : List (Option Value × List Nat)) :
    ∀ e : V8EngineProxy, Parked g e → Parked g (wrapDisposeCycles g e xs) := by
  induction xs with
  | nil => intro e hK; exact hK
  | cons x xs ih =>
    intro e hK
    unfold wrapDisposeCycles
    simp only [List.foldl_cons]
    exact ih _ (cycle_of_parked hK x)

theorem EngineProxy_of_gone (g : Statics) (h : HandleProxy)
    (hg : h._EngineID < 0 ∨ V8EngineProxy.IsDisposed g h._EngineID = true) :
    h.EngineProxy g = none := by
  unfold HandleProxy.EngineProxy
  rcases hg with hg | hg
  · rw [if_neg]; intro hc; omega
  · rw [if_neg]; intro hc; rw [hg] at hc; exact absurd hc.2 (by decide)

theorem SetManagedObjectID_type (e : V8EngineProxy) (p : Nat) (id : Int) (q : Nat) :
    ((HandleProxy.SetManagedObjectID e p id).1.heap[q]?).map (fun h => h._Type) =
      (e.heap[q]?).map (fun h => h._Type) := by
  unfold HandleProxy.SetManagedObjectID
  cases hp : e.heap[p]? with
  | none => simp [hp]
  | some h =>
    have hlt := getElem?_lt hp
    cases hx : h._EngineProxy with
    | none => simp [hp, hx]
    | some x =>
      simp only [hp, hx]
      by_cases hq : q = p
      · subst hq
        split_ifs <;> simp [V8EngineProxy.GetNextNonTemplateObjectID, List.getElem?_set, hlt, hp]
      · have hne : p ≠ q := fun hc => hq hc.symm
        split_ifs <;> simp [V8EngineProxy.GetNextNonTemplateObjectID, List.getElem?_set, hne]

theorem GetManagedObjectID_type (e : V8EngineProxy) (p : Nat) (q : Nat) :
    ((HandleProxy.GetManagedObjectID e p).1.heap[q]?).map (fun h => h._Type) =
      (e.heap[q]?).map (fun h => h._Type) := by
  unfold HandleProxy.GetManagedObjectID
  cases hp : e.heap[p]? with
  | none => simp [hp]
  | some h =>
    simp only [hp]
    split_ifs
    · rfl
    · rfl
    · exact SetManagedObjectID_type e p _ q

theorem SetHandle_type (e : V8EngineProxy) (p : Nat) (handle : Option Value) (h : HandleProxy)
    (hp : e.heap[p]? = some h) :
    HandleProxy.tagAfterSetHandle e p handle = some (HandleProxy.classify handle).1 := by
  have hlt := getElem?_lt hp
  unfold HandleProxy.tagAfterSetHandle HandleProxy.SetHandle
  simp only [update_eq_set e p _ h hp]
  split_ifs
  · rw [GetManagedObjectID_type]
    simp [List.getElem?_set, hlt]
  · simp [List.getElem?_set, hlt]

theorem classify_first_match (v : Value) :
    (HandleProxy.classify (some v)).1 =
      ((HandleProxy.checks.find? (fun c => c.1 v)).map Prod.snd).getD .JSV_Undefined := by
  unfold HandleProxy.classify HandleProxy.checks
  simp only [List.find?]
  cases v.IsBoolean <;> simp
  cases v.IsBooleanObject <;> simp
  cases v.IsInt32 <;> simp
  cases v.IsNumber <;> simp
  cases v.IsNumberObject <;> simp
  cases v.IsString <;> simp
  cases v.IsStringObject <;> simp
  cases v.IsDate <;> simp
  cases v.IsArray <;> simp
  cases v.IsRegExp <;> simp
  cases v.IsNull <;> simp
  cases v.IsFunction <;> simp
  cases v.IsExternal <;> simp
  cases v.IsNativeError <;> simp
  cases v.IsUndefined <;> simp
  cases v.IsObject <;> simp
  cases v.IsFalse <;> simp
  cases v.IsTrue <;> simp

theorem count_le_one_six (a b c d e f : Bool) (h : List.count true [a, b, c, d, e, f] ≤ 1) :
    (a = true → b = false ∧ c = false ∧ d = false ∧ e = false ∧ f = false) ∧
    (b = true → a = false ∧ c = false ∧ d = false ∧ e = false ∧ f = false) ∧
    (c = true → a = false ∧ b = false ∧ d = false ∧ e = false ∧ f = false) ∧
    (d = true → a = false ∧ b = false ∧ c = false ∧ e = false ∧ f = false) ∧
    (e = true → a = false ∧ b = false ∧ c = false ∧ d = false ∧ f = false) ∧
    (f = true → a = false ∧ b = false ∧ c = false ∧ d = false ∧ e = false) := by
  revert h
  cases a <;> cases b <;> cases c <;> cases d <;> cases e <;> cases f <;> simp

theorem count_le_one_seven (a b c d e f k : Bool)
    (h : List.count true [a, b, c, d, e, f, k] ≤ 1) :
    (a = true → b = false ∧ c = false ∧ d = false ∧ e = false ∧ f = false ∧ k = false) ∧
    (b = true → a = false ∧ c = false ∧ d = false ∧ e = false ∧ f = false ∧ k = false) ∧
    (c = true → a = false ∧ b = false ∧ d = false ∧ e = false ∧ f = false ∧ k = false) ∧
    (d = true → a = false ∧ b = false ∧ c = false ∧ e = false ∧ f = false ∧ k = false) ∧
    (e = true → a = false ∧ b = false ∧ c = false ∧ d = false ∧ f = false ∧ k = false) ∧
    (f = true → a = false ∧ b = false ∧ c = false ∧ d = false ∧ e = false ∧ k = false) ∧
    (k = true → a = false ∧ b = false ∧ c = false ∧ d = false ∧ e = false ∧ f = false) := by
  revert h
  cases a <;> cases b <;> cases c <;> cases d <;> cases e <;> cases f <;> cases k <;> simp

/-- An object is no primitive: the checks ahead of the object classes fail on it. -/
theorem Coherent.object_checks (v : Value) (hv : v.Coherent) (ho : v.IsObject = true) :
    v.IsBoolean = false ∧ v.IsInt32 = false ∧ v.IsNumber = false ∧ v.IsString = false ∧
      v.IsNull = false ∧ v.IsUndefined = false := by
  obtain ⟨hin, _, _, _, h6, _⟩ := hv
  have k := (count_le_one_six _ _ _ _ _ _ h6).1 ho
  refine ⟨k.1, ?_, k.2.1, k.2.2.1, k.2.2.2.1, k.2.2.2.2⟩
  cases hi : v.IsInt32 with
  | false => rfl
  | true => have := hin hi; rw [k.2.1] at this; exact absurd this (by decide)

theorem classify_of_coherent (v : Value) (hv : v.Coherent) :
    (v.IsBooleanObject = true → (HandleProxy.classify (some v)).1 = .JSV_BoolObject) ∧
    (v.IsNumberObject = true → (HandleProxy.classify (some v)).1 = .JSV_NumberObject) ∧
    (v.IsStringObject = true → (HandleProxy.classify (some v)).1 = .JSV_StringObject) ∧
    (v.IsFunction = true → (HandleProxy.classify (some v)).1 = .JSV_Function) ∧
    (v.IsArray = true → (HandleProxy.classify (some v)).1 = .JSV_Array) ∧
    (v.IsDate = true → (HandleProxy.classify (some v)).1 = .JSV_Date) ∧
    (v.IsRegExp = true → (HandleProxy.classify (some v)).1 = .JSV_RegExp) ∧
    (v.IsInt32 = true → v.IsNumber = true → (HandleProxy.classify (some v)).1 = .JSV_Int32) ∧
    (v.IsUndefined = true → (HandleProxy.classify (some v)).1 = .JSV_Undefined) := by
  have hv0 := hv
  obtain ⟨hin, htb, hfb, hco, h6, h7⟩ := hv
  have k6 := count_le_one_six _ _ _ _ _ _ h6
  have k7 := count_le_one_seven _ _ _ _ _ _ _ h7
  refine ⟨?_, ?_, ?_, ?_, ?_, ?_, ?_, ?_, ?_⟩
  · intro hb
    have a := Coherent.object_checks v hv0 (hco (by simp [hb]))
    simp [HandleProxy.classify, hb, a.1]
  · intro hb
    have a := Coherent.object_checks v hv0 (hco (by simp [hb]))
    have b := k7.2.1 hb
    simp [HandleProxy.classify, hb, a.1, a.2.1, a.2.2.1, b.1]
  · intro hb
    have a := Coherent.object_checks v hv0 (hco (by simp [hb]))
    have b := k7.2.2.1 hb
    simp [HandleProxy.classify, hb, a.1, a.2.1, a.2.2.1, a.2.2.2.1, b.1, b.2.1]
  · intro hb
    have a := Coherent.object_checks v hv0 (hco (by simp [hb]))
    have b := k7.2.2.2.2.2.2 hb
    simp [HandleProxy.classify, hb, a.1, a.2.1, a.2.2.1, a.2.2.2.1, a.2.2.2.2.1, b.1, b.2.1,
      b.2.2.1, b.2.2.2.1, b.2.2.2.2.1, b.2.2.2.2.2]
  · intro hb
    have a := Coherent.object_checks v hv0 (hco (by simp [hb]))
    have b := k7.2.2.2.2.1 hb
    simp [HandleProxy.classify, hb, a.1, a.2.1, a.2.2.1, a.2.2.2.1, b.1, b.2.1, b.2.2.1,
      b.2.2.2.1]
  · intro hb
    have a := Coherent.object_checks v hv0 (hco (by simp [hb]))
    have b := k7.2.2.2.1 hb
    simp [HandleProxy.classify, hb, a.1, a.2.1, a.2.2.1, a.2.2.2.1, b.1, b.2.1, b.2.2.1]
  · intro hb
    have a := Coherent.object_checks v hv0 (hco (by simp [hb]))
    have b := k7.2.2.2.2.2.1 hb
    simp [HandleProxy.classify, hb, a.1, a.2.1, a.2.2.1, a.2.2.2.1, b.1, b.2.1, b.2.2.1,
      b.2.2.2.1, b.2.2.2.2.1]
  · intro hi hn
    have c := k6.2.2.1 hn
    have hbo : v.IsBooleanObject = false := by
      cases hh : v.IsBooleanObject with
      | false => rfl
      | true => have := hco (by simp [hh]); rw [c.1] at this; exact absurd this (by decide)
    simp [HandleProxy.classify, hi, c.2.1, hbo]
  · intro hu
    have c := k6.2.2.2.2.2 hu
    have hcls : (v.IsBooleanObject || v.IsNumberObject || v.IsStringObject || v.IsDate
        || v.IsArray || v.IsRegExp || v.IsFunction || v.IsNativeError) = false := by
      cases hh : (v.IsBooleanObject || v.IsNumberObject || v.IsStringObject || v.IsDate
        || v.IsArray || v.IsRegExp || v.IsFunction || v.IsNativeError) with
      | false => rfl
      | true => have := hco hh; rw [c.1] at this; exact absurd this (by decide)
    simp only [Bool.or_eq_false_iff] at hcls
    have hi : v.IsInt32 = false := by
      cases hh : v.IsInt32 with
      | false => rfl
      | true => have := hin hh; rw [c.2.2.1] at this; exact absurd this (by decide)
    simp [HandleProxy.classify, hu, c, hcls, hi]

theorem classify_no_error_tag (handle : Option Value) :
    (HandleProxy.classify handle).1 ∉
      [JSValueType.JSV_ExecutionTerminated, .JSV_ExecutionError, .JSV_CompilerError,
        .JSV_InternalError, .JSV_Uninitialized, .JSV_Script] := by
  cases handle with
  | none => decide
  | some v =>
    rw [classify_first_match v]
    cases hf : HandleProxy.checks.find? (fun c => c.1 v) with
    | none => decide
    | some c =>
      have hm : c ∈ HandleProxy.checks := List.mem_of_find?_eq_some hf
      have hall : ∀ c ∈ HandleProxy.checks, c.2 ∉
          [JSValueType.JSV_ExecutionTerminated, .JSV_ExecutionError, .JSV_CompilerError,
            .JSV_InternalError, .JSV_Uninitialized, .JSV_Script] := by
        simp [HandleProxy.checks]
      exact hall c hm

theorem classify_of_unrecognized (v : Value) (hv : v.Coherent)
    (h1 : v.IsBoolean = false) (h2 : v.IsBooleanObject = false) (h3 : v.IsInt32 = false)
    (h4 : v.IsNumber = false) (h5 : v.IsNumberObject = false) (h6 : v.IsString = false)
    (h7 : v.IsStringObject = false) (h8 : v.IsDate = false) (h9 : v.IsArray = false)
    (h10 : v.IsRegExp = false) (h11 : v.IsNull = false) (h12 : v.IsFunction = false)
    (h13 : v.IsObject = false) :
    (HandleProxy.classify (some v)).1 = .JSV_Undefined := by
  obtain ⟨_, htb, hfb, _, _, _⟩ := hv
  have ht : v.IsTrue = false := by
    cases hh : v.IsTrue with
    | false => rfl
    | true => have := htb hh; rw [h1] at this; exact absurd this (by decide)
  have hf : v.IsFalse = false := by
    cases hh : v.IsFalse with
    | false => rfl
    | true => have := hfb hh; rw [h1] at this; exact absurd this (by decide)
  unfold HandleProxy.classify
  simp only [h1, h2, h3, h4, h5, h6, h7, h8, h9, h10, h11, h12, h13, ht, hf,
    Bool.false_eq_true, if_false]
  split_ifs <;> rfl

theorem SetManagedObjectID_heap_length (e : V8EngineProxy) (p : Nat) (id : Int) :
    (HandleProxy.SetManagedObjectID e p id).1.heap.length = e.heap.length := by
  unfold HandleProxy.SetManagedObjectID
  cases hp : e.heap[p]? with
  | none => simp [hp]
  | some h =>
    cases hx : h._EngineProxy with
    | none => simp [hp, hx]
    | some x =>
      simp only [hp, hx]
      split_ifs <;> simp [V8EngineProxy.GetNextNonTemplateObjectID]

theorem GetManagedObjectID_heap_length (e : V8EngineProxy) (p : Nat) :
    (HandleProxy.GetManagedObjectID e p).1.heap.length = e.heap.length := by
  unfold HandleProxy.GetManagedObjectID
  cases hp : e.heap[p]? with
  | none => simp [hp]
  | some h =>
    simp only [hp]
    split_ifs
    · rfl
    · rfl
    · exact SetManagedObjectID_heap_length e p _

theorem SetHandle_heap_length (e : V8EngineProxy) (p : Nat) (v : Option Value) :
    (HandleProxy.SetHandle e p v).heap.length = e.heap.length := by
  unfold HandleProxy.SetHandle
  simp only []
  split_ifs
  · rw [GetManagedObjectID_heap_length, V8EngineProxy.update_heap_length]
  · rw [V8EngineProxy.update_heap_length]

/-- The function `GetHandleProxy` allocates at most one proxy. -/
theorem GetHandleProxy_heap_length {g : Statics} {e : V8EngineProxy} (hI : Inv g e)
    (v : Option Value) (gc : List Nat) :
    (e.GetHandleProxy g v gc).1.heap.length = e.heap.length ∨
      (e.GetHandleProxy g v gc).1.heap.length = e.heap.length + 1 := by
  cases hl : e.lookup v with
  | some p =>
    rw [GetHandleProxy_found g e v gc p hl]
    exact Or.inl rfl
  | none =>
    rw [GetHandleProxy_not_found g e v gc hl]
    have hD := drains_drained hI gc
    cases hlast : (e.drained g gc)._DisposedHandles.getLast? with
    | some id0 =>
      obtain ⟨h, hp, hd, h0, heq⟩ := acquire_recycle g _ v hD.inv id0 hlast
      rw [heq]
      left
      rw [SetHandle_heap_length]
      simp [V8EngineProxy.recycled, hD.heapLen]
    | none =>
      have hnil : (e.drained g gc)._DisposedHandles = [] := List.getLast?_eq_none_iff.mp hlast
      rw [acquire_new g _ v hnil]
      right
      have hfree : 0 ≤ HandleProxy.GetManagedObjectIDStatic v →
          (e.drained g gc)._Objects.getD (HandleProxy.GetManagedObjectIDStatic v).toNat none
            = none := fun h0 => hD.objsFree _ (lookup_none_free hl h0)
      have hS := hD.inv.allocated.setHandle (e.drained g gc).heap.length _
        (allocated_getElem?_self _) (ctor_isDisposed _ _) rfl v hfree
      rw [(drains_processHandleQueues hS 10).heapLen, SetHandle_heap_length]
      simp [V8EngineProxy.allocated, hD.heapLen]

/-- A freshly constructed engine hands out slot 0, whatever the table of disposed
engines says. -/
theorem GetHandleProxy_of_init (g : Statics) (engineID : Int) (v : Option Value)
    (gc : List Nat) :
    ((V8EngineProxy.init engineID).GetHandleProxy g v gc).2 = .ok 0 := by
  have hl : (V8EngineProxy.init engineID).lookup v = none :=
    lookup_of_no_objects v (by simp [V8EngineProxy.init])
  rw [GetHandleProxy_not_found g _ v gc hl]
  have hd : (V8EngineProxy.init engineID).drained g gc = V8EngineProxy.init engineID := by
    have hq : (V8EngineProxy.init engineID).ProcessHandleQueues g 2
        = V8EngineProxy.init engineID :=
      processLoop_of_empty g _ _ _ rfl rfl rfl
    unfold V8EngineProxy.drained
    rw [hq, idle_of_empty_heap g gc (V8EngineProxy.init engineID) rfl]
    simp
  rw [hd, acquire_new g _ v rfl]
  rfl

theorem mem_constructed {s : Process} (hI : s.Inv) {id : Int} (h : id ∈ s.constructed) :
    0 ≤ id ∧ id.toNat < s.constructed.length := by
  obtain ⟨k, hk⟩ := List.getElem?_of_mem h
  have hlt := getElem?_lt hk
  have := hI.ids k id hk
  subst this
  exact ⟨Int.ofNat_nonneg k, by simpa using hlt⟩

theorem getD_replicate_false (n i : Nat) : (List.replicate n false).getD i false = false := by
  rw [List.getD_eq_getElem?_getD, List.getElem?_replicate]
  split <;> rfl

theorem Process.Inv.atStart : Process.initial.Inv := by
  refine ⟨rfl, ?_, Or.inl rfl, ?_, ?_, ?_, ?_, List.nodup_nil⟩
  · intro k id h; simp [Process.initial] at h
  · intro i h
    have : (List.replicate 100 false).getD i false = true := h
    rw [getD_replicate_false] at this
    exact absurd this (by decide)
  · intro id h; simp [Process.initial] at h
  · intro id h; simp [Process.initial] at h
  · intro id h; simp [Process.initial] at h

theorem ctor_engineID (g : Statics) (capacity : Nat) :
    (V8EngineProxy.ctor g capacity).2._EngineID = g._NextEngineID := rfl

theorem ctor_nextEngineID (g : Statics) (capacity : Nat) :
    (V8EngineProxy.ctor g capacity).1._NextEngineID = g._NextEngineID + 1 := rfl

/-- The table after a construction: the old entries (none on first use) followed by
entries that are `false`. -/
theorem ctor_table (g : Statics) (capacity : Nat)
    (hcap : g._DisposedEngines.length ≤ capacity) :
    ∃ m : Nat, (V8EngineProxy.ctor g capacity).1._DisposedEngines =
      (if g._NextEngineID = 0 then [] else g._DisposedEngines) ++ List.replicate (m + 1) false := by
  unfold V8EngineProxy.ctor
  simp only []
  by_cases h0 : g._NextEngineID = 0
  · exact ⟨0, by simp [h0]⟩
  · simp only [h0, if_false]
    split_ifs
    · refine ⟨capacity + 32 - g._DisposedEngines.length, ?_⟩
      unfold Statics.resize
      rw [List.take_of_length_le (by omega), List.append_assoc, List.replicate_succ']
    · exact ⟨0, by simp⟩

theorem dtor_statics (g : Statics) (e : V8EngineProxy) (h0 : 0 ≤ e._EngineID) :
    (V8EngineProxy.dtor g e).1 =
      { g with _DisposedEngines := g._DisposedEngines.set e._EngineID.toNat true } := by
  unfold V8EngineProxy.dtor
  simp [h0]

theorem getD_append_replicate_false (l : List Bool) (m i : Nat) :
    (l ++ List.replicate m false).getD i false = l.getD i false := by
  rw [List.getD_eq_getElem?_getD, List.getD_eq_getElem?_getD]
  by_cases h : i < l.length
  · rw [List.getElem?_append_left h]
  · rw [List.getElem?_append_right (by omega), List.getElem?_eq_none (l := l) (by omega),
      List.getElem?_replicate]
    split <;> rfl

theorem getD_set_true (l : List Bool) (j i : Nat) :
    (l.set j true).getD i false = (decide (i = j ∧ j < l.length) || l.getD i false) := by
  rw [List.getD_eq_getElem?_getD, List.getD_eq_getElem?_getD, List.getElem?_set]
  by_cases hij : j = i
  · subst hij
    by_cases hlt : j < l.length
    · simp [hlt]
    · have hn : l[j]? = none := List.getElem?_eq_none (by omega)
      simp [hlt, hn]
  · have : ¬ i = j := fun h => hij h.symm
    simp [hij, this]

theorem Process.Inv.construct {s : Process} (hI : s.Inv) (capacity : Nat)
    (hcap : s.statics._DisposedEngines.length ≤ capacity) : (s.construct capacity).Inv := by
  obtain ⟨m, ht⟩ := ctor_table s.statics capacity hcap
  have hid : (V8EngineProxy.ctor s.statics capacity).2._EngineID = (s.constructed.length : Int) := by
    rw [ctor_engineID, hI.next]
  have hold : ∀ id ∈ s.constructed, id ≠ (s.constructed.length : Int) := by
    intro id h hc
    have := (mem_constructed hI h).2
    rw [hc] at this
    simp at this
  have hne : ∀ id ∈ s.constructed, ¬ s.statics._NextEngineID = 0 := by
    intro id h hc
    rw [hI.next] at hc
    have := (mem_constructed hI h).2
    omega
  unfold Process.construct
  rw [hid]
  constructor
  · show (V8EngineProxy.ctor s.statics capacity).1._NextEngineID = _
    rw [ctor_nextEngineID, hI.next]; simp
  · intro k id hk
    show id = (k : Int)
    have hk' : (s.constructed ++ [(s.constructed.length : Int)])[k]? = some id := hk
    by_cases hlt : k < s.constructed.length
    · rw [List.getElem?_append_left hlt] at hk'
      exact hI.ids k id hk'
    · rw [List.getElem?_append_right (by omega)] at hk'
      have hk0 : k - s.constructed.length = 0 := by
        by_contra hc
        rw [List.getElem?_eq_none (by simp; omega)] at hk'
        cases hk'
      rw [hk0] at hk'
      simp at hk'
      omega
  · right
    show (s.constructed ++ [(s.constructed.length : Int)]).length
      ≤ (V8EngineProxy.ctor s.statics capacity).1._DisposedEngines.length
    rw [ht]
    simp only [List.length_append, List.length_replicate, List.length_singleton]
    rcases hI.bound with h0 | hb
    · omega
    · by_cases hn : s.statics._NextEngineID = 0
      · rw [hI.next] at hn
        omega
      · simp only [hn, if_false]; omega
  · intro i hi
    have hi' : (V8EngineProxy.ctor s.statics capacity).1._DisposedEngines.getD i false = true := hi
    rw [ht, getD_append_replicate_false] at hi'
    by_cases hn : s.statics._NextEngineID = 0
    · simp [hn] at hi'
    · simp only [hn, if_false] at hi'
      exact hI.flagged i hi'
  · intro id hd
    have hd' : id ∈ s.destroyed := hd
    obtain ⟨hc, hf⟩ := hI.destroyed id hd'
    refine ⟨List.mem_append_left _ hc, ?_⟩
    show (V8EngineProxy.ctor s.statics capacity).1._DisposedEngines.getD id.toNat false = true
    rw [ht, getD_append_replicate_false]
    simp only [hne id hc, if_false]
    exact hf
  · intro id ha
    have ha' : id ∈ s.alive ++ [(s.constructed.length : Int)] := ha
    rcases List.mem_append.mp ha' with h | h
    · exact ⟨List.mem_append_left _ (hI.alive id h).1, (hI.alive id h).2⟩
    · have : id = (s.constructed.length : Int) := by simpa using h
      subst this
      refine ⟨List.mem_append_right _ (by simp), ?_⟩
      intro hd
      exact hold _ (hI.destroyed _ hd).1 rfl
  · intro id hc
    have hc' : id ∈ s.constructed ++ [(s.constructed.length : Int)] := hc
    rcases List.mem_append.mp hc' with h | h
    · rcases hI.accounted id h with h1 | h1
      · exact Or.inl (List.mem_append_left _ h1)
      · exact Or.inr h1
    · exact Or.inl (List.mem_append_right _ h)
  · show (s.alive ++ [(s.constructed.length : Int)]).Nodup
    rw [List.nodup_append]
    refine ⟨hI.nodup, List.nodup_singleton _, ?_⟩
    intro a ha hb
    have : a = (s.constructed.length : Int) := by simpa using hb
    exact hold a (hI.alive a ha).1 this

theorem Process.Inv.destroy {s : Process} (hI : s.Inv) (e : V8EngineProxy)
    (halive : e._EngineID ∈ s.alive) : (s.destroy e).Inv := by
  have hc := (hI.alive _ halive).1
  obtain ⟨h0, hlt⟩ := mem_constructed hI hc
  have hb : e._EngineID.toNat < s.statics._DisposedEngines.length := by
    rcases hI.bound with hz | hb
    · omega
    · omega
  unfold Process.destroy
  rw [dtor_statics s.statics e h0]
  constructor
  · exact hI.next
  · exact hI.ids
  · rcases hI.bound with hz | hb'
    · exact Or.inl hz
    · right
      show s.constructed.length ≤ (s.statics._DisposedEngines.set e._EngineID.toNat true).length
      simpa using hb'
  · intro i hi
    have hi' : (s.statics._DisposedEngines.set e._EngineID.toNat true).getD i false = true := hi
    rw [getD_set_true] at hi'
    simp only [Bool.or_eq_true, decide_eq_true_eq] at hi'
    rcases hi' with ⟨h1, _⟩ | h1
    · subst h1
      have : ((e._EngineID.toNat : Nat) : Int) = e._EngineID := Int.toNat_of_nonneg h0
      rw [this]
      exact List.mem_cons_self _ _
    · exact List.mem_cons_of_mem _ (hI.flagged i h1)
  · intro id hd
    have hd' : id ∈ e._EngineID :: s.destroyed := hd
    show id ∈ s.constructed ∧
      (s.statics._DisposedEngines.set e._EngineID.toNat true).getD id.toNat false = true
    rw [getD_set_true]
    rcases List.mem_cons.mp hd' with h | h
    · subst h
      exact ⟨hc, by simp [hb]⟩
    · obtain ⟨h1, h2⟩ := hI.destroyed id h
      exact ⟨h1, by rw [h2, Bool.or_true]⟩
  · intro id ha
    have ha' : id ∈ s.alive.erase e._EngineID := ha
    have hmem := (hI.nodup.mem_erase_iff).mp ha'
    refine ⟨(hI.alive id hmem.2).1, ?_⟩
    intro hd
    have hd' : id ∈ e._EngineID :: s.destroyed := hd
    rcases List.mem_cons.mp hd' with h | h
    · exact hmem.1 h
    · exact (hI.alive id hmem.2).2 h
  · intro id hcn
    show id ∈ s.alive.erase e._EngineID ∨ id ∈ e._EngineID :: s.destroyed
    by_cases hid : id = e._EngineID
    · exact Or.inr (hid ▸ List.mem_cons_self _ _)
    · rcases hI.accounted id hcn with h1 | h1
      · exact Or.inl ((List.mem_erase_of_ne hid).mpr h1)
      · exact Or.inr (List.mem_cons_of_mem _ h1)
  · exact hI.nodup.erase _

theorem Process.Reachable.bookkeeping {s : Process} (hR : s.Reachable) : s.Inv := by
  induction hR with
  | initial => exact Process.Inv.atStart
  | construct capacity hcap _ ih => exact ih.construct capacity hcap
  | destroy e halive _ ih => exact ih.destroy e halive

theorem SetManagedObjectID_eq (e : V8EngineProxy) (p : Nat) (id : Int) (h : HandleProxy)
    (x : Int) (hp : e.heap[p]? = some h) (hx : h._EngineProxy = some x) :
    HandleProxy.SetManagedObjectID e p id =
      ({ e with
          _Objects := registerObject (unregisterObject e._Objects h._ObjectID) p id,
          heap := e.heap.set p
            { h with _ObjectID := if id = -1 then e._NextNonTemplateObjectID else id },
          _NextNonTemplateObjectID :=
            if id = -1 then e._NextNonTemplateObjectID - 1 else e._NextNonTemplateObjectID },
        if id = -1 then e._NextNonTemplateObjectID else id) := by
  unfold HandleProxy.SetManagedObjectID
  simp only [hp, hx]
  by_cases h0 : 0 ≤ id
  · have hne : ¬ id = -1 := by omega
    simp [h0, hne, registerObject, unregisterObject, hx]
  · by_cases h1 : id = -1
    · simp [h0, h1, registerObject, unregisterObject, V8EngineProxy.GetNextNonTemplateObjectID,
        hx]
    · simp [h0, h1, registerObject, unregisterObject, hx]

theorem SetManagedObjectID_of_detached (e : V8EngineProxy) (p : Nat) (id : Int)
    (h : HandleProxy) (hp : e.heap[p]? = some h) (hx : h._EngineProxy = none) :
    HandleProxy.SetManagedObjectID e p id = (e, id) := by
  unfold HandleProxy.SetManagedObjectID
  simp only [hp, hx]

theorem SetManagedObjectID_of_invalid (e : V8EngineProxy) (p : Nat) (id : Int)
    (hp : e.heap[p]? = none) :
    HandleProxy.SetManagedObjectID e p id = (e, id) := by
  unfold HandleProxy.SetManagedObjectID
  simp only [hp]

theorem detached_of_core {h h' : HandleProxy} (hc : h'.core = h.core) (hd : h.Detached) :
    h'.Detached := by
  simp only [HandleProxy.core, Prod.mk.injEq] at hc
  intro hx
  rw [hc.2.2.2.1, hc.2.2.2.2.1]
  exact hd (by rw [← hc.2.2.2.2.2]; exact hx)

theorem detached_of_heap {e e' : V8EngineProxy} (hh : e'.heap = e.heap) (hd : e.Detached) :
    e'.Detached := by
  intro p h hp
  rw [hh] at hp
  exact hd p h hp

theorem detached_set {e e' : V8EngineProxy} (p : Nat) (x : HandleProxy)
    (hh : e'.heap = e.heap.set p x) (hx : x.Detached) (hd : e.Detached) : e'.Detached := by
  intro q h hq
  rw [hh, List.getElem?_set] at hq
  split at hq
  · split at hq
    · cases hq; exact hx
    · cases hq
  · exact hd q h hq

theorem detached_update (e : V8EngineProxy) (p : Nat) (f : HandleProxy → HandleProxy)
    (hf : ∀ h, h.Detached → (f h).Detached) (hd : e.Detached) : (e.update p f).Detached := by
  unfold V8EngineProxy.update
  split
  · rename_i h hh
    exact detached_set p (f h) rfl (hf h (hd p h hh)) hd
  · exact hd

theorem detached_update_core (e : V8EngineProxy) (p : Nat) (f : HandleProxy → HandleProxy)
    (hf : ∀ h, (f h).core = h.core) (hd : e.Detached) : (e.update p f).Detached :=
  detached_update e p f (fun h hh => detached_of_core (hf h) hh) hd

theorem detached_clearedState (h : HandleProxy) : h.clearedState.Detached :=
  fun _ => ⟨rfl, rfl⟩

theorem detached_dispose {g : Statics} {e : V8EngineProxy} (hI : Inv g e) (p : Nat)
    (hd : e.Detached) : (HandleProxy.Dispose g e p).1.Detached := by
  cases hp : e.heap[p]? with
  | none =>
    have : HandleProxy.Dispose g e p = (e, true) := Dispose_of_invalid g e p hp true
    rw [this]; exact hd
  | some h =>
  cases hdis : h.IsDisposed with
  | true =>
    have : HandleProxy.Dispose g e p = (e, true) := Dispose_of_disposed g e p h hp hdis true
    rw [this]; exact hd
  | false =>
  have hown := hI.owner p h hp hdis
  have hl : V8EngineProxy.IsDisposed g h._EngineID = false := by rw [hown.1]; exact hI.live
  have hr := ready_of_lt h (hI.ready p h hp)
  rw [Dispose_eq g e p h hp hdis hl hr, DisposeHandleProxy_eq g e p h hp hdis hl hr]
  exact detached_set p h.clearedState rfl (detached_clearedState h) hd

theorem detached_processPendingDisposal {g : Statics} {e : V8EngineProxy} (hI : Inv g e)
    (hd : e.Detached) : (e.processPendingDisposal g).Detached := by
  unfold V8EngineProxy.processPendingDisposal
  split
  · split
    · rename_i h hh
      have h1 := drains_setPending hI e._HandlesPendingDisposal.dropLast
        (fun q hq => hI.pendingValid q (mem_of_mem_dropLast hq))
      have h2 := drains_update_core h1.inv h
        (fun h0 => { h0 with _Disposed := clearBits h0._Disposed 16 }) core_clear16
      exact detached_dispose h2.inv h
        (detached_update_core _ h _ core_clear16 (detached_of_heap rfl hd))
    · exact hd
  · exact hd

theorem detached_makeWeak (e : V8EngineProxy) (p : Nat) (hd : e.Detached) :
    (HandleProxy.MakeWeak e p).Detached :=
  detached_update_core e p _ (core_setWeak true) hd

theorem detached_makeStrong (e : V8EngineProxy) (p : Nat) (hd : e.Detached) :
    (HandleProxy.MakeStrong e p).Detached :=
  detached_update_core e p _ (core_setWeak false) hd

theorem detached_processMakeWeak (e : V8EngineProxy) (hd : e.Detached) :
    e.processMakeWeak.1.Detached := by
  unfold V8EngineProxy.processMakeWeak
  split
  · rename_i h hh
    exact detached_makeWeak _ h
      (detached_update_core _ h _ core_clear4_16 (detached_of_heap rfl hd))
  · exact hd

theorem detached_processMakeStrong (e : V8EngineProxy) (hd : e.Detached) :
    e.processMakeStrong.1.Detached := by
  unfold V8EngineProxy.processMakeStrong
  split
  · rename_i h hh
    exact detached_makeStrong _ h
      (detached_update_core _ h _ core_clear8 (detached_of_heap rfl hd))
  · exact hd

theorem detached_processStep {g : Statics} {e : V8EngineProxy} (hI : Inv g e)
    (hd : e.Detached) : (e.processStep g).1.Detached := by
  unfold V8EngineProxy.processStep
  exact detached_processMakeStrong _
    (detached_processMakeWeak _ (detached_processPendingDisposal hI hd))

theorem detached_processLoop {g : Statics} (n : Nat) :
    ∀ (d : Bool) (e : V8EngineProxy), Inv g e → e.Detached →
      (V8EngineProxy.processLoop g n d e).Detached := by
  induction n with
  | zero => intro d e _ hd; exact hd
  | succ n ih =>
    intro d e hI hd
    unfold V8EngineProxy.processLoop
    split
    · exact ih _ _ (drains_processStep hI).inv (detached_processStep hI hd)
    · exact hd

theorem detached_processHandleQueues {g : Statics} {e : V8EngineProxy} (hI : Inv g e)
    (loops : Int) (hd : e.Detached) : (e.ProcessHandleQueues g loops).Detached :=
  detached_processLoop _ _ _ hI hd

theorem detached_revivableCallback {g : Statics} {e : V8EngineProxy} (hI : Inv g e)
    (p : Nat) (hd : e.Detached) : (HandleProxy._RevivableCallback g e p).Detached := by
  unfold HandleProxy._RevivableCallback
  split
  · exact hd
  · have h1 := drains_setScope hI
    simp only []
    split
    · have h2 := drains_update_core h1.inv p HandleProxy._ClearHandleValue
        core_clearHandleValue
      exact detached_dispose h2.inv p
        (detached_update_core _ p _ core_clearHandleValue (detached_of_heap rfl hd))
    · exact detached_makeStrong _ p (detached_of_heap rfl hd)

theorem detached_idleNotificationDeadline {g : Statics} (gc : List Nat) :
    ∀ e : V8EngineProxy, Inv g e → e.Detached →
      (e.IdleNotificationDeadline g gc).Detached := by
  induction gc with
  | nil => intro e _ hd; exact hd
  | cons p gc ih =>
    intro e hI hd
    unfold V8EngineProxy.IdleNotificationDeadline
    simp only [List.foldl_cons]
    have hstep : Drains g e
        (match e.heap[p]? with
          | some h => if h.IsWeak then HandleProxy._RevivableCallback g e p else e
          | none => e) ∧
        (match e.heap[p]? with
          | some h => if h.IsWeak then HandleProxy._RevivableCallback g e p else e
          | none => e).Detached := by
      split
      · split
        · exact ⟨drains_revivableCallback hI p, detached_revivableCallback hI p hd⟩
        · exact ⟨Drains.same hI, hd⟩
      · exact ⟨Drains.same hI, hd⟩
    exact ih _ hstep.1.inv hstep.2

theorem detached_drained {g : Statics} {e : V8EngineProxy} (hI : Inv g e) (gc : List Nat)
    (hd : e.Detached) : (e.drained g gc).Detached := by
  unfold V8EngineProxy.drained
  have h1 := drains_processHandleQueues hI 2
  have d1 := detached_processHandleQueues hI 2 hd
  split
  · exact detached_idleNotificationDeadline gc _ h1.inv d1
  · exact d1

theorem detached_setManagedObjectID (e : V8EngineProxy) (p : Nat) (id : Int)
    (hd : e.Detached) : (HandleProxy.SetManagedObjectID e p id).1.Detached := by
  cases hp : e.heap[p]? with
  | none => rw [SetManagedObjectID_of_invalid e p id hp]; exact hd
  | some h =>
    cases hx : h._EngineProxy with
    | none => rw [SetManagedObjectID_of_detached e p id h hp hx]; exact hd
    | some x =>
      rw [SetManagedObjectID_eq e p id h x hp hx]
      exact detached_set p _ rfl (hd p h hp) hd

theorem detached_getManagedObjectID (e : V8EngineProxy) (p : Nat) (hd : e.Detached) :
    (HandleProxy.GetManagedObjectID e p).1.Detached := by
  unfold HandleProxy.GetManagedObjectID
  cases hp : e.heap[p]? with
  | none => simpa [hp] using hd
  | some h =>
    simp only [hp]
    split_ifs
    · exact hd
    · exact hd
    · exact detached_setManagedObjectID e p _ hd

theorem detached_setHandle (e : V8EngineProxy) (p : Nat) (v : Option Value)
    (hd : e.Detached) : (HandleProxy.SetHandle e p v).Detached := by
  unfold HandleProxy.SetHandle
  have h1 : (e.update p (fun h =>
      { HandleProxy._ClearHandleValue h with
        _Handle := v.map (fun v => { value := v, weak := false }),
        _Type := (HandleProxy.classify v).1 })).Detached :=
    detached_update_core e p _ (fun h => rfl) hd
  simp only []
  split_ifs
  · exact detached_getManagedObjectID _ p h1
  · exact h1

theorem detached_acquire {g : Statics} {e : V8EngineProxy} (hI : Inv g e) (v : Option Value)
    (hfree : 0 ≤ HandleProxy.GetManagedObjectIDStatic v →
      e._Objects.getD (HandleProxy.GetManagedObjectIDStatic v).toNat none = none)
    (hd : e.Detached) : (V8EngineProxy.acquire g e v).1.Detached := by
  cases hlast : e._DisposedHandles.getLast? with
  | some id0 =>
    obtain ⟨h, hp, hdis, h0, heq⟩ := acquire_recycle g e v hI id0 hlast
    rw [heq]
    apply detached_setHandle
    refine detached_set id0.toNat (h.reactivated e._EngineID) rfl ?_ hd
    intro hx
    rw [reactivated_isDisposed] at hx
    cases hx
  | none =>
    have hnil : e._DisposedHandles = [] := List.getLast?_eq_none_iff.mp hlast
    rw [acquire_new g e v hnil]
    have hS := hI.allocated.setHandle e.heap.length _ (allocated_getElem?_self e)
      (ctor_isDisposed _ _) rfl v hfree
    apply detached_processHandleQueues hS
    apply detached_setHandle
    intro q x hq
    have hq' : (e.heap ++ [HandleProxy.ctor e._EngineID e._Handles.length])[q]? = some x := hq
    rw [append_getElem?] at hq'
    split at hq'
    · cases hq'
      intro hx
      rw [ctor_isDisposed] at hx
      cases hx
    · exact hd q x hq'

theorem detached_getHandleProxy {g : Statics} {e : V8EngineProxy} (hI : Inv g e)
    (v : Option Value) (gc : List Nat) (hd : e.Detached) :
    (e.GetHandleProxy g v gc).1.Detached := by
  cases hl : e.lookup v with
  | some p =>
    rw [GetHandleProxy_found g e v gc p hl]
    exact hd
  | none =>
    rw [GetHandleProxy_not_found g e v gc hl]
    have hD := drains_drained hI gc
    exact detached_acquire hD.inv v (fun h0 => hD.objsFree _ (lookup_none_free hl h0))
      (detached_drained hI gc hd)

theorem unregisterObject_getElem?_some (objs : List (Option Nat)) (oid : Int) (i q : Nat)
    (h : (unregisterObject objs oid)[i]? = some (some q)) :
    objs[i]? = some (some q) ∧ (i : Int) ≠ oid := by
  unfold unregisterObject at h
  split at h
  · rename_i hc
    rw [List.getElem?_set] at h
    split at h
    · split at h <;> simp at h
    · rename_i hne
      refine ⟨h, ?_⟩
      intro hi
      apply hne
      omega
  · rename_i hc
    refine ⟨h, ?_⟩
    intro hi
    apply hc
    have := getElem?_lt h
    omega

theorem unregisterObject_getElem?_other (objs : List (Option Nat)) (oid : Int) (i : Nat)
    (hne : (i : Int) ≠ oid) : (unregisterObject objs oid)[i]? = objs[i]? := by
  unfold unregisterObject
  split
  · rw [List.getElem?_set]
    have : ¬ oid.toNat = i := by omega
    simp [this]
  · rfl

theorem Inv.setNext {g : Statics} {e : V8EngineProxy} (hI : Inv g e) (n : Int) (hn : n ≤ -2) :
    Inv g { e with _NextNonTemplateObjectID := n } :=
  ⟨hI.live, hn, hI.handles, hI.ids, hI.ready, hI.owner, hI.cleared, hI.freeNodup,
    hI.freeDisposed, hI.pendingValid, hI.weakValid, hI.strongValid, hI.objsSound,
    hI.objsComplete⟩

/-- Storing an identity id that no other live proxy holds keeps the invariant. -/
theorem Inv.setManagedObjectID {g : Statics} {e : V8EngineProxy} (hI : Inv g e) (p : Nat)
    (h : HandleProxy) (hp : e.heap[p]? = some h) (hd : h.IsDisposed = false) (id : Int)
    (hunused : 0 ≤ id → e.Unused p id) :
    Inv g (HandleProxy.SetManagedObjectID e p id).1 := by
  have hown := hI.owner p h hp hd
  have hlt := getElem?_lt hp
  rw [SetManagedObjectID_eq e p id h _ hp hown.2]
  have hget := set_getElem? e.heap p
    { h with _ObjectID := if id = -1 then e._NextNonTemplateObjectID else id } hlt
  have hnext := hI.next
  constructor
  · exact hI.live
  · show (if _ then _ else _ : Int) ≤ -2
    split
    · exact Int.le_trans (Int.sub_le_self _ (by decide)) hnext
    · exact hnext
  · simpa using hI.handles
  · intro q x hx
    simp only [hget] at hx
    by_cases hq : q = p
    · subst hq
      simp at hx
      subst hx
      exact hI.ids q h hp
    · simp [hq] at hx
      exact hI.ids q x hx
  · intro q x hx
    simp only [hget] at hx
    by_cases hq : q = p
    · subst hq
      simp at hx
      subst hx
      exact hI.ready q h hp
    · simp [hq] at hx
      exact hI.ready q x hx
  · intro q x hx hxd
    simp only [hget] at hx
    by_cases hq : q = p
    · subst hq
      simp at hx
      subst hx
      exact hown
    · simp [hq] at hx
      exact hI.owner q x hx hxd
  · intro q x hx hxd
    simp only [hget] at hx
    by_cases hq : q = p
    · subst hq
      simp at hx
      subst hx
      have : h.IsDisposed = true := hxd
      rw [hd] at this
      cases this
    · simp [hq] at hx
      exact hI.cleared q x hx hxd
  · exact hI.freeNodup
  · intro id' hmem
    obtain ⟨h0, x, hx, hxd⟩ := hI.freeDisposed id' hmem
    refine ⟨h0, x, ?_, hxd⟩
    simp only [hget]
    have : id'.toNat ≠ p := by
      intro hq
      rw [hq, hp] at hx
      cases hx
      rw [hd] at hxd
      cases hxd
    simp [this, hx]
  · intro q hq; simpa using hI.pendingValid q hq
  · intro q hq; simpa using hI.weakValid q hq
  · intro q hq; simpa using hI.strongValid q hq
  · intro i q hiq
    have hiq' : (registerObject (unregisterObject e._Objects h._ObjectID) p id)[i]?
        = some (some q) := hiq
    rcases registerObject_getElem?_some _ _ _ _ _ hiq' with ⟨h0, hi, hqp⟩ | hold
    · subst hqp
      have hne : ¬ id = -1 := by omega
      refine ⟨{ h with _ObjectID := if id = -1 then e._NextNonTemplateObjectID else id },
        by simp [hget], hd, ?_⟩
      simp only [hne, if_false]
      omega
    · obtain ⟨hold', hine⟩ := unregisterObject_getElem?_some _ _ _ _ hold
      obtain ⟨x, hx, hxd, hxo⟩ := hI.objsSound i q hold'
      have hqp : q ≠ p := by
        intro hqp
        subst hqp
        rw [hp] at hx
        cases hx
        exact hine hxo.symm
      exact ⟨x, by simp [hget, hqp, hx], hxd, hxo⟩
  · intro q x hx hxd hxo
    simp only [hget] at hx
    show (registerObject (unregisterObject e._Objects h._ObjectID) p id)[x._ObjectID.toNat]?
      = some (some q)
    by_cases hq : q = p
    · subst hq
      simp at hx
      subst hx
      have hxo' : 0 ≤ (if id = -1 then e._NextNonTemplateObjectID else id) := hxo
      have hne : ¬ id = -1 := by
        intro hc
        rw [if_pos hc] at hxo'
        omega
      simp only [hne, if_false] at hxo' ⊢
      exact registerObject_getElem?_self _ _ _ hxo'
    · simp [hq] at hx
      have hold := hI.objsComplete q x hx hxd hxo
      have hne1 : ((x._ObjectID.toNat : Nat) : Int) ≠ h._ObjectID := by
        intro hc
        have h0 : 0 ≤ h._ObjectID := by rw [← hc]; exact Int.ofNat_nonneg _
        have hself := hI.objsComplete p h hp hd h0
        have : x._ObjectID.toNat = h._ObjectID.toNat := by omega
        rw [this, hself] at hold
        simp at hold
        exact hq hold.symm
      have hold1 : (unregisterObject e._Objects h._ObjectID)[x._ObjectID.toNat]?
          = some (some q) := by
        rw [unregisterObject_getElem?_other _ _ _ hne1]; exact hold
      by_cases h0 : 0 ≤ id
      · rw [registerObject_getElem?_other _ _ _ _ (getElem?_lt hold1) ?_]
        · exact hold1
        · intro heq
          exact hunused h0 q x hq hx hxd (by omega)
      · simp only [registerObject, h0, if_false]
        exact hold1

theorem unused_of_check {e : V8EngineProxy} {p : Nat} {id : Int}
    (h : e.unusedCheck p id = true) : e.Unused p id := by
  intro q x hq hx hd
  unfold V8EngineProxy.unusedCheck at h
  rw [List.all_eq_true] at h
  have := h q (by simpa using getElem?_lt hx)
  simp only [hx, hd, Bool.false_or, Bool.or_eq_true, beq_iff_eq, decide_eq_true_eq] at this
  rcases this with h1 | h1
  · exact absurd h1 hq
  · exact h1

theorem unused_update {e : V8EngineProxy} {p : Nat} {id : Int} (f : HandleProxy → HandleProxy)
    (h : e.Unused p id) : (e.update p f).Unused p id := by
  intro q x hq hx hd
  rw [V8EngineProxy.update_getElem?_ne e p f q hq] at hx
  exact h q x hq hx hd

theorem EngineProxy_of_detached (g : Statics) (h : HandleProxy) (hd : h.Detached)
    (hx : h.IsDisposed = true) : h.EngineProxy g = none :=
  EngineProxy_of_gone g h (Or.inl (by rw [(hd hx).1]; decide))

theorem setManagedObjectID_keeps {g : Statics} {e : V8EngineProxy} (hI : Inv g e)
    (hD : e.Detached) (p : Nat) (id : Int) (hunused : 0 ≤ id → e.Unused p id) :
    Inv g (HandleProxy.SetManagedObjectID e p id).1 ∧
      (HandleProxy.SetManagedObjectID e p id).1.Detached := by
  refine ⟨?_, detached_setManagedObjectID e p id hD⟩
  cases hp : e.heap[p]? with
  | none => rw [SetManagedObjectID_of_invalid e p id hp]; exact hI
  | some h =>
    cases hd : h.IsDisposed with
    | true =>
      rw [SetManagedObjectID_of_detached e p id h hp (hD p h hp hd).2]; exact hI
    | false => exact hI.setManagedObjectID p h hp hd id hunused

theorem connectObject_keeps {g : Statics} {e : V8EngineProxy} (hI : Inv g e)
    (hD : e.Detached) (p : Nat) (id : Int) (hunused : 0 ≤ id → e.Unused p id) :
    Inv g (Exports.ConnectObject g e p id) ∧ (Exports.ConnectObject g e p id).Detached := by
  unfold Exports.ConnectObject
  cases hp : e.heap[p]? with
  | none => simp only [hp]; exact ⟨hI, hD⟩
  | some h =>
    simp only [hp]
    cases hE : h.EngineProxy g with
    | none => exact ⟨hI, hD⟩
    | some x =>
      simp only []
      have hd : h.IsDisposed = false := by
        cases hd : h.IsDisposed with
        | false => rfl
        | true => rw [EngineProxy_of_detached g h (hD p h hp) hd] at hE; cases hE
      have hf : ∀ (n : Int) (h0 : HandleProxy),
          (match h0._Handle with
            | some pv =>
              if pv.value.IsObject
              then { h0 with _Handle := some { pv with value := pv.value.withManagedObjectID n } }
              else h0
            | none => h0 : HandleProxy).core = h0.core := by
        intro n h0
        cases h0._Handle with
        | none => rfl
        | some pv =>
          simp only []
          split <;> rfl
      by_cases h1 : id = -1
      · simp only [h1, if_true, V8EngineProxy.GetNextNonTemplateObjectID]
        have hI1 := hI.setNext (e._NextNonTemplateObjectID - 1)
          (Int.le_trans (Int.sub_le_self _ (by decide)) hI.next)
        have hD1 : ({ e with _NextNonTemplateObjectID := e._NextNonTemplateObjectID - 1 }
            : V8EngineProxy).Detached := detached_of_heap rfl hD
        have hI2 := hI1.update_core p _ (hf e._NextNonTemplateObjectID)
        have hD2 := detached_update_core _ p _ (hf e._NextNonTemplateObjectID) hD1
        refine setManagedObjectID_keeps hI2 hD2 p _ ?_
        intro h0
        have := hI.next
        omega
      · simp only [h1, if_false]
        have hI2 := hI.update_core p _ (hf id)
        have hD2 := detached_update_core _ p _ (hf id) hD
        exact setManagedObjectID_keeps hI2 hD2 p _ (fun h0 => unused_update _ (hunused h0))

theorem IdentityReachable.registry {g : Statics} {e : V8EngineProxy} (hR : IdentityReachable g e) :
    Inv g e ∧ e.Detached := by
  induction hR with
  | init engineID hlive =>
    exact ⟨Inv.init engineID hlive, fun p h hp => by simp [V8EngineProxy.init] at hp⟩
  | getHandleProxy v gc _ ih =>
    exact ⟨(ih.1.getHandleProxy v gc).1, detached_getHandleProxy ih.1 v gc ih.2⟩
  | setManagedObjectID p id hunused _ ih => exact setManagedObjectID_keeps ih.1 ih.2 p id hunused
  | connectObject p id hunused _ ih => exact connectObject_keeps ih.1 ih.2 p id hunused
  | dispose p _ ih => exact ⟨(drains_dispose ih.1 p).inv, detached_dispose ih.1 p ih.2⟩
  | processHandleQueues loops _ ih =>
    exact ⟨(drains_processHandleQueues ih.1 loops).inv,
      detached_processHandleQueues ih.1 loops ih.2⟩

theorem static_id_without_internal_fields (v : Value) (h : v.InternalFieldCount ≤ 1) :
    HandleProxy.GetManagedObjectIDStatic (some v) = -1 := by
  unfold HandleProxy.GetManagedObjectIDStatic MaybeLocal.ToLocal
  have h1 : ¬ v.InternalFieldCount > 1 := by omega
  simp only [h1, if_false]
  cases v.IsObject with
  | false => rfl
  | true =>
    cases v.PrivateManagedObjectID with
    | none => rfl
    | some x => rfl

theorem classify_of_object (v : Value) (hv : v.Coherent) (ho : v.IsObject = true)
    (he : v.IsExternal = false) (hn : v.IsNativeError = false) :
    HandleProxy.classify (some v) ∈ HandleProxy.objectKinds := by
  have a := Coherent.object_checks v hv ho
  unfold HandleProxy.classify HandleProxy.objectKinds
  simp only [a.1, a.2.1, a.2.2.1, a.2.2.2.1, a.2.2.2.2.1, a.2.2.2.2.2, he, hn, ho,
    Bool.false_eq_true, if_false, if_true]
  cases v.IsBooleanObject <;> cases v.IsNumberObject <;> cases v.IsStringObject <;>
    cases v.IsDate <;> cases v.IsArray <;> cases v.IsRegExp <;> cases v.IsFunction <;> simp

theorem classify_of_error_object (v : Value) (hv : v.Coherent) (ho : v.IsObject = true)
    (hn : v.IsExternal = true ∨ v.IsNativeError = true)
    (hc : v.IsBooleanObject = false ∧ v.IsNumberObject = false ∧ v.IsStringObject = false ∧
      v.IsDate = false ∧ v.IsArray = false ∧ v.IsRegExp = false ∧ v.IsFunction = false) :
    HandleProxy.classify (some v) = (.JSV_Undefined, false) := by
  have a := Coherent.object_checks v hv ho
  unfold HandleProxy.classify
  simp only [a.1, a.2.1, a.2.2.1, a.2.2.2.1, a.2.2.2.2.1, hc.1, hc.2.1, hc.2.2.1, hc.2.2.2.1,
    hc.2.2.2.2.1, hc.2.2.2.2.2.1, hc.2.2.2.2.2.2, Bool.false_eq_true, if_false]
  rcases hn with hn | hn
  · simp [hn]
  · simp [hn]

theorem SameQueues.none (e : V8EngineProxy) : SameQueues e e := ⟨rfl, rfl, rfl, rfl⟩

theorem SameQueues.next {a b c : V8EngineProxy} (h1 : SameQueues a b) (h2 : SameQueues b c) :
    SameQueues a c :=
  ⟨h2.scope.trans h1.scope, h2.pending.trans h1.pending, h2.weak.trans h1.weak,
    h2.strong.trans h1.strong⟩

theorem sameQueues_update (e : V8EngineProxy) (p : Nat) (f : HandleProxy → HandleProxy) :
    SameQueues e (e.update p f) := ⟨by simp, by simp, by simp, by simp⟩

theorem sameQueues_disposeWith (d : V8EngineProxy → Nat → V8EngineProxy)
    (hd : ∀ e0 q, SameQueues e0 (d e0 q)) (g : Statics) (e : V8EngineProxy) (p : Nat)
    (b : Bool) : SameQueues e (HandleProxy._DisposeWith d g e p b).1 := by
  unfold HandleProxy._DisposeWith
  split
  · exact SameQueues.none e
  · split
    · exact SameQueues.none e
    · split
      · exact sameQueues_update e p _
      · split
        · split
          · exact hd e p
          · exact sameQueues_update e p _
        · exact SameQueues.none e

theorem sameQueues_disposeHandleProxy (g : Statics) (e : V8EngineProxy) (p : Option Nat) :
    SameQueues e (V8EngineProxy.DisposeHandleProxy g e p) := by
  unfold V8EngineProxy.DisposeHandleProxy
  cases p with
  | none => exact SameQueues.none e
  | some q =>
    simp only []
    cases hh : e.heap[q]? with
    | none => exact SameQueues.none e
    | some h =>
      simp only []
      cases hd : h.IsDisposed with
      | true => simp only [if_true]; exact SameQueues.none e
      | false =>
        simp only [Bool.false_eq_true, if_false]
        have h1 : SameQueues e
            (if 0 ≤ h._ObjectID ∧ h._ObjectID < (e._Objects.length : Int)
              then { e with _Objects := e._Objects.set h._ObjectID.toNat none } else e) := by
          split
          · exact ⟨rfl, rfl, rfl, rfl⟩
          · exact SameQueues.none e
        revert h1
        generalize (if 0 ≤ h._ObjectID ∧ h._ObjectID < (e._Objects.length : Int)
              then { e with _Objects := e._Objects.set h._ObjectID.toNat none } else e) = e1
        intro h1
        have h3 := h1.next (sameQueues_disposeWith (fun e0 _ => e0)
          (fun e0 _ => SameQueues.none e0) g e1 q false)
        split
        · split
          · exact ⟨h3.scope, h3.pending, h3.weak, h3.strong⟩
          · exact h3
        · exact h3

theorem sameQueues_dispose (g : Statics) (e : V8EngineProxy) (p : Nat) :
    SameQueues e (HandleProxy.Dispose g e p).1 :=
  sameQueues_disposeWith _ (fun e0 q => sameQueues_disposeHandleProxy g e0 (some q)) g e p true

theorem sameQueues_makeWeak (e : V8EngineProxy) (p : Nat) :
    SameQueues e (HandleProxy.MakeWeak e p) := sameQueues_update e p _

theorem sameQueues_makeStrong (e : V8EngineProxy) (p : Nat) :
    SameQueues e (HandleProxy.MakeStrong e p) := sameQueues_update e p _

/-- The disposal block: the queue loses its last entry when the reentrancy counter is
zero; the other queues and the counter stay. -/
theorem processPendingDisposal_queues (g : Statics) (e : V8EngineProxy) :
    (e.processPendingDisposal g)._HandlesPendingDisposal =
      (if e._InCallbackScope = 0 then e._HandlesPendingDisposal.dropLast
        else e._HandlesPendingDisposal) ∧
    (e.processPendingDisposal g)._HandlesToBeMadeWeak = e._HandlesToBeMadeWeak ∧
    (e.processPendingDisposal g)._HandlesToBeMadeStrong = e._HandlesToBeMadeStrong ∧
    (e.processPendingDisposal g)._InCallbackScope = e._InCallbackScope := by
  unfold V8EngineProxy.processPendingDisposal
  split
  · rename_i hc
    split
    · rename_i p hp
      have h1 := sameQueues_update
        { e with _HandlesPendingDisposal := e._HandlesPendingDisposal.dropLast } p
        (fun h0 => { h0 with _Disposed := clearBits h0._Disposed 16 })
      have h2 := h1.next (sameQueues_dispose g _ p)
      exact ⟨by rw [h2.pending, if_pos hc.2], h2.weak, h2.strong, h2.scope⟩
    · rename_i hn
      have hnil : e._HandlesPendingDisposal = [] := List.getLast?_eq_none_iff.mp hn
      simp [hnil]
  · rename_i hc
    refine ⟨?_, rfl, rfl, rfl⟩
    split
    · rename_i hs
      have hnil : e._HandlesPendingDisposal = [] := by
        by_contra hne
        exact hc ⟨List.length_pos.mpr hne, hs⟩
      simp [hnil]
    · rfl

theorem processMakeWeak_queues (e : V8EngineProxy) :
    e.processMakeWeak.1._HandlesToBeMadeWeak = e._HandlesToBeMadeWeak.dropLast ∧
    e.processMakeWeak.1._HandlesPendingDisposal = e._HandlesPendingDisposal ∧
    e.processMakeWeak.1._HandlesToBeMadeStrong = e._HandlesToBeMadeStrong ∧
    e.processMakeWeak.1._InCallbackScope = e._InCallbackScope := by
  unfold V8EngineProxy.processMakeWeak
  split
  · rename_i p hp
    have h1 := sameQueues_update
      { e with _HandlesToBeMadeWeak := e._HandlesToBeMadeWeak.dropLast } p
      (fun h0 => { h0 with _Disposed := clearBits (clearBits h0._Disposed 4) 16 })
    have h2 := h1.next (sameQueues_makeWeak _ p)
    exact ⟨h2.weak, h2.pending, h2.strong, h2.scope⟩
  · rename_i hn
    have hnil : e._HandlesToBeMadeWeak = [] := List.getLast?_eq_none_iff.mp hn
    simp [hnil]

theorem processMakeStrong_queues (e : V8EngineProxy) :
    e.processMakeStrong.1._HandlesToBeMadeStrong = e._HandlesToBeMadeStrong.dropLast ∧
    e.processMakeStrong.1._HandlesPendingDisposal = e._HandlesPendingDisposal ∧
    e.processMakeStrong.1._HandlesToBeMadeWeak = e._HandlesToBeMadeWeak ∧
    e.processMakeStrong.1._InCallbackScope = e._InCallbackScope := by
  unfold V8EngineProxy.processMakeStrong
  split
  · rename_i p hp
    have h1 := sameQueues_update
      { e with _HandlesToBeMadeStrong := e._HandlesToBeMadeStrong.dropLast } p
      (fun h0 => { h0 with _Disposed := clearBits h0._Disposed 8 })
    have h2 := h1.next (sameQueues_makeStrong _ p)
    exact ⟨h2.strong, h2.pending, h2.weak, h2.scope⟩
  · rename_i hn
    have hnil : e._HandlesToBeMadeStrong = [] := List.getLast?_eq_none_iff.mp hn
    simp [hnil]

/-- One iteration pops the last entry of each queue (of the disposal queue only when the
reentrancy counter is zero). -/
theorem iteration_queues (g : Statics) (e : V8EngineProxy) :
    (e.iteration g)._HandlesPendingDisposal =
      (if e._InCallbackScope = 0 then e._HandlesPendingDisposal.dropLast
        else e._HandlesPendingDisposal) ∧
    (e.iteration g)._HandlesToBeMadeWeak = e._HandlesToBeMadeWeak.dropLast ∧
    (e.iteration g)._HandlesToBeMadeStrong = e._HandlesToBeMadeStrong.dropLast ∧
    (e.iteration g)._InCallbackScope = e._InCallbackScope := by
  unfold V8EngineProxy.iteration V8EngineProxy.processStep
  have h1 := processPendingDisposal_queues g e
  have h2 := processMakeWeak_queues (e.processPendingDisposal g)
  have h3 := processMakeStrong_queues (e.processPendingDisposal g).processMakeWeak.1
  simp only []
  refine ⟨?_, ?_, ?_, ?_⟩
  · rw [h3.2.1, h2.2.1, h1.1]
  · rw [h3.2.2.1, h2.1, h1.2.1]
  · rw [h3.1, h2.2.2.1, h1.2.2.1]
  · rw [h3.2.2.2, h2.2.2.2, h1.2.2.2]

theorem dropLast_take {α : Type} (l : List α) (k : Nat) :
    (l.take (l.length - k)).dropLast = l.take (l.length - (k + 1)) := by
  rw [List.dropLast_eq_take, List.length_take, List.take_take]
  congr 1
  omega

/-- The state after `k` iterations: each queue lost its last `k` entries. -/
theorem iterate_queues (g : Statics) (k : Nat) (e : V8EngineProxy) :
    ((V8EngineProxy.iteration g)^[k] e)._HandlesPendingDisposal =
      e._HandlesPendingDisposal.take
        (e._HandlesPendingDisposal.length - (if e._InCallbackScope = 0 then k else 0)) ∧
    ((V8EngineProxy.iteration g)^[k] e)._HandlesToBeMadeWeak =
      e._HandlesToBeMadeWeak.take (e._HandlesToBeMadeWeak.length - k) ∧
    ((V8EngineProxy.iteration g)^[k] e)._HandlesToBeMadeStrong =
      e._HandlesToBeMadeStrong.take (e._HandlesToBeMadeStrong.length - k) ∧
    ((V8EngineProxy.iteration g)^[k] e)._InCallbackScope = e._InCallbackScope := by
  induction k with
  | zero => simp
  | succ k ih =>
    rw [Function.iterate_succ_apply']
    have h := iteration_queues g ((V8EngineProxy.iteration g)^[k] e)
    obtain ⟨i1, i2, i3, i4⟩ := ih
    refine ⟨?_, ?_, ?_, ?_⟩
    · rw [h.1, i4, i1]
      by_cases hs : e._InCallbackScope = 0
      · simp only [hs, if_true]
        exact dropLast_take _ k
      · simp only [hs, if_false]
    · rw [h.2.1, i2]; exact dropLast_take _ k
    · rw [h.2.2.1, i3]; exact dropLast_take _ k
    · rw [h.2.2.2, i4]

/-- The loop runs at most `n` iterations. -/
theorem processLoop_iterations (g : Statics) (n : Nat) :
    ∀ (d : Bool) (e : V8EngineProxy),
      ∃ k : Nat, k ≤ n ∧ V8EngineProxy.processLoop g n d e = (V8EngineProxy.iteration g)^[k] e := by
  induction n with
  | zero => intro d e; exact ⟨0, le_refl _, rfl⟩
  | succ n ih =>
    intro d e
    unfold V8EngineProxy.processLoop
    split
    · obtain ⟨k, hk, heq⟩ := ih (e.processStep g).2 (e.processStep g).1
      refine ⟨k + 1, by omega, ?_⟩
      rw [Function.iterate_succ_apply]
      exact heq
    · exact ⟨0, by omega, rfl⟩

/-- With nothing to make weak or strong, a call with `loops > 0` runs the disposal block
once and stops. -/
theorem processLoop_disposes_once (g : Statics) (n : Nat) (e : V8EngineProxy)
    (hw : e._HandlesToBeMadeWeak = []) (hs : e._HandlesToBeMadeStrong = []) :
    V8EngineProxy.processLoop g (n + 1) true e = e.processPendingDisposal g := by
  have h1 := processPendingDisposal_queues g e
  have hw1 : (e.processPendingDisposal g)._HandlesToBeMadeWeak.getLast? = none := by
    rw [h1.2.1, hw]; rfl
  have hs1 : (e.processPendingDisposal g)._HandlesToBeMadeStrong.getLast? = none := by
    rw [h1.2.2.1, hs]; rfl
  have hstep : e.processStep g = (e.processPendingDisposal g, false) := by
    unfold V8EngineProxy.processStep V8EngineProxy.processMakeWeak
    simp only [hw1]
    unfold V8EngineProxy.processMakeStrong
    simp only [hs1, Bool.or_self]
  unfold V8EngineProxy.processLoop
  simp only [if_true, hstep]
  cases n with
  | zero => rfl
  | succ n => unfold V8EngineProxy.processLoop; simp

theorem getLast?_append_reverse {α : Type} (l : List α) (n : Nat) :
    l.getLast?.toList ++ l.dropLast.reverse.take n = l.reverse.take (n + 1) := by
  induction l using List.reverseRecOn with
  | nil => simp
  | append_singleton l a _ => simp

theorem appliedDisposals_eq (g : Statics) (n : Nat) :
    ∀ e : V8EngineProxy, e._InCallbackScope = 0 →
      V8EngineProxy.appliedDisposals g n e = e._HandlesPendingDisposal.reverse.take n := by
  induction n with
  | zero => intro e _; simp [V8EngineProxy.appliedDisposals]
  | succ n ih =>
    intro e hs
    have h := iteration_queues g e
    unfold V8EngineProxy.appliedDisposals
    rw [ih _ (h.2.2.2.trans hs), h.1]
    simp only [hs, if_true]
    exact getLast?_append_reverse _ n

theorem appliedMakeWeaks_eq (g : Statics) (n : Nat) :
    ∀ e : V8EngineProxy,
      V8EngineProxy.appliedMakeWeaks g n e = e._HandlesToBeMadeWeak.reverse.take n := by
  induction n with
  | zero => intro e; simp [V8EngineProxy.appliedMakeWeaks]
  | succ n ih =>
    intro e
    have h := iteration_queues g e
    unfold V8EngineProxy.appliedMakeWeaks
    rw [ih _, h.2.1]
    exact getLast?_append_reverse _ n

theorem appliedMakeStrongs_eq (g : Statics) (n : Nat) :
    ∀ e : V8EngineProxy,
      V8EngineProxy.appliedMakeStrongs g n e = e._HandlesToBeMadeStrong.reverse.take n := by
  induction n with
  | zero => intro e; simp [V8EngineProxy.appliedMakeStrongs]
  | succ n ih =>
    intro e
    have h := iteration_queues g e
    unfold V8EngineProxy.appliedMakeStrongs
    rw [ih _, h.2.2.1]
    exact getLast?_append_reverse _ n

/-- The disposal block applies `Dispose` to the last entry of the queue. -/
theorem processPendingDisposal_of_last (g : Statics) (e : V8EngineProxy) (p : Nat)
    (hs : e._InCallbackScope = 0) (hl : e._HandlesPendingDisposal.getLast? = some p) :
    e.processPendingDisposal g =
      (HandleProxy.Dispose g
        (({ e with _HandlesPendingDisposal := e._HandlesPendingDisposal.dropLast }
            : V8EngineProxy).update p
          (fun h0 => { h0 with _Disposed := clearBits h0._Disposed 16 })) p).1 := by
  have hne : e._HandlesPendingDisposal.length > 0 := by
    cases hq : e._HandlesPendingDisposal with
    | nil => rw [hq] at hl; cases hl
    | cons a l => simp
  unfold V8EngineProxy.processPendingDisposal
  simp only [hne, hs, and_self, if_true, hl]

/-- The make-weak block applies `MakeWeak` to the last entry of the queue. -/
theorem processMakeWeak_of_last (e : V8EngineProxy) (p : Nat)
    (hl : e._HandlesToBeMadeWeak.getLast? = some p) :
    e.processMakeWeak.1 =
      HandleProxy.MakeWeak
        (({ e with _HandlesToBeMadeWeak := e._HandlesToBeMadeWeak.dropLast }
            : V8EngineProxy).update p
          (fun h0 => { h0 with _Disposed := clearBits (clearBits h0._Disposed 4) 16 })) p := by
  unfold V8EngineProxy.processMakeWeak
  simp only [hl]

/-- The make-strong block applies `MakeStrong` to the last entry of the queue. -/
theorem processMakeStrong_of_last (e : V8EngineProxy) (p : Nat)
    (hl : e._HandlesToBeMadeStrong.getLast? = some p) :
    e.processMakeStrong.1 =
      HandleProxy.MakeStrong
        (({ e with _HandlesToBeMadeStrong := e._HandlesToBeMadeStrong.dropLast }
            : V8EngineProxy).update p
          (fun h0 => { h0 with _Disposed := clearBits h0._Disposed 8 })) p := by
  unfold V8EngineProxy.processMakeStrong
  simp only [hl]

/-- A request to dispose a live proxy that is not queued is appended to the queue. -/
theorem QueueHandleDisposal_eq {g : Statics} {e : V8EngineProxy} (hI : Inv g e) (p : Nat)
    (h : HandleProxy) (hp : e.heap[p]? = some h) (hd : h.IsDisposed = false)
    (hq : h.IsDisposing = false) (hn : p ∉ e._HandlesPendingDisposal) :
    e.QueueHandleDisposal (some p) =
      { e.update p (fun h0 => { h0 with _Disposed := h0._Disposed ||| 16 }) with
        _HandlesPendingDisposal := e._HandlesPendingDisposal ++ [p] } := by
  unfold V8EngineProxy.QueueHandleDisposal
  simp only [hp, hd, hq, Bool.not_false, Bool.and_self, if_true,
    V8EngineProxy.update_HandlesPendingDisposal]
  cases hl : e._HandlesPendingDisposal.getLast? with
  | none => simp only [Bool.not_false, if_true]
  | some q =>
    have hmem := mem_of_getLast? hl
    have hne : q ≠ p := fun hc => hn (hc ▸ hmem)
    simp only [V8EngineProxy.update_getElem?_ne e p _ q hne]
    cases hx : e.heap[q]? with
    | none => simp only [Bool.not_false, if_true]
    | some l =>
      have hdec : decide (l._ID = h._ID) = false := by
        simp only [decide_eq_false_iff_not]
        rw [hI.ids q l hx, hI.ids p h hp]
        intro hc
        exact hne (by exact_mod_cast hc)
      simp only [hdec, Bool.not_false, if_true]

theorem queue_disposals {g : Statics} (ps : List Nat) :
    ∀ e : V8EngineProxy, Inv g e → ps.Nodup →
      (∀ p ∈ ps, p ∉ e._HandlesPendingDisposal ∧
        ∃ h, e.heap[p]? = some h ∧ h.IsDisposed = false ∧ h.IsDisposing = false) →
      (ps.foldl (fun e0 p => e0.QueueHandleDisposal (some p)) e)._HandlesPendingDisposal =
        e._HandlesPendingDisposal ++ ps := by
  induction ps with
  | nil => intro e _ _ _; simp
  | cons p ps ih =>
    intro e hI hnd hnew
    obtain ⟨hn, h, hp, hd, hq⟩ := hnew p (List.mem_cons_self _ _)
    have hI1 := (drains_queueHandleDisposal hI (some p)).inv
    have heq := QueueHandleDisposal_eq hI p h hp hd hq hn
    rw [List.foldl_cons, ih _ hI1 (List.nodup_cons.mp hnd).2]
    · rw [heq]; simp
    · intro q hqm
      have hne : q ≠ p := fun hc => (List.nodup_cons.mp hnd).1 (hc ▸ hqm)
      obtain ⟨hn', h', hp', hd', hq'⟩ := hnew q (List.mem_cons_of_mem _ hqm)
      rw [heq]
      refine ⟨?_, h', ?_, hd', hq'⟩
      · simp only [List.mem_append, List.mem_singleton, not_or]
        exact ⟨by simpa using hn', hne⟩
      · show (e.update p _).heap[q]? = some h'
        rw [V8EngineProxy.update_getElem?_ne e p _ q hne]; exact hp'

theorem queue_makeWeaks (ps : List Nat) :
    ∀ e : V8EngineProxy, ps.Nodup →
      (∀ p ∈ ps, ∃ h, e.heap[p]? = some h ∧ h._Disposed &&& 4 = 0) →
      (ps.foldl (fun e0 p => e0.QueueMakeWeak p) e)._HandlesToBeMadeWeak =
        e._HandlesToBeMadeWeak ++ ps := by
  induction ps with
  | nil => intro e _ _; simp
  | cons p ps ih =>
    intro e hnd hnew
    obtain ⟨h, hp, hb⟩ := hnew p (List.mem_cons_self _ _)
    have heq : e.QueueMakeWeak p =
        { e.update p (fun h0 => { h0 with _Disposed := h0._Disposed ||| 4 }) with
          _HandlesToBeMadeWeak := e._HandlesToBeMadeWeak ++ [p] } := by
      unfold V8EngineProxy.QueueMakeWeak
      simp only [hp, hb, if_true]
    rw [List.foldl_cons, ih _ (List.nodup_cons.mp hnd).2]
    · rw [heq]; simp
    · intro q hqm
      have hne : q ≠ p := fun hc => (List.nodup_cons.mp hnd).1 (hc ▸ hqm)
      obtain ⟨h', hp', hb'⟩ := hnew q (List.mem_cons_of_mem _ hqm)
      rw [heq]
      refine ⟨h', ?_, hb'⟩
      show (e.update p _).heap[q]? = some h'
      rw [V8EngineProxy.update_getElem?_ne e p _ q hne]; exact hp'

theorem queue_makeStrongs (ps : List Nat) :
    ∀ e : V8EngineProxy, ps.Nodup →
      (∀ p ∈ ps, ∃ h, e.heap[p]? = some h ∧ h._Disposed &&& 8 = 0) →
      (ps.foldl (fun e0 p => e0.QueueMakeStrong p) e)._HandlesToBeMadeStrong =
        e._HandlesToBeMadeStrong ++ ps := by
  induction ps with
  | nil => intro e _ _; simp
  | cons p ps ih =>
    intro e hnd hnew
    obtain ⟨h, hp, hb⟩ := hnew p (List.mem_cons_self _ _)
    have heq : e.QueueMakeStrong p =
        { e.update p (fun h0 => { h0 with _Disposed := h0._Disposed ||| 8 }) with
          _HandlesToBeMadeStrong := e._HandlesToBeMadeStrong ++ [p] } := by
      unfold V8EngineProxy.QueueMakeStrong
      simp only [hp, hb, if_true]
    rw [List.foldl_cons, ih _ (List.nodup_cons.mp hnd).2]
    · rw [heq]; simp
    · intro q hqm
      have hne : q ≠ p := fun hc => (List.nodup_cons.mp hnd).1 (hc ▸ hqm)
      obtain ⟨h', hp', hb'⟩ := hnew q (List.mem_cons_of_mem _ hqm)
      rw [heq]
      refine ⟨h', ?_, hb'⟩
      show (e.update p _).heap[q]? = some h'
      rw [V8EngineProxy.update_getElem?_ne e p _ q hne]; exact hp'

theorem and_sixteen_pos (d : Nat) : decide (d &&& 16 > 0) = d.testBit 4 := by
  have h := Nat.and_two_pow d 4
  have h3 : (2 : Nat) ^ 4 = 16 := by norm_num
  rw [h3] at h
  rw [h]
  cases d.testBit 4 <;> simp

theorem isDisposing_eq_testBit (h : HandleProxy) : h.IsDisposing = h._Disposed.testBit 4 := by
  unfold HandleProxy.IsDisposing
  exact and_sixteen_pos _

theorem isDisposing_or_8 (h : HandleProxy) :
    ({ h with _Disposed := h._Disposed ||| 8 } : HandleProxy).IsDisposing = h.IsDisposing := by
  rw [isDisposing_eq_testBit, isDisposing_eq_testBit]
  show (h._Disposed ||| 8).testBit 4 = _
  rw [Nat.testBit_or]
  have : Nat.testBit 8 4 = false := by decide
  simp [this]

theorem isDisposing_clear8 (h : HandleProxy) :
    ({ h with _Disposed := clearBits h._Disposed 8 } : HandleProxy).IsDisposing
      = h.IsDisposing := by
  rw [isDisposing_eq_testBit, isDisposing_eq_testBit]
  show (clearBits h._Disposed 8).testBit 4 = _
  unfold clearBits
  have : (4294967295 ^^^ 8).testBit 4 = true := by decide
  rw [Nat.testBit_and, this, Bool.and_true]

theorem isDisposed_of_core {h h' : HandleProxy} (hc : h'.core = h.core) :
    h'.IsDisposed = h.IsDisposed := by
  simp only [HandleProxy.core, Prod.mk.injEq] at hc
  exact hc.2.2.2.2.2

theorem PendingOK.carry {e e' : V8EngineProxy} (hP : PendingOK e)
    (hsub : e'._HandlesPendingDisposal.Sublist e._HandlesPendingDisposal)
    (hw : e'._HandlesToBeMadeWeak = [])
    (hq : ∀ q ∈ e'._HandlesPendingDisposal, ∀ h, e.heap[q]? = some h →
      ∃ h', e'.heap[q]? = some h' ∧ h'.IsDisposed = h.IsDisposed ∧
        h'.IsDisposing = h.IsDisposing)
    (hnw : ∀ (q : Nat) (h' : HandleProxy), e'.heap[q]? = some h' → h'.IsWeak = false) :
    PendingOK e' := by
  refine ⟨hP.nodup.sublist hsub, ?_, hw, hnw⟩
  intro p hp
  obtain ⟨h, hh, hd, hg⟩ := hP.queued p (hsub.subset hp)
  obtain ⟨h', hh', hd', hg'⟩ := hq p hp h hh
  exact ⟨h', hh', hd'.trans hd, hg'.trans hg⟩

/-- An update that keeps the disposed and queued bits and makes no value weak. -/
theorem pendingOK_update_view {e : V8EngineProxy} (hP : PendingOK e) (p : Nat)
    (f : HandleProxy → HandleProxy)
    (hf : ∀ h, (f h).IsDisposed = h.IsDisposed ∧ (f h).IsDisposing = h.IsDisposing ∧
      (h.IsWeak = false → (f h).IsWeak = false)) : PendingOK (e.update p f) := by
  refine hP.carry (by simp) (by simpa using hP.noWeakQueue) ?_ ?_
  · intro q _ h hh
    rw [V8EngineProxy.update_getElem?]
    split
    · rename_i hqp
      subst hqp
      exact ⟨f h, by simp [hh], (hf h).1, (hf h).2.1⟩
    · exact ⟨h, hh, rfl, rfl⟩
  · intro q h' hh'
    rw [V8EngineProxy.update_getElem?] at hh'
    split at hh'
    · cases hx : e.heap[p]? with
      | none => simp [hx] at hh'
      | some x =>
        simp [hx] at hh'
        subst hh'
        exact (hf x).2.2 (hP.noWeak p x hx)
    · exact hP.noWeak q h' hh'

/-- An update of a proxy that is not queued and makes no value weak. -/
theorem pendingOK_update_other {e : V8EngineProxy} (hP : PendingOK e) (p : Nat)
    (f : HandleProxy → HandleProxy) (hpn : p ∉ e._HandlesPendingDisposal)
    (hf : ∀ h, h.IsWeak = false → (f h).IsWeak = false) : PendingOK (e.update p f) := by
  refine hP.carry (by simp) (by simpa using hP.noWeakQueue) ?_ ?_
  · intro q hq h hh
    have hqm : q ∈ e._HandlesPendingDisposal := by simpa using hq
    have hne : q ≠ p := fun hc => hpn (hc ▸ hqm)
    rw [V8EngineProxy.update_getElem?_ne e p f q hne]
    exact ⟨h, hh, rfl, rfl⟩
  · intro q h' hh'
    rw [V8EngineProxy.update_getElem?] at hh'
    split at hh'
    · cases hx : e.heap[p]? with
      | none => simp [hx] at hh'
      | some x =>
        simp [hx] at hh'
        subst hh'
        exact hf x (hP.noWeak p x hx)
    · exact hP.noWeak q h' hh'

theorem clearedState_isWeak (h : HandleProxy) : h.clearedState.IsWeak = false := rfl

/-- Disposing a proxy that is not queued keeps the queue in order. -/
theorem pendingOK_dispose {g : Statics} {e : V8EngineProxy} (hI : Inv g e) (hP : PendingOK e)
    (p : Nat) (hpn : p ∉ e._HandlesPendingDisposal) :
    PendingOK (HandleProxy.Dispose g e p).1 := by
  cases hp : e.heap[p]? with
  | none =>
    have : HandleProxy.Dispose g e p = (e, true) := Dispose_of_invalid g e p hp true
    rw [this]; exact hP
  | some h =>
  cases hdis : h.IsDisposed with
  | true =>
    have : HandleProxy.Dispose g e p = (e, true) := Dispose_of_disposed g e p h hp hdis true
    rw [this]; exact hP
  | false =>
  have hown := hI.owner p h hp hdis
  have hl : V8EngineProxy.IsDisposed g h._EngineID = false := by rw [hown.1]; exact hI.live
  have hr := ready_of_lt h (hI.ready p h hp)
  have hlt := getElem?_lt hp
  rw [Dispose_eq g e p h hp hdis hl hr, DisposeHandleProxy_eq g e p h hp hdis hl hr]
  refine hP.carry (List.Sublist.refl _) hP.noWeakQueue ?_ ?_
  · intro q hq x hx
    have hne : q ≠ p := fun hc => hpn (hc ▸ hq)
    refine ⟨x, ?_, rfl, rfl⟩
    show (e.heap.set p h.clearedState)[q]? = some x
    rw [set_getElem? _ _ _ hlt]
    simp [hne, hx]
  · intro q x hx
    have hx' : (e.heap.set p h.clearedState)[q]? = some x := hx
    rw [set_getElem? _ _ _ hlt] at hx'
    split at hx'
    · cases hx'; rfl
    · exact hP.noWeak q x hx'

theorem pendingOK_processPendingDisposal {g : Statics} {e : V8EngineProxy} (hI : Inv g e)
    (hP : PendingOK e) : PendingOK (e.processPendingDisposal g) := by
  unfold V8EngineProxy.processPendingDisposal
  split
  · split
    · rename_i p hp
      have h1 := drains_setPending hI e._HandlesPendingDisposal.dropLast
        (fun q hq => hI.pendingValid q (mem_of_mem_dropLast hq))
      have h2 := drains_update_core h1.inv p
        (fun h0 => { h0 with _Disposed := clearBits h0._Disposed 16 }) core_clear16
      have hnd := hP.nodup
      rw [eq_dropLast_append hp] at hnd
      have hpn : p ∉ e._HandlesPendingDisposal.dropLast := by
        intro hc
        have := (List.nodup_append.mp hnd).2.2 hc
        simp at this
      have hP1 : PendingOK
          ({ e with _HandlesPendingDisposal := e._HandlesPendingDisposal.dropLast }
            : V8EngineProxy) :=
        hP.carry (List.dropLast_sublist _) hP.noWeakQueue
          (fun q _ h hh => ⟨h, hh, rfl, rfl⟩) hP.noWeak
      have hP2 := pendingOK_update_other hP1 p
        (fun h0 => { h0 with _Disposed := clearBits h0._Disposed 16 }) hpn (fun h hw => hw)
      exact pendingOK_dispose h2.inv hP2 p (by simpa using hpn)
    · exact hP
  · exact hP

theorem processMakeWeak_of_empty (e : V8EngineProxy) (hw : e._HandlesToBeMadeWeak = []) :
    e.processMakeWeak = (e, false) := by
  unfold V8EngineProxy.processMakeWeak
  simp [hw]

theorem pendingOK_makeStrong {e : V8EngineProxy} (hP : PendingOK e) (p : Nat) :
    PendingOK (HandleProxy.MakeStrong e p) := by
  unfold HandleProxy.MakeStrong
  apply pendingOK_update_view hP
  intro h
  cases hh : h._Handle with
  | none => simp
  | some pv => simp [HandleProxy.IsDisposed, HandleProxy.IsDisposing, HandleProxy.IsWeak]

theorem pendingOK_processMakeStrong {e : V8EngineProxy} (hP : PendingOK e) :
    PendingOK e.processMakeStrong.1 := by
  unfold V8EngineProxy.processMakeStrong
  split
  · rename_i p hp
    have hP1 : PendingOK
        ({ e with _HandlesToBeMadeStrong := e._HandlesToBeMadeStrong.dropLast }
          : V8EngineProxy) :=
      hP.carry (List.Sublist.refl _) hP.noWeakQueue (fun q _ h hh => ⟨h, hh, rfl, rfl⟩)
        hP.noWeak
    have hP2 := pendingOK_update_view hP1 p
      (fun h0 => { h0 with _Disposed := clearBits h0._Disposed 8 })
      (fun h => ⟨isDisposed_of_core (core_clear8 h), isDisposing_clear8 h, fun hw => hw⟩)
    exact pendingOK_makeStrong hP2 p
  · exact hP

theorem pendingOK_processStep {g : Statics} {e : V8EngineProxy} (hI : Inv g e)
    (hP : PendingOK e) : PendingOK (e.processStep g).1 := by
  unfold V8EngineProxy.processStep
  have hP1 := pendingOK_processPendingDisposal hI hP
  simp only [processMakeWeak_of_empty _ hP1.noWeakQueue]
  exact pendingOK_processMakeStrong hP1

theorem pendingOK_processLoop {g : Statics} (n : Nat) :
    ∀ (d : Bool) (e : V8EngineProxy), Inv g e → PendingOK e →
      PendingOK (V8EngineProxy.processLoop g n d e) := by
  induction n with
  | zero => intro d e _ hP; exact hP
  | succ n ih =>
    intro d e hI hP
    unfold V8EngineProxy.processLoop
    split
    · exact ih _ _ (drains_processStep hI).inv (pendingOK_processStep hI hP)
    · exact hP

theorem pendingOK_processHandleQueues {g : Statics} {e : V8EngineProxy} (hI : Inv g e)
    (hP : PendingOK e) (loops : Int) : PendingOK (e.ProcessHandleQueues g loops) :=
  pendingOK_processLoop _ _ _ hI hP

/-- The collector has nothing to call back while no value is weak. -/
theorem idle_of_no_weak (g : Statics) (gc : List Nat) (e : V8EngineProxy)
    (hnw : ∀ (p : Nat) (h : HandleProxy), e.heap[p]? = some h → h.IsWeak = false) :
    e.IdleNotificationDeadline g gc = e := by
  unfold V8EngineProxy.IdleNotificationDeadline
  induction gc with
  | nil => rfl
  | cons p gc ih =>
    rw [List.foldl_cons]
    split
    · rename_i h hh
      simp only [hnw p h hh, Bool.false_eq_true, if_false]
      exact ih
    · exact ih

theorem pendingOK_drained {g : Statics} {e : V8EngineProxy} (hI : Inv g e)
    (hP : PendingOK e) (gc : List Nat) : PendingOK (e.drained g gc) := by
  unfold V8EngineProxy.drained
  have hP1 := pendingOK_processHandleQueues hI hP 2
  split
  · rw [idle_of_no_weak g gc _ hP1.noWeak]; exact hP1
  · exact hP1

theorem withValue_isWeak (h : HandleProxy) (n : Int) (v : Option Value) :
    (h.withValue n v).IsWeak = false := by
  unfold HandleProxy.withValue HandleProxy.IsWeak
  cases v <;> rfl

theorem pendingOK_acquire {g : Statics} {e : V8EngineProxy} (hI : Inv g e) (hP : PendingOK e)
    (v : Option Value)
    (hfree : 0 ≤ HandleProxy.GetManagedObjectIDStatic v →
      e._Objects.getD (HandleProxy.GetManagedObjectIDStatic v).toNat none = none) :
    PendingOK (V8EngineProxy.acquire g e v).1 := by
  cases hlast : e._DisposedHandles.getLast? with
  | some id0 =>
    obtain ⟨h, hp, hdis, h0, heq⟩ := acquire_recycle g e v hI id0 hlast
    rw [heq]
    have hlt := getElem?_lt hp
    have hpn : id0.toNat ∉ e._HandlesPendingDisposal := by
      intro hc
      obtain ⟨x, hx, hxd, _⟩ := hP.queued _ hc
      rw [hp] at hx
      cases hx
      rw [hdis] at hxd
      cases hxd
    rw [SetHandle_eq (e.recycled id0.toNat h) id0.toNat v (h.reactivated e._EngineID)
      e._EngineID (recycled_getElem?_self e _ h h hp) (reactivated_isDisposed _ _)
      (hI.cleared _ h hp hdis) rfl]
    refine hP.carry (List.Sublist.refl _) hP.noWeakQueue ?_ ?_
    · intro q hq x hx
      have hne : q ≠ id0.toNat := fun hc => hpn (hc ▸ hq)
      refine ⟨x, ?_, rfl, rfl⟩
      show ((e.heap.set id0.toNat (h.reactivated e._EngineID)).set id0.toNat _)[q]? = some x
      rw [List.getElem?_set_ne (fun hc => hne hc.symm),
        List.getElem?_set_ne (fun hc => hne hc.symm)]
      exact hx
    · intro q x hx
      have hx' : ((e.heap.set id0.toNat (h.reactivated e._EngineID)).set id0.toNat
          ((h.reactivated e._EngineID).withValue (e.recycled id0.toNat h)._NextNonTemplateObjectID v))[q]?
          = some x := hx
      by_cases hq : q = id0.toNat
      · subst hq
        rw [List.getElem?_set_self (by simpa using hlt)] at hx'
        cases hx'
        exact withValue_isWeak _ _ _
      · rw [List.getElem?_set_ne (fun hc => hq hc.symm),
          List.getElem?_set_ne (fun hc => hq hc.symm)] at hx'
        exact hP.noWeak q x hx'
  | none =>
    have hnil : e._DisposedHandles = [] := List.getLast?_eq_none_iff.mp hlast
    rw [acquire_new g e v hnil]
    have hS := hI.allocated.setHandle e.heap.length _ (allocated_getElem?_self e)
      (ctor_isDisposed _ _) rfl v hfree
    apply pendingOK_processHandleQueues hS
    rw [SetHandle_eq e.allocated e.heap.length v _ e._EngineID (allocated_getElem?_self e)
      (ctor_isDisposed _ _) rfl rfl]
    refine hP.carry (List.Sublist.refl _) hP.noWeakQueue ?_ ?_
    · intro q hq x hx
      have hqlt := getElem?_lt hx
      refine ⟨x, ?_, rfl, rfl⟩
      show ((e.heap ++ [HandleProxy.ctor e._EngineID e._Handles.length]).set e.heap.length _)[q]?
        = some x
      rw [List.getElem?_set_ne (by omega), List.getElem?_append_left hqlt]
      exact hx
    · intro q x hx
      have hx' : ((e.heap ++ [HandleProxy.ctor e._EngineID e._Handles.length]).set
          e.heap.length ((HandleProxy.ctor e._EngineID e._Handles.length).withValue
            e.allocated._NextNonTemplateObjectID v))[q]? = some x := hx
      by_cases hq : q = e.heap.length
      · subst hq
        rw [List.getElem?_set_self (by simp)] at hx'
        cases hx'
        exact withValue_isWeak _ _ _
      · rw [List.getElem?_set_ne (fun hc => hq hc.symm), append_getElem?] at hx'
        simp only [hq, if_false] at hx'
        exact hP.noWeak q x hx'

theorem pendingOK_getHandleProxy {g : Statics} {e : V8EngineProxy} (hI : Inv g e)
    (hP : PendingOK e) (v : Option Value) (gc : List Nat) :
    PendingOK (e.GetHandleProxy g v gc).1 := by
  cases hl : e.lookup v with
  | some p =>
    rw [GetHandleProxy_found g e v gc p hl]
    exact hP
  | none =>
    rw [GetHandleProxy_not_found g e v gc hl]
    have hD := drains_drained hI gc
    exact pendingOK_acquire hD.inv (pendingOK_drained hI hP gc) v
      (fun h0 => hD.objsFree _ (lookup_none_free hl h0))

theorem pendingOK_queueHandleDisposal {g : Statics} {e : V8EngineProxy} (hI : Inv g e)
    (hP : PendingOK e) (p : Option Nat) : PendingOK (e.QueueHandleDisposal p) := by
  cases p with
  | none => exact hP
  | some p =>
    cases hp : e.heap[p]? with
    | none =>
      have : e.QueueHandleDisposal (some p) = e := by
        unfold V8EngineProxy.QueueHandleDisposal; simp [hp]
      rw [this]; exact hP
    | some h =>
      by_cases hc : h.IsDisposed = false ∧ h.IsDisposing = false
      · have hpn : p ∉ e._HandlesPendingDisposal := by
          intro hm
          obtain ⟨x, hx, _, hxg⟩ := hP.queued p hm
          rw [hp] at hx
          cases hx
          rw [hc.2] at hxg
          cases hxg
        rw [QueueHandleDisposal_eq hI p h hp hc.1 hc.2 hpn]
        refine ⟨?_, ?_, ?_, ?_⟩
        · show (e._HandlesPendingDisposal ++ [p]).Nodup
          rw [List.nodup_append]
          refine ⟨hP.nodup, List.nodup_singleton _, ?_⟩
          intro a ha hb
          have : a = p := by simpa using hb
          exact hpn (this ▸ ha)
        · intro q hq
          have hq' : q ∈ e._HandlesPendingDisposal ++ [p] := hq
          show ∃ x, (e.update p _).heap[q]? = some x ∧ _
          rw [V8EngineProxy.update_getElem?]
          by_cases hqp : q = p
          · subst hqp
            simp only [if_true, hp, Option.map_some']
            exact ⟨_, rfl, (isDisposed_or_16 h).trans hc.1, isDisposing_or_16 h⟩
          · simp only [hqp, if_false]
            rcases List.mem_append.mp hq' with hm | hm
            · exact hP.queued q hm
            · exact absurd (by simpa using hm) hqp
        · show (e.update p _)._HandlesToBeMadeWeak = []
          simpa using hP.noWeakQueue
        · intro q x hx
          have hx' : (e.update p (fun h0 => { h0 with _Disposed := h0._Disposed ||| 16 })).heap[q]?
              = some x := hx
          rw [V8EngineProxy.update_getElem?] at hx'
          split at hx'
          · simp only [hp, Option.map_some', Option.some.injEq] at hx'
            subst hx'
            exact hP.noWeak p h hp
          · exact hP.noWeak q x hx'
      · have : e.QueueHandleDisposal (some p) = e := by
          unfold V8EngineProxy.QueueHandleDisposal
          simp only [hp]
          cases hd : h.IsDisposed <;> cases hg : h.IsDisposing <;> simp_all
        rw [this]; exact hP

theorem pendingOK_queueMakeStrong {e : V8EngineProxy} (hP : PendingOK e) (p : Nat) :
    PendingOK (e.QueueMakeStrong p) := by
  unfold V8EngineProxy.QueueMakeStrong
  split
  · exact hP
  · split
    · have h1 := pendingOK_update_view hP p
        (fun h0 => { h0 with _Disposed := h0._Disposed ||| 8 })
        (fun h => ⟨isDisposed_of_core (core_or h 8 (by decide)), isDisposing_or_8 h,
          fun hw => hw⟩)
      exact ⟨h1.nodup, h1.queued, h1.noWeakQueue, h1.noWeak⟩
    · exact hP

theorem DisposalReachable.reachable {g : Statics} {e : V8EngineProxy}
    (hR : DisposalReachable g e) : Reachable g e := by
  induction hR with
  | init engineID hlive => exact Reachable.init engineID hlive
  | getHandleProxy v gc _ ih => exact Reachable.getHandleProxy v gc ih
  | queueHandleDisposal p _ ih => exact Reachable.queueHandleDisposal p ih
  | queueMakeStrong p _ ih => exact Reachable.queueMakeStrong p ih
  | dispose p _ _ ih => exact Reachable.dispose p ih
  | processHandleQueues loops _ ih => exact Reachable.processHandleQueues loops ih

theorem DisposalReachable.pendingOK {g : Statics} {e : V8EngineProxy}
    (hR : DisposalReachable g e) : PendingOK e := by
  induction hR with
  | init engineID hlive =>
    exact ⟨List.nodup_nil, fun p hp => by simp [V8EngineProxy.init] at hp, rfl,
      fun p h hp => by simp [V8EngineProxy.init] at hp⟩
  | getHandleProxy v gc hR ih => exact pendingOK_getHandleProxy hR.reachable.inv ih v gc
  | queueHandleDisposal p hR ih => exact pendingOK_queueHandleDisposal hR.reachable.inv ih p
  | queueMakeStrong p _ ih => exact pendingOK_queueMakeStrong ih p
  | dispose p hq hR ih => exact pendingOK_dispose hR.reachable.inv ih p hq
  | processHandleQueues loops hR ih =>
    exact pendingOK_processHandleQueues hR.reachable.inv ih loops

theorem afterNextIDs_next (e : V8EngineProxy) (k : Nat) :
    (e.afterNextIDs k)._NextNonTemplateObjectID = e._NextNonTemplateObjectID - (k : Int) := by
  induction k with
  | zero => simp [V8EngineProxy.afterNextIDs]
  | succ k ih =>
    simp only [V8EngineProxy.afterNextIDs, V8EngineProxy.GetNextNonTemplateObjectID, ih]
    push_cast
    omega

theorem update_next (e : V8EngineProxy) (p : Nat) (f : HandleProxy → HandleProxy) :
    (e.update p f)._NextNonTemplateObjectID = e._NextNonTemplateObjectID := by
  unfold V8EngineProxy.update
  split <;> rfl

theorem fresh_of_heap {e e' : V8EngineProxy} (hF : Fresh e) (hh : e'.heap = e.heap)
    (hn : e'._NextNonTemplateObjectID ≤ e._NextNonTemplateObjectID) : Fresh e' := by
  refine ⟨fun p h hp => ?_, fun p q x y hne hp hq hx => ?_⟩
  · rw [hh] at hp
    exact Int.lt_of_le_of_lt hn (hF.above p h hp)
  · rw [hh] at hp hq
    exact hF.distinct p q x y hne hp hq hx

theorem fresh_same {e e' : V8EngineProxy} (hF : Fresh e) (hh : e'.heap = e.heap)
    (hn : e'._NextNonTemplateObjectID = e._NextNonTemplateObjectID) : Fresh e' :=
  fresh_of_heap hF hh (Int.le_of_eq hn)

theorem getElem?_set_cases {α : Type} (l : List α) (p q : Nat) (x y : α)
    (hq : (l.set p x)[q]? = some y) : (q = p ∧ y = x) ∨ (q ≠ p ∧ l[q]? = some y) := by
  rw [List.getElem?_set] at hq
  split at hq
  · split at hq
    · cases hq
      exact Or.inl ⟨by omega, rfl⟩
    · cases hq
  · exact Or.inr ⟨by omega, hq⟩

/-- Writing a proxy whose id is above the counter, and held by no other proxy when below
`-1`, keeps the ids fresh. -/
theorem fresh_set {e e' : V8EngineProxy} (p : Nat) (x : HandleProxy)
    (hh : e'.heap = e.heap.set p x)
    (hn : e'._NextNonTemplateObjectID ≤ e._NextNonTemplateObjectID)
    (hx : e'._NextNonTemplateObjectID < x._ObjectID)
    (hu : x._ObjectID < -1 → ∀ (q : Nat) (y : HandleProxy), q ≠ p → e.heap[q]? = some y →
      y._ObjectID ≠ x._ObjectID)
    (hF : Fresh e) : Fresh e' := by
  refine ⟨fun q y hq => ?_, fun a b u w hne ha hb hu1 => ?_⟩
  · rw [hh] at hq
    rcases getElem?_set_cases _ _ _ _ _ hq with h1 | h1
    · rw [h1.2]; exact hx
    · exact Int.lt_of_le_of_lt hn (hF.above q y h1.2)
  · rw [hh] at ha hb
    rcases getElem?_set_cases _ _ _ _ _ ha with ha1 | ha1
    · rcases getElem?_set_cases _ _ _ _ _ hb with hb1 | hb1
      · exact absurd (ha1.1.trans hb1.1.symm) hne
      · rw [ha1.2] at hu1 ⊢
        exact fun heq => hu hu1 b w hb1.1 hb1.2 heq.symm
    · rcases getElem?_set_cases _ _ _ _ _ hb with hb1 | hb1
      · rw [hb1.2]
        by_cases hw : x._ObjectID < -1
        · exact hu hw a u ha1.1 ha1.2
        · omega
      · exact hF.distinct a b u w hne ha1.2 hb1.2 hu1

theorem fresh_update_core (e : V8EngineProxy) (p : Nat) (f : HandleProxy → HandleProxy)
    (hf : ∀ h, (f h).core = h.core) (hF : Fresh e) : Fresh (e.update p f) := by
  unfold V8EngineProxy.update
  split
  · rename_i h hh
    have ho : (f h)._ObjectID = h._ObjectID := by
      have := hf h
      simp only [HandleProxy.core, Prod.mk.injEq] at this
      exact this.2.1
    refine fresh_set p (f h) rfl (Int.le_refl _) ?_ ?_ hF
    · rw [ho]; exact hF.above p h hh
    · rw [ho]
      intro hlt q y hq hy heq
      exact hF.distinct p q h y (Ne.symm hq) hh hy hlt heq.symm
  · exact hF

/-- Writing a proxy without an identity id keeps the ids fresh. -/
theorem fresh_set_none {e e' : V8EngineProxy} (p : Nat) (x : HandleProxy)
    (hh : e'.heap = e.heap.set p x)
    (hn : e'._NextNonTemplateObjectID ≤ e._NextNonTemplateObjectID)
    (hlow : e._NextNonTemplateObjectID ≤ -2) (hx : x._ObjectID = -1) (hF : Fresh e) :
    Fresh e' :=
  fresh_set p x hh hn (by omega) (fun h => by omega) hF

theorem fresh_dispose {g : Statics} {e : V8EngineProxy} (hI : Inv g e) (p : Nat)
    (hF : Fresh e) : Fresh (HandleProxy.Dispose g e p).1 := by
  cases hp : e.heap[p]? with
  | none =>
    have : HandleProxy.Dispose g e p = (e, true) := Dispose_of_invalid g e p hp true
    rw [this]; exact hF
  | some h =>
  cases hdis : h.IsDisposed with
  | true =>
    have : HandleProxy.Dispose g e p = (e, true) := Dispose_of_disposed g e p h hp hdis true
    rw [this]; exact hF
  | false =>
  have hown := hI.owner p h hp hdis
  have hl : V8EngineProxy.IsDisposed g h._EngineID = false := by rw [hown.1]; exact hI.live
  have hr := ready_of_lt h (hI.ready p h hp)
  rw [Dispose_eq g e p h hp hdis hl hr, DisposeHandleProxy_eq g e p h hp hdis hl hr]
  exact fresh_set_none p h.clearedState rfl (Int.le_refl _) hI.next rfl hF

theorem fresh_processPendingDisposal {g : Statics} {e : V8EngineProxy} (hI : Inv g e)
    (hF : Fresh e) : Fresh (e.processPendingDisposal g) := by
  unfold V8EngineProxy.processPendingDisposal
  split
  · split
    · rename_i h hh
      have h1 := drains_setPending hI e._HandlesPendingDisposal.dropLast
        (fun q hq => hI.pendingValid q (mem_of_mem_dropLast hq))
      have h2 := drains_update_core h1.inv h
        (fun h0 => { h0 with _Disposed := clearBits h0._Disposed 16 }) core_clear16
      exact fresh_dispose h2.inv h
        (fresh_update_core _ h _ core_clear16 (fresh_same hF rfl rfl))
    · exact hF
  · exact hF

theorem fresh_makeWeak (e : V8EngineProxy) (p : Nat) (hF : Fresh e) :
    Fresh (HandleProxy.MakeWeak e p) :=
  fresh_update_core e p _ (core_setWeak true) hF

theorem fresh_makeStrong (e : V8EngineProxy) (p : Nat) (hF : Fresh e) :
    Fresh (HandleProxy.MakeStrong e p) :=
  fresh_update_core e p _ (core_setWeak false) hF

theorem fresh_processMakeWeak (e : V8EngineProxy) (hF : Fresh e) :
    Fresh e.processMakeWeak.1 := by
  unfold V8EngineProxy.processMakeWeak
  split
  · rename_i h hh
    exact fresh_makeWeak _ h
      (fresh_update_core _ h _ core_clear4_16 (fresh_same hF rfl rfl))
  · exact hF

theorem fresh_processMakeStrong (e : V8EngineProxy) (hF : Fresh e) :
    Fresh e.processMakeStrong.1 := by
  unfold V8EngineProxy.processMakeStrong
  split
  · rename_i h hh
    exact fresh_makeStrong _ h
      (fresh_update_core _ h _ core_clear8 (fresh_same hF rfl rfl))
  · exact hF

theorem fresh_processStep {g : Statics} {e : V8EngineProxy} (hI : Inv g e)
    (hF : Fresh e) : Fresh (e.processStep g).1 := by
  unfold V8EngineProxy.processStep
  exact fresh_processMakeStrong _
    (fresh_processMakeWeak _ (fresh_processPendingDisposal hI hF))

theorem fresh_processLoop {g : Statics} (n : Nat) :
    ∀ (d : Bool) (e : V8EngineProxy), Inv g e → Fresh e →
      Fresh (V8EngineProxy.processLoop g n d e) := by
  induction n with
  | zero => intro d e _ hF; exact hF
  | succ n ih =>
    intro d e hI hF
    unfold V8EngineProxy.processLoop
    split
    · exact ih _ _ (drains_processStep hI).inv (fresh_processStep hI hF)
    · exact hF

theorem fresh_processHandleQueues {g : Statics} {e : V8EngineProxy} (hI : Inv g e)
    (loops : Int) (hF : Fresh e) : Fresh (e.ProcessHandleQueues g loops) :=
  fresh_processLoop _ _ _ hI hF

theorem fresh_revivableCallback {g : Statics} {e : V8EngineProxy} (hI : Inv g e)
    (p : Nat) (hF : Fresh e) : Fresh (HandleProxy._RevivableCallback g e p) := by
  unfold HandleProxy._RevivableCallback
  split
  · exact hF
  · have h1 := drains_setScope hI
    simp only []
    split
    · have h2 := drains_update_core h1.inv p HandleProxy._ClearHandleValue
        core_clearHandleValue
      exact fresh_dispose h2.inv p
        (fresh_update_core _ p _ core_clearHandleValue
          (fresh_same hF rfl rfl))
    · exact fresh_makeStrong _ p (fresh_same hF rfl rfl)

theorem fresh_idleNotificationDeadline {g : Statics} (gc : List Nat) :
    ∀ e : V8EngineProxy, Inv g e → Fresh e → Fresh (e.IdleNotificationDeadline g gc) := by
  induction gc with
  | nil => intro e _ hF; exact hF
  | cons p gc ih =>
    intro e hI hF
    unfold V8EngineProxy.IdleNotificationDeadline
    simp only [List.foldl_cons]
    have hstep : Drains g e
        (match e.heap[p]? with
          | some h => if h.IsWeak then HandleProxy._RevivableCallback g e p else e
          | none => e) ∧
        Fresh (match e.heap[p]? with
          | some h => if h.IsWeak then HandleProxy._RevivableCallback g e p else e
          | none => e) := by
      split
      · split
        · exact ⟨drains_revivableCallback hI p, fresh_revivableCallback hI p hF⟩
        · exact ⟨Drains.same hI, hF⟩
      · exact ⟨Drains.same hI, hF⟩
    exact ih _ hstep.1.inv hstep.2

theorem fresh_drained {g : Statics} {e : V8EngineProxy} (hI : Inv g e) (gc : List Nat)
    (hF : Fresh e) : Fresh (e.drained g gc) := by
  unfold V8EngineProxy.drained
  have h1 := drains_processHandleQueues hI 2
  have d1 := fresh_processHandleQueues hI 2 hF
  split
  · exact fresh_idleNotificationDeadline gc _ h1.inv d1
  · exact d1

/-- An id of the host, the next id of the counter, or an id above the counter that no other
proxy holds, keeps the ids fresh. -/
theorem fresh_setManagedObjectID (e : V8EngineProxy) (p : Nat) (id : Int)
    (hlow : e._NextNonTemplateObjectID ≤ -2)
    (hid : -1 ≤ id ∨ (e._NextNonTemplateObjectID < id ∧
      ∀ (q : Nat) (y : HandleProxy), q ≠ p → e.heap[q]? = some y → y._ObjectID ≠ id))
    (hF : Fresh e) :
    Fresh (HandleProxy.SetManagedObjectID e p id).1 := by
  cases hp : e.heap[p]? with
  | none => rw [SetManagedObjectID_of_invalid e p id hp]; exact hF
  | some h =>
    cases hx : h._EngineProxy with
    | none => rw [SetManagedObjectID_of_detached e p id h hp hx]; exact hF
    | some x =>
      rw [SetManagedObjectID_eq e p id h x hp hx]
      by_cases h1 : id = -1
      · refine fresh_set p _ rfl ?_ ?_ ?_ hF
        · simp only [h1, if_true]; omega
        · simp only [h1, if_true]; omega
        · simp only [h1, if_true]
          intro _ q y _ hy
          have := hF.above q y hy
          omega
      · refine fresh_set p _ rfl ?_ ?_ ?_ hF
        · simp only [h1, if_false]; omega
        · simp only [h1, if_false]
          rcases hid with hid | hid
          · omega
          · exact hid.1
        · simp only [h1, if_false]
          intro hlt
          rcases hid with hid | hid
          · omega
          · exact hid.2

theorem fresh_getManagedObjectID (e : V8EngineProxy) (p : Nat)
    (hlow : e._NextNonTemplateObjectID ≤ -2)
    (hv : ∀ h : HandleProxy, e.heap[p]? = some h →
      -1 ≤ HandleProxy.GetManagedObjectIDStatic (h._Handle.map (fun x => x.value)))
    (hF : Fresh e) : Fresh (HandleProxy.GetManagedObjectID e p).1 := by
  unfold HandleProxy.GetManagedObjectID
  cases hp : e.heap[p]? with
  | none => simpa [hp] using hF
  | some h =>
    simp only [hp]
    split_ifs
    · exact hF
    · exact hF
    · exact fresh_setManagedObjectID e p _ hlow (Or.inl (hv h hp)) hF

theorem pulledID_cases (next : Int) (v : Option Value)
    (hv : -1 ≤ HandleProxy.GetManagedObjectIDStatic v) :
    (HandleProxy.pulledID next v = next ∧ (HandleProxy.classify v).2 = true ∧
        HandleProxy.GetManagedObjectIDStatic v = -1) ∨
      (-1 ≤ HandleProxy.pulledID next v ∧
        ¬ ((HandleProxy.classify v).2 = true ∧ HandleProxy.GetManagedObjectIDStatic v = -1)) := by
  unfold HandleProxy.pulledID
  cases hc : (HandleProxy.classify v).2 with
  | false => right; simp
  | true =>
    by_cases hs : HandleProxy.GetManagedObjectIDStatic v = -1
    · left; simp [hs]
    · right; simp [hs]; omega

/-- The function `SetHandle` on a live proxy without an id keeps the ids fresh when the value
carries an id of the host or none. -/
theorem fresh_setHandle (e : V8EngineProxy) (p : Nat) (h : HandleProxy) (x : Int)
    (hp : e.heap[p]? = some h) (hd : h.IsDisposed = false) (ho : h._ObjectID = -1)
    (hx : h._EngineProxy = some x) (v : Option Value)
    (hlow : e._NextNonTemplateObjectID ≤ -2)
    (hv : -1 ≤ HandleProxy.GetManagedObjectIDStatic v) (hF : Fresh e) :
    Fresh (HandleProxy.SetHandle e p v) := by
  rw [SetHandle_eq e p v h x hp hd ho hx]
  have hw : (h.withValue e._NextNonTemplateObjectID v)._ObjectID =
      HandleProxy.pulledID e._NextNonTemplateObjectID v := rfl
  rcases pulledID_cases e._NextNonTemplateObjectID v hv with hc | hc
  · refine fresh_set p _ rfl ?_ ?_ ?_ hF
    · simp only [hc.2.1, hc.2.2, and_self, if_true]; omega
    · rw [hw, hc.1]
      simp only [hc.2.1, hc.2.2, and_self, if_true]; omega
    · rw [hw, hc.1]
      intro _ q y _ hy
      have := hF.above q y hy
      omega
  · refine fresh_set p _ rfl ?_ ?_ ?_ hF
    · simp only [hc.2, if_false]; omega
    · rw [hw]
      simp only [hc.2, if_false]; omega
    · rw [hw]
      intro hlt
      omega

theorem fresh_acquire {g : Statics} {e : V8EngineProxy} (hI : Inv g e) (v : Option Value)
    (hfree : 0 ≤ HandleProxy.GetManagedObjectIDStatic v →
      e._Objects.getD (HandleProxy.GetManagedObjectIDStatic v).toNat none = none)
    (hv : -1 ≤ HandleProxy.GetManagedObjectIDStatic v)
    (hF : Fresh e) : Fresh (V8EngineProxy.acquire g e v).1 := by
  cases hlast : e._DisposedHandles.getLast? with
  | some id0 =>
    obtain ⟨h, hp, hdis, h0, heq⟩ := acquire_recycle g e v hI id0 hlast
    rw [heq]
    have hoid : (h.reactivated e._EngineID)._ObjectID = -1 := hI.cleared _ h hp hdis
    refine fresh_setHandle _ id0.toNat (h.reactivated e._EngineID) e._EngineID
      (recycled_getElem?_self e id0.toNat h h hp) (reactivated_isDisposed _ _) hoid rfl v
      hI.next hv ?_
    exact fresh_set_none id0.toNat (h.reactivated e._EngineID) rfl (Int.le_refl _) hI.next
      hoid hF
  | none =>
    have hnil : e._DisposedHandles = [] := List.getLast?_eq_none_iff.mp hlast
    rw [acquire_new g e v hnil]
    have hS := hI.allocated.setHandle e.heap.length _ (allocated_getElem?_self e)
      (ctor_isDisposed _ _) rfl v hfree
    apply fresh_processHandleQueues hS
    refine fresh_setHandle _ e.heap.length _ e._EngineID (allocated_getElem?_self e)
      (ctor_isDisposed _ _) rfl rfl v hI.next hv ?_
    have hnew : ∀ (q : Nat) (y : HandleProxy), e.allocated.heap[q]? = some y →
        y._ObjectID = -1 ∨ e.heap[q]? = some y := by
      intro q y hq
      have hq' : (e.heap ++ [HandleProxy.ctor e._EngineID e._Handles.length])[q]? = some y := hq
      rw [append_getElem?] at hq'
      split at hq'
      · cases hq'; exact Or.inl rfl
      · exact Or.inr hq'
    have hnext : e.allocated._NextNonTemplateObjectID = e._NextNonTemplateObjectID := rfl
    have hlow := hI.next
    refine ⟨fun q y hq => ?_, fun a b u w hne ha hb hu => ?_⟩
    · rw [hnext]
      rcases hnew q y hq with h1 | h1
      · omega
      · exact hF.above q y h1
    · rcases hnew a u ha with h1 | h1
      · omega
      · rcases hnew b w hb with h2 | h2
        · omega
        · exact hF.distinct a b u w hne h1 h2 hu

theorem fresh_getHandleProxy {g : Statics} {e : V8EngineProxy} (hI : Inv g e)
    (v : Option Value) (gc : List Nat) (hv : -1 ≤ HandleProxy.GetManagedObjectIDStatic v)
    (hF : Fresh e) : Fresh (e.GetHandleProxy g v gc).1 := by
  cases hl : e.lookup v with
  | some p =>
    rw [GetHandleProxy_found g e v gc p hl]
    exact hF
  | none =>
    rw [GetHandleProxy_not_found g e v gc hl]
    have hD := drains_drained hI gc
    exact fresh_acquire hD.inv v (fun h0 => hD.objsFree _ (lookup_none_free hl h0)) hv
      (fresh_drained hI gc hF)

theorem fresh_connectObject {g : Statics} {e : V8EngineProxy} (hI : Inv g e)
    (p : Nat) (id : Int) (hid : -1 ≤ id) (hF : Fresh e) :
    Fresh (Exports.ConnectObject g e p id) := by
  unfold Exports.ConnectObject
  cases hp : e.heap[p]? with
  | none => simp only [hp]; exact hF
  | some h =>
    simp only [hp]
    cases hE : h.EngineProxy g with
    | none => exact hF
    | some x =>
      simp only []
      have hf : ∀ (n : Int) (h0 : HandleProxy),
          (match h0._Handle with
            | some pv =>
              if pv.value.IsObject
              then { h0 with _Handle := some { pv with value := pv.value.withManagedObjectID n } }
              else h0
            | none => h0 : HandleProxy).core = h0.core := by
        intro n h0
        cases h0._Handle with
        | none => rfl
        | some pv =>
          simp only []
          split <;> rfl
      have hlow := hI.next
      by_cases h1 : id = -1
      · simp only [h1, if_true, V8EngineProxy.GetNextNonTemplateObjectID]
        have hF1 : Fresh ({ e with _NextNonTemplateObjectID := e._NextNonTemplateObjectID - 1 }
            : V8EngineProxy) := fresh_of_heap hF rfl (Int.sub_le_self _ (by decide))
        have hF2 := fresh_update_core _ p _ (hf e._NextNonTemplateObjectID) hF1
        refine fresh_setManagedObjectID _ p _ ?_ (Or.inr ⟨?_, ?_⟩) hF2
        · rw [update_next]
          show e._NextNonTemplateObjectID - 1 ≤ -2
          omega
        · rw [update_next]
          show e._NextNonTemplateObjectID - 1 < e._NextNonTemplateObjectID
          omega
        · intro q y hq hy
          rw [V8EngineProxy.update_getElem?_ne _ _ _ _ hq] at hy
          have := hF.above q y hy
          omega
      · simp only [h1, if_false]
        have hF2 := fresh_update_core _ p _ (hf id) hF
        refine fresh_setManagedObjectID _ p _ ?_ (Or.inl hid) hF2
        rw [update_next]
        exact hlow

theorem getManagedObjectID_keeps {g : Statics} {e : V8EngineProxy} (hI : Inv g e)
    (hD : e.Detached) (p : Nat)
    (hunused : ∀ h : HandleProxy, e.heap[p]? = some h →
      0 ≤ HandleProxy.GetManagedObjectIDStatic (h._Handle.map (fun x => x.value)) →
      e.Unused p (HandleProxy.GetManagedObjectIDStatic (h._Handle.map (fun x => x.value)))) :
    Inv g (HandleProxy.GetManagedObjectID e p).1 ∧
      (HandleProxy.GetManagedObjectID e p).1.Detached := by
  refine ⟨?_, detached_getManagedObjectID e p hD⟩
  unfold HandleProxy.GetManagedObjectID
  cases hp : e.heap[p]? with
  | none => simpa [hp] using hI
  | some h =>
    simp only [hp]
    split_ifs
    · exact hI
    · exact hI
    · exact (setManagedObjectID_keeps hI hD p _ (hunused h hp)).1

/-- Every state of `NativeReachable` satisfies the registry invariant and has fresh ids. -/
theorem NativeReachable.fresh {g : Statics} {e : V8EngineProxy} (hR : NativeReachable g e) :
    Inv g e ∧ e.Detached ∧ Fresh e := by
  induction hR with
  | init engineID hlive =>
    exact ⟨Inv.init engineID hlive, fun p h hp => by simp [V8EngineProxy.init] at hp,
      ⟨fun p h hp => by simp [V8EngineProxy.init] at hp,
        fun p q x y _ hp => by simp [V8EngineProxy.init] at hp⟩⟩
  | getHandleProxy v gc hv _ ih =>
    exact ⟨(ih.1.getHandleProxy v gc).1, detached_getHandleProxy ih.1 v gc ih.2.1,
      fresh_getHandleProxy ih.1 v gc hv ih.2.2⟩
  | getManagedObjectID p hv hunused _ ih =>
    have k := getManagedObjectID_keeps ih.1 ih.2.1 p hunused
    exact ⟨k.1, k.2, fresh_getManagedObjectID _ p ih.1.next hv ih.2.2⟩
  | setManagedObjectID p id hid hunused _ ih =>
    have k := setManagedObjectID_keeps ih.1 ih.2.1 p id hunused
    exact ⟨k.1, k.2, fresh_setManagedObjectID _ p id ih.1.next (Or.inl hid) ih.2.2⟩
  | connectObject p id hid hunused _ ih =>
    have k := connectObject_keeps ih.1 ih.2.1 p id hunused
    exact ⟨k.1, k.2, fresh_connectObject ih.1 p id hid ih.2.2⟩
  | dispose p _ ih =>
    exact ⟨(drains_dispose ih.1 p).inv, detached_dispose ih.1 p ih.2.1,
      fresh_dispose ih.1 p ih.2.2⟩
  | processHandleQueues loops _ ih =>
    exact ⟨(drains_processHandleQueues ih.1 loops).inv,
      detached_processHandleQueues ih.1 loops ih.2.1,
      fresh_processHandleQueues ih.1 loops ih.2.2⟩

theorem getManagedObjectID_of_pulled (e : V8EngineProxy) (p : Nat) (h : HandleProxy)
    (hp : e.heap[p]? = some h) (hd : h.IsDisposed = false) (ho : h._ObjectID < -1) :
    HandleProxy.GetManagedObjectID e p = (e, h._ObjectID) := by
  unfold HandleProxy.GetManagedObjectID
  simp only [hp, hd, Bool.false_eq_true, if_false]
  rw [if_pos (Or.inl ho)]

/-! ## The claims -/

set_option maxRecDepth 100000

/-- C1. In every reachable state the free-list `_DisposedHandles` holds no slot id twice,
and every id in it is the slot id of a proxy of `_Handles` whose Disposed bit is set, so
that the slot `GetHandleProxy` recycles is never one whose proxy is in use. -/
theorem C1_free_list_invariant (g : Statics) (e : V8EngineProxy) (hR : Reachable g e) :
    e._DisposedHandles.Nodup ∧
    ∀ id ∈ e._DisposedHandles, ∃ (p : Nat) (h : HandleProxy),
      0 ≤ id ∧ e._Handles[id.toNat]? = some p ∧ e.heap[p]? = some h ∧ h._ID = id ∧
      h.IsDisposed = true ∧ h.IsInUse = false := by
  have hI := hR.inv
  refine ⟨hI.freeNodup, ?_⟩
  intro id hid
  obtain ⟨h0, h, hp, hd⟩ := hI.freeDisposed id hid
  refine ⟨id.toNat, h, h0, ?_, hp, ?_, hd, not_inUse_of_disposed h hd⟩
  · rw [hI.handles]; exact range_getElem? _ _ (getElem?_lt hp)
  · rw [hI.ids _ h hp]; omega

/-- C1, witness: the engine in which the proxy of `objectA` was disposed. -/
theorem C1_free_list_invariant_witness :
    Reachable Example.statics (HandleProxy.Dispose Example.statics Example.wrappedA 0).1 ∧
    ((HandleProxy.Dispose Example.statics Example.wrappedA 0).1._DisposedHandles.Nodup ∧
    ∀ id ∈ (HandleProxy.Dispose Example.statics Example.wrappedA 0).1._DisposedHandles,
      ∃ (p : Nat) (h : HandleProxy),
      0 ≤ id ∧
      (HandleProxy.Dispose Example.statics Example.wrappedA 0).1._Handles[id.toNat]? = some p ∧
      (HandleProxy.Dispose Example.statics Example.wrappedA 0).1.heap[p]? = some h ∧
      h._ID = id ∧ h.IsDisposed = true ∧ h.IsInUse = false) :=
  ⟨Reachable.dispose 0 (Reachable.getHandleProxy _ _ (Reachable.init 0 (by decide))),
   C1_free_list_invariant _ _
    (Reachable.dispose 0 (Reachable.getHandleProxy _ _ (Reachable.init 0 (by decide))))⟩

/-- C2, as stated, fails: the proxy of a template object whose disposal was queued is found
again through the identity table and returned with its queued-for-disposal bit set, so it
is not in use. -/
theorem C2_counterexample :
    Reachable Example.statics Example.queuedT ∧
    (Example.queuedT.GetHandleProxy Example.statics (some Example.templateObject) []).2
      = .ok 0 ∧
    ((Example.queuedT.GetHandleProxy Example.statics (some Example.templateObject) []).1.heap[0]?).map
      HandleProxy.IsInUse = some false :=
  ⟨Reachable.queueHandleDisposal _ (Reachable.getHandleProxy _ _ (Reachable.init 0 (by decide))),
    rfl, by decide⟩

/-- C2, amended. In every reachable state `GetHandleProxy` returns a proxy, and that proxy
is not disposed; when the value has no proxy in the identity table (the slot is recycled
or newly allocated) its `_Disposed` is 0, so it is in use; when the value has one, that
proxy is returned as it is and the engine state does not change. -/
theorem C2_getHandleProxy_returns_live_proxy (g : Statics) (e : V8EngineProxy)
    (hR : Reachable g e) (v : Option Value) (gc : List Nat) :
    ∃ (p : Nat) (h : HandleProxy),
      (e.GetHandleProxy g v gc).2 = .ok p ∧
      (e.GetHandleProxy g v gc).1.heap[p]? = some h ∧ h.IsDisposed = false ∧
      (e.lookup v = none → h._Disposed = 0 ∧ h.IsInUse = true) ∧
      (∀ q, e.lookup v = some q → p = q ∧ (e.GetHandleProxy g v gc).1 = e) := by
  have hI := hR.inv
  cases hl : e.lookup v with
  | some q =>
    rw [GetHandleProxy_found g e v gc q hl]
    obtain ⟨_, _, hent⟩ := entry_of_lookup hl
    obtain ⟨h, hh, hd, _⟩ := hI.objsSound _ q hent
    refine ⟨q, h, rfl, hh, hd, ?_, ?_⟩
    · intro hx; cases hx
    · intro q' hq'
      cases hq'
      exact ⟨rfl, rfl⟩
  | none =>
    rw [GetHandleProxy_not_found g e v gc hl]
    have hD := drains_drained hI gc
    obtain ⟨p, h, hok, hh, hz, _⟩ := acquire_result hD.inv v
      (fun h0 => hD.objsFree _ (lookup_none_free hl h0))
    refine ⟨p, h, hok, hh, not_disposed_of_zero h hz, fun _ => ⟨hz, inUse_of_zero h hz⟩, ?_⟩
    intro q hq
    cases hq

/-- C2, witness: wrapping `objectA` on the fresh engine 0. -/
theorem C2_getHandleProxy_returns_live_proxy_witness :
    Reachable Example.statics (V8EngineProxy.init 0) ∧
    ∃ (p : Nat) (h : HandleProxy),
      ((V8EngineProxy.init 0).GetHandleProxy Example.statics (some Example.objectA) []).2
        = .ok p ∧
      ((V8EngineProxy.init 0).GetHandleProxy Example.statics (some Example.objectA) []).1.heap[p]?
        = some h ∧ h.IsDisposed = false ∧
      ((V8EngineProxy.init 0).lookup (some Example.objectA) = none →
        h._Disposed = 0 ∧ h.IsInUse = true) ∧
      (∀ q, (V8EngineProxy.init 0).lookup (some Example.objectA) = some q → p = q ∧
        ((V8EngineProxy.init 0).GetHandleProxy Example.statics (some Example.objectA) []).1
          = V8EngineProxy.init 0) :=
  ⟨Reachable.init 0 (by decide),
    C2_getHandleProxy_returns_live_proxy _ _ (Reachable.init 0 (by decide)) _ _⟩

/-- C3. When the identity id `i` of the value lies in the identity table and `_Objects[i]`
is the proxy `p`, `GetHandleProxy` returns `p` and the engine state (slot array, free-list,
identity table, queues, proxies) is the one it started from. -/
theorem C3_getHandleProxy_recognized (g : Statics) (e : V8EngineProxy) (v : Option Value)
    (gc : List Nat) (i : Int) (p : Nat)
    (hid : HandleProxy.GetManagedObjectIDStatic v = i) (h0 : 0 ≤ i)
    (hlt : i < (e._Objects.length : Int)) (hobj : e._Objects[i.toNat]? = some (some p)) :
    e.GetHandleProxy g v gc = (e, .ok p) := by
  subst hid
  exact GetHandleProxy_found g e v gc p (lookup_of_entry h0 hobj)

/-- C3, witness: the template object with identity id 5 in the engine that wrapped it. -/
theorem C3_getHandleProxy_recognized_witness :
    HandleProxy.GetManagedObjectIDStatic (some Example.templateObject) = 5 ∧
    (0 : Int) ≤ 5 ∧ (5 : Int) < (Example.wrappedT._Objects.length : Int) ∧
    Example.wrappedT._Objects[(5 : Int).toNat]? = some (some 0) ∧
    Example.wrappedT.GetHandleProxy Example.statics (some Example.templateObject) []
      = (Example.wrappedT, .ok 0) :=
  ⟨by decide, by decide, by decide, by decide,
    C3_getHandleProxy_recognized Example.statics Example.wrappedT
      (some Example.templateObject) [] 5 0 (by decide) (by decide) (by decide) (by decide)⟩

/-- C4, as stated, fails: a plain object carries no identity id, so wrapping `objectA`
twice on a fresh engine gives slot id 0 and then slot id 1. -/
theorem C4_counterexample :
    ((V8EngineProxy.init 0).GetHandleProxy Example.statics (some Example.objectA) []).2
      = .ok 0 ∧
    (Example.wrappedA.heap[0]?).map (fun h => h._ID) = some 0 ∧
    (Example.wrappedA.GetHandleProxy Example.statics (some Example.objectA) []).2 = .ok 1 ∧
    ((Example.wrappedA.GetHandleProxy Example.statics (some Example.objectA) []).1.heap[1]?).map
      (fun h => h._ID) = some 1 :=
  ⟨rfl, by decide, rfl, by decide⟩

/-- C4, amended. For a value of an object kind (one for which `SetHandle` pulls the
identity) that carries a non-negative identity id, two calls of `GetHandleProxy` with
nothing in between return the same proxy, and the second call changes nothing. -/
theorem C4_same_proxy_for_identified_object (g : Statics) (e : V8EngineProxy)
    (hR : Reachable g e) (v : Option Value) (gc gc' : List Nat)
    (hc : (HandleProxy.classify v).2 = true)
    (h0 : 0 ≤ HandleProxy.GetManagedObjectIDStatic v) :
    ∃ p : Nat, (e.GetHandleProxy g v gc).2 = .ok p ∧
      (e.GetHandleProxy g v gc).1.GetHandleProxy g v gc'
        = ((e.GetHandleProxy g v gc).1, .ok p) := by
  have hI := hR.inv
  cases hl : e.lookup v with
  | some q =>
    rw [GetHandleProxy_found g e v gc q hl]
    exact ⟨q, rfl, GetHandleProxy_found g e v gc' q hl⟩
  | none =>
    rw [GetHandleProxy_not_found g e v gc hl]
    have hD := drains_drained hI gc
    obtain ⟨p, h, hok, _, _, hlook⟩ := acquire_result hD.inv v
      (fun h0 => hD.objsFree _ (lookup_none_free hl h0))
    exact ⟨p, hok, GetHandleProxy_found g _ v gc' p (hlook hc h0)⟩

/-- C4, witness: the template object with identity id 5 on the fresh engine 0. -/
theorem C4_same_proxy_for_identified_object_witness :
    Reachable Example.statics (V8EngineProxy.init 0) ∧
    (HandleProxy.classify (some Example.templateObject)).2 = true ∧
    0 ≤ HandleProxy.GetManagedObjectIDStatic (some Example.templateObject) ∧
    ∃ p : Nat,
      ((V8EngineProxy.init 0).GetHandleProxy Example.statics (some Example.templateObject) []).2
        = .ok p ∧
      ((V8EngineProxy.init 0).GetHandleProxy Example.statics
          (some Example.templateObject) []).1.GetHandleProxy Example.statics
          (some Example.templateObject) []
        = (((V8EngineProxy.init 0).GetHandleProxy Example.statics
            (some Example.templateObject) []).1, .ok p) :=
  ⟨Reachable.init 0 (by decide), by decide, by decide,
    C4_same_proxy_for_identified_object _ _ (Reachable.init 0 (by decide)) _ _ _
      (by decide) (by decide)⟩

/-- C5. `HandleProxy::Dispose` on a non-disposed, dispose-ready proxy of a live engine
returns true; afterwards the proxy is cleared and cached (`_Disposed = 3`, tag
`JSV_Uninitialized`, `_ObjectID = -1`, `_CLRTypeID = -1`, `_ManagedReference = 0`), the
identity-table entry at its former non-negative identity id is null, and the free-list is
the old one with the slot id appended once at the end. -/
theorem C5_dispose_ready_proxy (g : Statics) (e : V8EngineProxy) (p : Nat) (h : HandleProxy)
    (hp : e.heap[p]? = some h) (hd : h.IsDisposed = false)
    (hl : V8EngineProxy.IsDisposed g h._EngineID = false)
    (hr : h.IsDisposeReadyManagedSide = true) :
    (HandleProxy.Dispose g e p).2 = true ∧
    (∃ h', (HandleProxy.Dispose g e p).1.heap[p]? = some h' ∧ h'._Disposed = 3 ∧
      h'._Type = JSValueType.JSV_Uninitialized ∧ h'._ObjectID = -1 ∧ h'._CLRTypeID = -1 ∧
      h'._ManagedReference = 0 ∧ h'._ID = h._ID) ∧
    (0 ≤ h._ObjectID →
      (HandleProxy.Dispose g e p).1._Objects.getD h._ObjectID.toNat none = none) ∧
    (HandleProxy.Dispose g e p).1._DisposedHandles = e._DisposedHandles ++ [h._ID] := by
  have hlt := getElem?_lt hp
  rw [Dispose_eq g e p h hp hd hl hr, DisposeHandleProxy_eq g e p h hp hd hl hr]
  refine ⟨rfl, ⟨h.clearedState, ?_, rfl, rfl, rfl, rfl, rfl, rfl⟩, ?_, rfl⟩
  · show (e.heap.set p h.clearedState)[p]? = _
    rw [set_getElem? _ _ _ hlt]; simp
  · intro h0
    show (if _ then _ else _ : List (Option Nat)).getD _ none = none
    by_cases hlen : h._ObjectID < (e._Objects.length : Int)
    · have hlt2 : h._ObjectID.toNat < e._Objects.length := by omega
      simp [h0, hlen, List.getD_eq_getElem?_getD, List.getElem?_set, hlt2]
    · have hge : e._Objects.length ≤ h._ObjectID.toNat := by omega
      simp [hlen, List.getD_eq_getElem?_getD, List.getElem?_eq_none hge]

/-- C5, witness: disposing the proxy of the template object (identity id 5) in slot 0. -/
theorem C5_dispose_ready_proxy_witness :
    (Example.wrappedT.heap[0]?).map (fun h => (h.IsDisposed, h.IsDisposeReadyManagedSide,
      V8EngineProxy.IsDisposed Example.statics h._EngineID, h._ObjectID))
      = some (false, true, false, 5) ∧
    (HandleProxy.Dispose Example.statics Example.wrappedT 0).1._DisposedHandles = [0] ∧
    (HandleProxy.Dispose Example.statics Example.wrappedT 0).1._Objects.getD 5 none = none :=
  ⟨by decide,
    (C5_dispose_ready_proxy Example.statics Example.wrappedT 0
      (HandleProxy.withValue (HandleProxy.ctor 0 0) (-2) (some Example.templateObject))
      (by decide) (by decide) (by decide) (by decide)).2.2.2,
    (C5_dispose_ready_proxy Example.statics Example.wrappedT 0
      (HandleProxy.withValue (HandleProxy.ctor 0 0) (-2) (some Example.templateObject))
      (by decide) (by decide) (by decide) (by decide)).2.2.1 (by decide)⟩

/-- C6, as stated, fails: `Dispose` on a proxy the managed side still references
(`_ManagedReference = 2`, bits 2 and 4 clear) queues nothing; the pending-disposal queue
stays empty. -/
theorem C6_counterexample :
    (Example.trackedA.heap[0]?).map (fun h => (h.IsDisposed, h.IsDisposeReadyManagedSide,
      V8EngineProxy.IsDisposed Example.statics h._EngineID)) = some (false, false, false) ∧
    (HandleProxy.Dispose Example.statics Example.trackedA 0).1._HandlesPendingDisposal = [] ∧
    0 ∉ (HandleProxy.Dispose Example.statics Example.trackedA 0).1._HandlesPendingDisposal :=
  ⟨by decide, by decide, by decide⟩

/-- C6, amended. `HandleProxy::Dispose` on a non-disposed proxy of a live engine that is
not dispose-ready returns true and changes nothing: the proxy stays as it is, not disposed,
and no request is queued (the queues, the free-list and the identity table are those of
the state before). -/
theorem C6_dispose_not_ready_is_noop (g : Statics) (e : V8EngineProxy) (p : Nat)
    (h : HandleProxy) (hp : e.heap[p]? = some h) (hd : h.IsDisposed = false)
    (hl : V8EngineProxy.IsDisposed g h._EngineID = false)
    (hr : h.IsDisposeReadyManagedSide = false) :
    HandleProxy.Dispose g e p = (e, true) ∧
    (HandleProxy.Dispose g e p).1.heap[p]? = some h ∧
    (HandleProxy.Dispose g e p).1._HandlesPendingDisposal = e._HandlesPendingDisposal := by
  rw [Dispose_of_not_ready g e p h hp hd hl hr]
  exact ⟨rfl, hp, rfl⟩

/-- C6, witness: the proxy of `objectA` with a managed reference of 2. -/
theorem C6_dispose_not_ready_is_noop_witness :
    Example.trackedA.heap[0]? = some
      { HandleProxy.withValue (HandleProxy.ctor 0 0) (-2) (some Example.objectA) with
        _ManagedReference := 2 } ∧
    HandleProxy.Dispose Example.statics Example.trackedA 0 = (Example.trackedA, true) :=
  ⟨by decide,
    (C6_dispose_not_ready_is_noop Example.statics Example.trackedA 0
      { HandleProxy.withValue (HandleProxy.ctor 0 0) (-2) (some Example.objectA) with
        _ManagedReference := 2 }
      (by decide) (by decide) (by decide) (by decide)).1⟩

/-- C7, as stated, fails: `HandleProxy::Dispose` does not look at `_InCallbackScope`; with
the counter at 1 it disposes the (dispose-ready) proxy of `objectA` at once and pushes its
slot id on the free-list. -/
theorem C7_counterexample :
    Example.inCallbackA._InCallbackScope = 1 ∧
    (Example.inCallbackA.heap[0]?).map HandleProxy.IsDisposed = some false ∧
    ((HandleProxy.Dispose Example.statics Example.inCallbackA 0).1.heap[0]?).map
      HandleProxy.IsDisposed = some true ∧
    Example.inCallbackA._DisposedHandles = [] ∧
    (HandleProxy.Dispose Example.statics Example.inCallbackA 0).1._DisposedHandles = [0] ∧
    (HandleProxy.Dispose Example.statics Example.inCallbackA 0).1._HandlesPendingDisposal
      = [] :=
  ⟨by decide, by decide, by decide, by decide, by decide, by decide⟩

/-- C7, amended. While `_InCallbackScope` is positive, the exported `DisposeHandleProxy`
on a non-disposed proxy that is not yet queued only sets bit 16 of its `_Disposed` and
appends it to the pending-disposal queue (it is not appended when the last queued proxy
already has its slot id): the proxy stays non-disposed, the free-list and the identity
table are unchanged; and `ProcessHandleQueues` applies no queued disposal: the pending
queue, the free-list, the identity table and the Disposed bit of every proxy are
unchanged.  (`HandleProxy::Dispose` and `TryDispose` do not consult the counter.) -/
theorem C7_callback_scope_defers_disposal (g : Statics) (e : V8EngineProxy)
    (hs : 0 < e._InCallbackScope) :
    (∀ (p : Nat) (h : HandleProxy), e.heap[p]? = some h → h.IsDisposed = false →
      h.IsDisposing = false → (h.EngineProxy g).isSome = true →
      (Exports.DisposeHandleProxy g e (some p)).heap
          = e.heap.set p { h with _Disposed := h._Disposed ||| 16 } ∧
      ({ h with _Disposed := h._Disposed ||| 16 } : HandleProxy).IsDisposed = false ∧
      ({ h with _Disposed := h._Disposed ||| 16 } : HandleProxy).IsDisposing = true ∧
      (Exports.DisposeHandleProxy g e (some p))._DisposedHandles = e._DisposedHandles ∧
      (Exports.DisposeHandleProxy g e (some p))._Objects = e._Objects ∧
      ((Exports.DisposeHandleProxy g e (some p))._HandlesPendingDisposal
          = e._HandlesPendingDisposal ++ [p] ∨
        ((Exports.DisposeHandleProxy g e (some p))._HandlesPendingDisposal
            = e._HandlesPendingDisposal ∧
          ∃ last l, e._HandlesPendingDisposal.getLast? = some last ∧
            (Exports.DisposeHandleProxy g e (some p)).heap[last]? = some l ∧
            l._ID = h._ID))) ∧
    (∀ loops : Int,
      (e.ProcessHandleQueues g loops)._HandlesPendingDisposal = e._HandlesPendingDisposal ∧
      (e.ProcessHandleQueues g loops)._DisposedHandles = e._DisposedHandles ∧
      (e.ProcessHandleQueues g loops)._Objects = e._Objects ∧
      (e.ProcessHandleQueues g loops).heap.map HandleProxy.IsDisposed
        = e.heap.map HandleProxy.IsDisposed) := by
  constructor
  · intro p h hp hd hq hl
    rw [exported_dispose_in_scope g e p h hs hp hl]
    unfold V8EngineProxy.QueueHandleDisposal
    simp only [hp, hd, hq, Bool.not_false, Bool.and_self, if_true,
      update_eq_set e p _ h hp]
    refine ⟨?_, by rw [isDisposed_or_16]; exact hd, isDisposing_or_16 h, ?_, ?_, ?_⟩
    · split <;> rfl
    · split <;> rfl
    · split <;> rfl
    · split
      · left; rfl
      · rename_i hin
        right
        refine ⟨rfl, ?_⟩
        simp only [Bool.not_eq_true] at hin
        split at hin
        · rename_i last hlast
          split at hin
          · rename_i l hl2
            simp at hin
            exact ⟨last, l, hlast, hl2, hin⟩
          · simp at hin
        · simp at hin
  · intro loops
    have hq := quiet_processLoop g loops.toNat true e (by omega)
    exact ⟨hq.pending, hq.free, hq.objs, hq.disposed⟩

/-- C7, witness: the engine of `objectA` inside a callback scope. -/
theorem C7_callback_scope_defers_disposal_witness :
    (0 : Int) < Example.inCallbackA._InCallbackScope ∧
    (Exports.DisposeHandleProxy Example.statics Example.inCallbackA (some 0))._HandlesPendingDisposal
      = [0] ∧
    (Exports.DisposeHandleProxy Example.statics Example.inCallbackA (some 0))._DisposedHandles
      = Example.inCallbackA._DisposedHandles ∧
    (Example.inCallbackA.ProcessHandleQueues Example.statics 10)._DisposedHandles
      = Example.inCallbackA._DisposedHandles :=
  ⟨by decide, by decide,
    ((C7_callback_scope_defers_disposal Example.statics Example.inCallbackA
      (by decide)).1 0
      (HandleProxy.withValue (HandleProxy.ctor 0 0) (-2) (some Example.objectA))
      (by decide) (by decide) (by decide) (by decide)).2.2.2.1,
    ((C7_callback_scope_defers_disposal Example.statics Example.inCallbackA
      (by decide)).2 10).2.1⟩

/-- C8, as stated, fails in its last part: a value that is not an object carries no
identity, so the proxy that wrapped `number` had identity id `-1` and the proxy recycled
into its slot for `number2` has identity id `-1` again. -/
theorem C8_counterexample :
    (Example.wrappedNumber.heap[0]?).map (fun h => h._ObjectID) = some (-1) ∧
    Example.disposedNumber.lookup (some Example.number2) = none ∧
    (Example.disposedNumber.ProcessHandleQueues Example.statics 2)._DisposedHandles = [0] ∧
    (Example.disposedNumber.GetHandleProxy Example.statics (some Example.number2) []).2
      = .ok 0 ∧
    ((Example.disposedNumber.GetHandleProxy Example.statics
      (some Example.number2) []).1.heap[0]?).map (fun h => h._ObjectID) = some (-1) :=
  ⟨by decide, by decide, by decide, rfl, by decide⟩

/-- C8, amended. When the free-list is not empty after the first drain, `GetHandleProxy`
on a value without a proxy in the identity table returns the proxy whose slot id is the
last id of the free-list, removes that id from the free-list and allocates nothing;
the proxy is initialised again (`_Disposed = 0`, the tag of the value) and its identity id
is pulled anew from the value: the engine's next non-template id for an object without
identity, the identity of the value if it has one, `-1` for a value that is not an
object. -/
theorem C8_recycles_last_freed_slot (g : Statics) (e : V8EngineProxy) (hR : Reachable g e)
    (v : Option Value) (gc : List Nat) (hl : e.lookup v = none) (l : List Int) (id : Int)
    (hfree : (e.ProcessHandleQueues g 2)._DisposedHandles = l ++ [id]) :
    0 ≤ id ∧ (e.GetHandleProxy g v gc).2 = .ok id.toNat ∧
    (∃ h, (e.GetHandleProxy g v gc).1.heap[id.toNat]? = some h ∧ h._ID = id ∧
      h._Disposed = 0 ∧ h._Type = (HandleProxy.classify v).1 ∧
      h._ObjectID = HandleProxy.pulledID e._NextNonTemplateObjectID v) ∧
    (e.GetHandleProxy g v gc).1._DisposedHandles = l ∧
    (e.GetHandleProxy g v gc).1._Handles = e._Handles ∧
    (e.GetHandleProxy g v gc).1.heap.length = e.heap.length := by
  have hI := hR.inv
  have hD := drains_processHandleQueues (g := g) hI 2
  have hdr : e.drained g gc = e.ProcessHandleQueues g 2 := by
    unfold V8EngineProxy.drained
    simp [hfree]
  have hlast : (e.ProcessHandleQueues g 2)._DisposedHandles.getLast? = some id := by
    rw [hfree]; simp
  rw [GetHandleProxy_not_found g e v gc hl, hdr]
  obtain ⟨h, hp, hd, h0, heq⟩ := acquire_recycle g _ v hD.inv id hlast
  have hp' := recycled_getElem?_self _ _ h h hp
  have hlt := getElem?_lt hp'
  rw [heq, SetHandle_eq _ _ v _ (e.ProcessHandleQueues g 2)._EngineID hp'
    (reactivated_isDisposed _ _) (hD.inv.cleared _ h hp hd) rfl]
  refine ⟨h0, rfl, ⟨(h.reactivated (e.ProcessHandleQueues g 2)._EngineID).withValue
    ((e.ProcessHandleQueues g 2).recycled id.toNat h)._NextNonTemplateObjectID v,
    ?_, ?_, rfl, rfl, ?_⟩, ?_, ?_, ?_⟩
  · show (List.set _ _ _)[id.toNat]? = _
    rw [set_getElem? _ _ _ hlt]; simp
  · show h._ID = id
    rw [hD.inv.ids _ h hp]; omega
  · show HandleProxy.pulledID (e.ProcessHandleQueues g 2)._NextNonTemplateObjectID v = _
    rw [hD.next]
  · show (e.ProcessHandleQueues g 2)._DisposedHandles.dropLast = l
    rw [hfree]; simp
  · exact hD.handles
  · show (List.set _ _ _).length = _
    rw [List.length_set]
    show (List.set _ _ _).length = _
    rw [List.length_set]; exact hD.heapLen

/-- C8, witness: the scenario of the claim.  The proxy of object A in slot 0 is queued for
disposal inside a callback, `ProcessHandleQueues(10)` after the callback frees it, and
`GetHandleProxy` on object B gets slot 0; A had identity id `-2`, B has `-3`. -/
theorem C8_recycles_last_freed_slot_witness :
    Reachable Example.statics Example.freedA ∧
    Example.freedA.lookup (some Example.objectB) = none ∧
    (Example.freedA.ProcessHandleQueues Example.statics 2)._DisposedHandles = [] ++ [0] ∧
    (Example.wrappedA.heap[0]?).map (fun h => h._ObjectID) = some (-2) ∧
    ((Example.freedA.GetHandleProxy Example.statics (some Example.objectB) []).1.heap[0]?).map
      (fun h => h._ObjectID) = some (-3) ∧
    (Example.freedA.GetHandleProxy Example.statics (some Example.objectB) []).2
      = .ok (0 : Int).toNat ∧
    (Example.freedA.GetHandleProxy Example.statics (some Example.objectB) []).1._DisposedHandles
      = [] :=
  ⟨Example.freedA_reachable, by decide, by decide, by decide, by decide,
    (C8_recycles_last_freed_slot Example.statics Example.freedA Example.freedA_reachable
      (some Example.objectB) [] (by decide) [] 0 (by decide)).2.1,
    (C8_recycles_last_freed_slot Example.statics Example.freedA Example.freedA_reachable
      (some Example.objectB) [] (by decide) [] 0 (by decide)).2.2.2.1⟩

/-- C9. From a fresh live engine, any N >= 1 consecutive cycles of `GetHandleProxy` on a
value followed by `HandleProxy::Dispose` of the returned proxy leave `_Handles` with
exactly one slot, whatever the values and whatever the collector does. -/
theorem C9_wrap_dispose_cycles_use_one_slot (g : Statics) (engineID : Int)
    (hlive : V8EngineProxy.IsDisposed g engineID = false)
    (xs : List (Option Value × List Nat)) (hne : xs ≠ []) :
    (wrapDisposeCycles g (V8EngineProxy.init engineID) xs)._Handles.length = 1 := by
  cases xs with
  | nil => exact absurd rfl hne
  | cons x xs =>
    have h1 := cycle_of_init engineID hlive x
    have h2 := cycles_of_parked xs _ h1
    exact h2.oneSlot

/-- C9, witness: three cycles on engine 0, with a plain object, a template object and a
number. -/
theorem C9_wrap_dispose_cycles_use_one_slot_witness :
    V8EngineProxy.IsDisposed Example.statics 0 = false ∧
    [(some Example.objectA, ([] : List Nat)), (some Example.templateObject, []),
      (some Example.number, [])] ≠ [] ∧
    (wrapDisposeCycles Example.statics (V8EngineProxy.init 0)
      [(some Example.objectA, []), (some Example.templateObject, []),
        (some Example.number, [])])._Handles.length = 1 :=
  ⟨by decide, by decide,
    C9_wrap_dispose_cycles_use_one_slot Example.statics 0 (by decide)
      [(some Example.objectA, []), (some Example.templateObject, []),
        (some Example.number, [])] (by decide)⟩

/-- C10, the code at the failing input: the proxy is weak, not disposed and not
dispose-ready (`_ManagedReference = 2`), the host predicate answers true; after
`_RevivableCallback` the value handle is released and the tag is `JSV_Uninitialized`, but
`_Disposed` is still 0 and the free-list is empty: `Dispose()` tested
`IsDisposeReadyManagedSide()` again and did nothing. -/
theorem C10_revival_leaves_proxy_undisposed :
    (Example.weakTrackedA.heap[0]?).map
      (fun h => (h.IsWeak, h.IsDisposed, h.IsDisposeReadyManagedSide,
        V8EngineProxy.IsDisposed Example.statics h._EngineID))
      = some (true, false, false, false) ∧
    (Example.weakTrackedA._ManagedV8GarbageCollectionRequestCallback.map
      (fun callback => (Example.weakTrackedA.heap[0]?).map callback)) = some (some true) ∧
    ((HandleProxy._RevivableCallback Example.statics Example.weakTrackedA 0).heap[0]?).map
      (fun h => (h._Handle.isNone, h._Type, h._Disposed, h.IsDisposed))
      = some (true, JSValueType.JSV_Uninitialized, 0, false) ∧
    (HandleProxy._RevivableCallback Example.statics Example.weakTrackedA 0)._DisposedHandles
      = [] ∧
    (HandleProxy._RevivableCallback Example.statics
      Example.weakTrackedA 0)._HandlesPendingDisposal = [] :=
  ⟨by decide, by decide, by decide, by decide, by decide⟩

/-- C11: when the weak callback `_RevivableCallback` runs on a weak proxy that is not
dispose-ready and the host revival predicate is absent or answers false, the only change
is that the value of the proxy is strong again: `_Disposed`, type tag, identity id and the
value held are the same, and so are the free-list, the identity table, the queues and the
reentrancy counter. -/
theorem C11_refused_revival_restrengthens (g : Statics) (e : V8EngineProxy) (p : Nat)
    (h : HandleProxy) (hp : e.heap[p]? = some h) (hw : h.IsWeak = true)
    (hr : h.IsDisposeReadyManagedSide = false)
    (hc : ∀ callback, e._ManagedV8GarbageCollectionRequestCallback = some callback →
      callback h = false) :
    HandleProxy._RevivableCallback g e p = { e with heap := e.heap.set p h.strengthened } ∧
    h.strengthened.IsWeak = false ∧
    h.strengthened._Handle.map Persistent.value = h._Handle.map Persistent.value := by
  have hv : ∃ v, h._Handle = some v := by
    unfold HandleProxy.IsWeak at hw
    cases hh : h._Handle with
    | none => rw [hh] at hw; exact absurd hw (by decide)
    | some v => exact ⟨v, rfl⟩
  obtain ⟨v, hv⟩ := hv
  refine ⟨?_, by simp [HandleProxy.strengthened, HandleProxy.IsWeak, hv],
    by simp [HandleProxy.strengthened, hv]⟩
  unfold HandleProxy._RevivableCallback HandleProxy.MakeStrong
  cases hcase : e._ManagedV8GarbageCollectionRequestCallback with
  | none =>
    simp only [hp, hr, Bool.or_self, Bool.false_eq_true, if_false]
    rw [update_eq_set _ p _ h (by simpa using hp)]
    simp [hv, hcase, HandleProxy.strengthened]
  | some cb =>
    simp only [hp, hr, hc cb hcase, Bool.or_self, Bool.false_eq_true, if_false]
    rw [update_eq_set _ p _ h (by simpa using hp)]
    simp [hv, hcase, HandleProxy.strengthened]

/-- C11, on the engine of `refusingA`: the predicate answers false and the proxy with
`_ManagedReference = 2` is strong again. -/
theorem C11_refused_revival_restrengthens_witness :
    HandleProxy._RevivableCallback Example.statics Example.refusingA 0 =
      { Example.refusingA with
        heap := Example.refusingA.heap.set 0 Example.weakProxyA.strengthened } ∧
    Example.weakProxyA.strengthened.IsWeak = false ∧
    Example.weakProxyA.strengthened._Handle.map Persistent.value =
      Example.weakProxyA._Handle.map Persistent.value :=
  C11_refused_revival_restrengthens Example.statics Example.refusingA 0 Example.weakProxyA
    (by decide) (by decide) (by decide)
    (fun _ hcb => Option.some.inj hcb ▸ rfl)

/-- C12: on a proxy that is not disposed and whose engine is flagged as disposed,
`_Dispose` (with either argument, hence `Dispose` too) deletes the proxy, dispose-ready or
not, and returns false; nothing but the proxy changes: no id is pushed onto the
free-list, the identity table and the queues are as before. -/
theorem C12_dispose_after_engine_is_gone (g : Statics) (e : V8EngineProxy) (p : Nat)
    (h : HandleProxy) (registerDisposal : Bool)
    (hp : e.heap[p]? = some h) (hd : h.IsDisposed = false)
    (hg : V8EngineProxy.IsDisposed g h._EngineID = true) :
    HandleProxy._Dispose g e p registerDisposal =
      ({ e with heap := e.heap.set p h.deleted }, false) ∧
    HandleProxy.Dispose g e p = HandleProxy._Dispose g e p true := by
  refine ⟨?_, rfl⟩
  unfold HandleProxy._Dispose HandleProxy._DisposeWith
  simp only [hp, hd, hg, Bool.false_eq_true, if_false, if_true]
  rw [update_eq_set _ p _ h hp]
  rfl

/-- C12, on the proxy of `wrappedA` (neither queued nor weak) after engine 0 was
destroyed. -/
theorem C12_dispose_after_engine_is_gone_witness :
    HandleProxy._Dispose Example.staticsGone Example.wrappedA 0 true =
      ({ Example.wrappedA with heap := Example.wrappedA.heap.set 0 Example.proxyA.deleted },
        false) ∧
    HandleProxy.Dispose Example.staticsGone Example.wrappedA 0 =
      HandleProxy._Dispose Example.staticsGone Example.wrappedA 0 true :=
  C12_dispose_after_engine_is_gone Example.staticsGone Example.wrappedA 0 Example.proxyA true
    (by decide) (by decide) (by decide)

/-- C13: the exported `DisposeHandleProxy`, `MakeWeakHandle` and `MakeStrongHandle` leave
the whole engine state as it is (proxy fields, queues, free-list, identity table) when the
proxy is null, or when its engine id is negative or its engine is flagged as disposed.
They are total: no error is raised. -/
theorem C13_requests_without_engine_change_nothing (g : Statics) (e : V8EngineProxy)
    (handleProxy : Option Nat)
    (hgone : ∀ (p : Nat) (h : HandleProxy), handleProxy = some p → e.heap[p]? = some h →
      h._EngineID < 0 ∨ V8EngineProxy.IsDisposed g h._EngineID = true) :
    Exports.DisposeHandleProxy g e handleProxy = e ∧
    Exports.MakeWeakHandle g e handleProxy = e ∧
    Exports.MakeStrongHandle g e handleProxy = e := by
  unfold Exports.DisposeHandleProxy Exports.MakeWeakHandle Exports.MakeStrongHandle
  cases handleProxy with
  | none => exact ⟨rfl, rfl, rfl⟩
  | some p =>
    cases hp : e.heap[p]? with
    | none => simp [hp]
    | some h =>
      have hn : h.EngineProxy g = none := EngineProxy_of_gone g h (hgone p h rfl hp)
      simp [hp, hn]

/-- C13, on the proxy of `wrappedA` after engine 0 was destroyed. -/
theorem C13_requests_without_engine_change_nothing_witness :
    Exports.DisposeHandleProxy Example.staticsGone Example.wrappedA (some 0) = Example.wrappedA ∧
    Exports.MakeWeakHandle Example.staticsGone Example.wrappedA (some 0) = Example.wrappedA ∧
    Exports.MakeStrongHandle Example.staticsGone Example.wrappedA (some 0) = Example.wrappedA :=
  C13_requests_without_engine_change_nothing Example.staticsGone Example.wrappedA (some 0)
    (fun p h hp hh => by
      cases hp
      have : h = Example.proxyA := Option.some.inj (hh.symm.trans (by decide))
      subst this
      exact Or.inr (by decide))

/-- C19: `SetHandle` assigns the tag of the first check of its fixed order that the value
passes.  Hence, for a value that answers the checks as V8 values do: a boolean-object,
number-object or string-object is tagged `JSV_BoolObject`, `JSV_NumberObject` or
`JSV_StringObject`; a function, array, date or regexp is tagged `JSV_Function`,
`JSV_Array`, `JSV_Date` or `JSV_RegExp`; each of these passes the generic object check as
well and is not tagged `JSV_Object`; an int32 that is a number is tagged `JSV_Int32`. -/
theorem C19_first_matching_check_decides_tag (e : V8EngineProxy) (p : Nat) (h : HandleProxy)
    (v : Value) (hp : e.heap[p]? = some h) (hv : v.Coherent) :
    HandleProxy.tagAfterSetHandle e p (some v) =
      some (((HandleProxy.checks.find? (fun c => c.1 v)).map Prod.snd).getD .JSV_Undefined) ∧
    (v.IsBooleanObject = true →
      v.IsObject = true ∧ HandleProxy.tagAfterSetHandle e p (some v) = some .JSV_BoolObject) ∧
    (v.IsNumberObject = true →
      v.IsObject = true ∧ HandleProxy.tagAfterSetHandle e p (some v) = some .JSV_NumberObject) ∧
    (v.IsStringObject = true →
      v.IsObject = true ∧ HandleProxy.tagAfterSetHandle e p (some v) = some .JSV_StringObject) ∧
    (v.IsFunction = true →
      v.IsObject = true ∧ HandleProxy.tagAfterSetHandle e p (some v) = some .JSV_Function) ∧
    (v.IsArray = true →
      v.IsObject = true ∧ HandleProxy.tagAfterSetHandle e p (some v) = some .JSV_Array) ∧
    (v.IsDate = true →
      v.IsObject = true ∧ HandleProxy.tagAfterSetHandle e p (some v) = some .JSV_Date) ∧
    (v.IsRegExp = true →
      v.IsObject = true ∧ HandleProxy.tagAfterSetHandle e p (some v) = some .JSV_RegExp) ∧
    (v.IsInt32 = true → v.IsNumber = true →
      HandleProxy.tagAfterSetHandle e p (some v) = some .JSV_Int32) := by
  have hc := classify_of_coherent v hv
  have ho := hv.2.2.2.1
  rw [SetHandle_type e p (some v) h hp, classify_first_match v]
  rw [classify_first_match v] at hc
  refine ⟨rfl, ?_, ?_, ?_, ?_, ?_, ?_, ?_, ?_⟩
  · intro hb; exact ⟨ho (by simp [hb]), congrArg some (hc.1 hb)⟩
  · intro hb; exact ⟨ho (by simp [hb]), congrArg some (hc.2.1 hb)⟩
  · intro hb; exact ⟨ho (by simp [hb]), congrArg some (hc.2.2.1 hb)⟩
  · intro hb; exact ⟨ho (by simp [hb]), congrArg some (hc.2.2.2.1 hb)⟩
  · intro hb; exact ⟨ho (by simp [hb]), congrArg some (hc.2.2.2.2.1 hb)⟩
  · intro hb; exact ⟨ho (by simp [hb]), congrArg some (hc.2.2.2.2.2.1 hb)⟩
  · intro hb; exact ⟨ho (by simp [hb]), congrArg some (hc.2.2.2.2.2.2.1 hb)⟩
  · intro hi hn; exact congrArg some (hc.2.2.2.2.2.2.2.1 hi hn)

/-- C19, on the proxy of `wrappedA` and a function object. -/
theorem C19_first_matching_check_decides_tag_witness :
    HandleProxy.tagAfterSetHandle Example.wrappedA 0 (some Example.function) =
      some .JSV_Function :=
  ((C19_first_matching_check_decides_tag Example.wrappedA 0 Example.proxyA Example.function
    (by decide) (by decide)).2.2.2.2.1 rfl).2

/-- C20: `SetHandle` is total and tags `JSV_Undefined` an empty handle, the undefined
value, and every value that passes none of the checks boolean, boolean-object, int32,
number, number-object, string, string-object, date, array, regexp, null, function and
object (the value answering as V8 values do); whatever the handle, the tag assigned is
none of the four error tags, `JSV_Uninitialized` or `JSV_Script`. -/
theorem C20_unrecognized_value_tagged_undefined (e : V8EngineProxy) (p : Nat)
    (h : HandleProxy) (hp : e.heap[p]? = some h) :
    (∀ v : Value, v.Coherent → v.IsBoolean = false → v.IsBooleanObject = false →
      v.IsInt32 = false → v.IsNumber = false → v.IsNumberObject = false →
      v.IsString = false → v.IsStringObject = false → v.IsDate = false →
      v.IsArray = false → v.IsRegExp = false → v.IsNull = false → v.IsFunction = false →
      v.IsObject = false →
      HandleProxy.tagAfterSetHandle e p (some v) = some .JSV_Undefined) ∧
    HandleProxy.tagAfterSetHandle e p none = some .JSV_Undefined ∧
    (∀ v : Value, v.Coherent → v.IsUndefined = true →
      HandleProxy.tagAfterSetHandle e p (some v) = some .JSV_Undefined) ∧
    (∀ handle : Option Value, ∃ t, HandleProxy.tagAfterSetHandle e p handle = some t ∧
      t ∉ [JSValueType.JSV_ExecutionTerminated, .JSV_ExecutionError, .JSV_CompilerError,
        .JSV_InternalError, .JSV_Uninitialized, .JSV_Script]) := by
  refine ⟨?_, ?_, ?_, ?_⟩
  · intro v hv h1 h2 h3 h4 h5 h6 h7 h8 h9 h10 h11 h12 h13
    rw [SetHandle_type e p (some v) h hp,
      classify_of_unrecognized v hv h1 h2 h3 h4 h5 h6 h7 h8 h9 h10 h11 h12 h13]
  · rw [SetHandle_type e p none h hp]; rfl
  · intro v hv hu
    rw [SetHandle_type e p (some v) h hp, (classify_of_coherent v hv).2.2.2.2.2.2.2.2 hu]
  · intro handle
    exact ⟨_, SetHandle_type e p handle h hp, classify_no_error_tag handle⟩

/-- C20, on the proxy of `wrappedA` and a symbol. -/
theorem C20_unrecognized_value_tagged_undefined_witness :
    HandleProxy.tagAfterSetHandle Example.wrappedA 0 (some Example.symbol) =
      some .JSV_Undefined :=
  (C20_unrecognized_value_tagged_undefined Example.wrappedA 0 Example.proxyA
    (by decide)).1 Example.symbol (by decide) rfl rfl rfl rfl rfl rfl rfl rfl rfl rfl rfl rfl rfl

/-- C14: evidence against the code.  Engine 0 is flagged as disposed, and `GetHandleProxy`
on it (no proxy cached) does not raise "The engine is gone! Cannot create any
handles.": for every value it allocates a proxy and returns it, slot 0. -/
theorem C14_getHandleProxy_on_disposed_engine_returns_proxy :
    V8EngineProxy.IsDisposed Example.staticsGone (V8EngineProxy.init 0)._EngineID = true ∧
    ∀ (v : Option Value) (gc : List Nat),
      ((V8EngineProxy.init 0).GetHandleProxy Example.staticsGone v gc).2 = .ok 0 :=
  ⟨by decide, fun v gc => GetHandleProxy_of_init Example.staticsGone 0 v gc⟩

/-- C18: in every reachable state the proxy at index `i` of `_Handles` has slot id `i`.
`GetHandleProxy` leaves `_Handles` as it is or appends one proxy, whose id is the previous
length; `HandleProxy::Dispose` and `ProcessHandleQueues` leave `_Handles` as it is; and none of the
three changes the slot id of an existing proxy. -/
theorem C18_slot_id_is_index (g : Statics) (e : V8EngineProxy) (hR : Reachable g e) :
    (∀ (i p : Nat), e._Handles[i]? = some p →
      ∃ h, e.heap[p]? = some h ∧ h._ID = (i : Int)) ∧
    (∀ (v : Option Value) (gc : List Nat),
      ((e.GetHandleProxy g v gc).1._Handles = e._Handles ∨
        ∃ (p : Nat) (h : HandleProxy),
          (e.GetHandleProxy g v gc).1._Handles = e._Handles ++ [p] ∧
          (e.GetHandleProxy g v gc).1.heap[p]? = some h ∧
          h._ID = (e._Handles.length : Int)) ∧
      ∀ (q : Nat) (h h' : HandleProxy), e.heap[q]? = some h →
        (e.GetHandleProxy g v gc).1.heap[q]? = some h' → h'._ID = h._ID) ∧
    (∀ p : Nat,
      (HandleProxy.Dispose g e p).1._Handles = e._Handles ∧
      ∀ (q : Nat) (h h' : HandleProxy), e.heap[q]? = some h →
        (HandleProxy.Dispose g e p).1.heap[q]? = some h' → h'._ID = h._ID) ∧
    (∀ loops : Int,
      (e.ProcessHandleQueues g loops)._Handles = e._Handles ∧
      ∀ (q : Nat) (h h' : HandleProxy), e.heap[q]? = some h →
        (e.ProcessHandleQueues g loops).heap[q]? = some h' → h'._ID = h._ID) := by
  have hI := hR.inv
  have hids : ∀ (e' : V8EngineProxy), Inv g e' → ∀ (q : Nat) (h h' : HandleProxy),
      e.heap[q]? = some h → e'.heap[q]? = some h' → h'._ID = h._ID := by
    intro e' hI' q h h' hq hq'
    rw [hI.ids q h hq, hI'.ids q h' hq']
  refine ⟨?_, ?_, ?_, ?_⟩
  · intro i p hp
    rw [hI.handles] at hp
    have hlt : i < e.heap.length := by
      have := getElem?_lt hp
      simpa using this
    rw [range_getElem? _ _ hlt] at hp
    cases hp
    obtain ⟨h, hh⟩ : ∃ h, e.heap[i]? = some h := ⟨e.heap[i], by simp [hlt]⟩
    exact ⟨h, hh, hI.ids i h hh⟩
  · intro v gc
    have hI' := (hI.getHandleProxy v gc).1
    refine ⟨?_, hids _ hI'⟩
    rcases GetHandleProxy_heap_length hI v gc with hlen | hlen
    · left; rw [hI'.handles, hI.handles, hlen]
    · right
      have hlt : e.heap.length < (e.GetHandleProxy g v gc).1.heap.length := by omega
      obtain ⟨h, hh⟩ : ∃ h, (e.GetHandleProxy g v gc).1.heap[e.heap.length]? = some h :=
        ⟨(e.GetHandleProxy g v gc).1.heap[e.heap.length], by simp [hlt]⟩
      refine ⟨e.heap.length, h, ?_, hh, ?_⟩
      · rw [hI'.handles, hI.handles, hlen, List.range_succ]
      · rw [hI'.ids _ h hh, hI.handles]; simp
  · intro p
    have hD := drains_dispose hI p
    exact ⟨hD.handles, hids _ hD.inv⟩
  · intro loops
    have hD := drains_processHandleQueues hI loops
    exact ⟨hD.handles, hids _ hD.inv⟩

/-- C18, on the engine of `wrappedA`: its one proxy sits at index 0 and has slot id 0. -/
theorem C18_slot_id_is_index_witness :
    ∃ h, Example.wrappedA.heap[0]? = some h ∧ h._ID = ((0 : Nat) : Int) :=
  (C18_slot_id_is_index Example.statics Example.wrappedA
    (Reachable.getHandleProxy _ _ (Reachable.init 0 (by decide)))).1 0 0 (by decide)

/-- C15: after every sequence of constructions and destructions of engines, the `k`-th
engine constructed (counting from 0) has engine id `k` and the next constructor assigns
the number of engines constructed so far; every id handed out is an index inside
`_DisposedEngines`; an engine that is alive is not flagged (`IsDisposed` is false), an
engine that was destroyed is flagged in every state from then on, each id handed out
belongs to an engine that is alive or was destroyed, and `IsDisposed` is true for every
negative id. -/
theorem C15_engine_ids_and_disposed_flags (s : Process) (hR : s.Reachable) :
    (∀ (k : Nat) (id : Int), s.constructed[k]? = some id → id = (k : Int)) ∧
    (∀ capacity : Nat,
      (V8EngineProxy.ctor s.statics capacity).2._EngineID = (s.constructed.length : Int)) ∧
    (∀ id ∈ s.constructed, 0 ≤ id ∧ id.toNat < s.statics._DisposedEngines.length) ∧
    (∀ id ∈ s.constructed, id ∈ s.alive ∨ id ∈ s.destroyed) ∧
    (∀ id ∈ s.alive, V8EngineProxy.IsDisposed s.statics id = false) ∧
    (∀ id ∈ s.destroyed, V8EngineProxy.IsDisposed s.statics id = true) ∧
    (∀ id : Int, id < 0 → V8EngineProxy.IsDisposed s.statics id = true) := by
  have hI := hR.bookkeeping
  refine ⟨hI.ids, ?_, ?_, hI.accounted, ?_, ?_, ?_⟩
  · intro capacity
    rw [ctor_engineID, hI.next]
  · intro id hc
    obtain ⟨h0, hlt⟩ := mem_constructed hI hc
    refine ⟨h0, ?_⟩
    rcases hI.bound with hz | hb
    · omega
    · omega
  · intro id ha
    obtain ⟨hc, hnd⟩ := hI.alive id ha
    obtain ⟨h0, _⟩ := mem_constructed hI hc
    unfold V8EngineProxy.IsDisposed
    have h1 : decide (id < 0) = false := by simp; omega
    rw [h1, Bool.false_or]
    cases hf : s.statics._DisposedEngines.getD id.toNat false with
    | false => rfl
    | true =>
      have := hI.flagged _ hf
      rw [Int.toNat_of_nonneg h0] at this
      exact absurd this hnd
  · intro id hd
    unfold V8EngineProxy.IsDisposed
    rw [(hI.destroyed id hd).2, Bool.or_true]
  · intro id hneg
    unfold V8EngineProxy.IsDisposed
    simp [hneg]

/-- C15, on the process `Example.process`: engines 0 and 1 constructed, engine 0
destroyed; engine 1 is not flagged. -/
theorem C15_engine_ids_and_disposed_flags_witness :
    V8EngineProxy.IsDisposed Example.process.statics 1 = false :=
  (C15_engine_ids_and_disposed_flags Example.process
    (Process.Reachable.destroy (V8EngineProxy.init 0) (by decide)
      (Process.Reachable.construct 128 (by decide)
        (Process.Reachable.construct 128 (by decide) Process.Reachable.initial)))).2.2.2.2.1
    1 (by decide)

/-- C16, counterexample: the host connects the two proxies of `wrappedAB` to the same
identity id 7 through the exported `ConnectObject`; both proxies are not disposed and both
have `_ObjectID = 7`. -/
theorem C16_counterexample :
    Example.sharedID.heap.map (fun h => (h._ID, h.IsDisposed, h._ObjectID)) =
      [(0, false, 7), (1, false, 7)] := by
  decide

/-- C16, amended: in every state reached through `GetHandleProxy`, `HandleProxy::Dispose`,
`ProcessHandleQueues`, and `HandleProxy::SetManagedObjectID` and the exported `ConnectObject` called
with an id that no other non-disposed proxy holds, two non-disposed proxies with the same
non-negative identity id are one proxy: distinct non-disposed proxies differ in their
identity id when it is non-negative. -/
theorem C16_identity_has_one_proxy (g : Statics) (e : V8EngineProxy)
    (hR : IdentityReachable g e) (p q : Nat) (x y : HandleProxy)
    (hx : e.heap[p]? = some x) (hy : e.heap[q]? = some y)
    (hdx : x.IsDisposed = false) (hdy : y.IsDisposed = false) (h0 : 0 ≤ x._ObjectID)
    (hne : p ≠ q) : x._ObjectID ≠ y._ObjectID := by
  intro heq
  apply hne
  have hI := hR.registry.1
  have h1 := hI.objsComplete p x hx hdx h0
  have h2 := hI.objsComplete q y hy hdy (by rw [← heq]; exact h0)
  rw [← heq, h1] at h2
  simpa using h2

/-- C16, on the engine of `connectedAB`, whose proxies the host connected to the identity
ids 7 and 8. -/
theorem C16_identity_has_one_proxy_witness :
    Example.connectedProxyA._ObjectID ≠ Example.connectedProxyB._ObjectID :=
  C16_identity_has_one_proxy Example.statics Example.connectedAB
    (IdentityReachable.connectObject 1 8 (fun _ => unused_of_check (by decide))
      (IdentityReachable.connectObject 0 7 (fun _ => unused_of_check (by decide))
        (IdentityReachable.getHandleProxy _ _
          (IdentityReachable.getHandleProxy _ _ (IdentityReachable.init 0 (by decide))))))
    0 1 Example.connectedProxyA Example.connectedProxyB (by decide) (by decide) (by decide)
    (by decide) (by decide) (by decide)

/-- C17, counterexample: in the engine of `sharedID` the entry `_Objects[7]` refers to
proxy 1; `HandleProxy::Dispose` on proxy 0, which the host connected to the same id 7, nulls
that entry although proxy 1 is not disposed and keeps `_ObjectID = 7`. -/
theorem C17_counterexample :
    Example.sharedID._Objects[7]? = some (some 1) ∧
    (HandleProxy.Dispose Example.statics Example.sharedID 0).1._Objects[7]? = some none ∧
    (HandleProxy.Dispose Example.statics Example.sharedID 0).1.heap.map
      (fun h => (h._ID, h.IsDisposed, h._ObjectID)) = [(0, true, -1), (1, false, 7)] := by
  decide

/-- C17, amended: in every state reached through `GetHandleProxy`, `HandleProxy::Dispose`,
`ProcessHandleQueues`, and `HandleProxy::SetManagedObjectID` and the exported `ConnectObject` called
with an id that no other non-disposed proxy holds, each non-null entry `_Objects[i]` refers
to a non-disposed proxy whose identity id is `i`; no entry refers to a disposed proxy;
`HandleProxy::Dispose` on one proxy leaves the entries of the other proxies as they are, and so
does `ProcessHandleQueues` for the proxies that are not queued for disposal. -/
theorem C17_identity_table_entries_are_live (g : Statics) (e : V8EngineProxy)
    (hR : IdentityReachable g e) :
    (∀ (i p : Nat), e._Objects[i]? = some (some p) →
      ∃ h, e.heap[p]? = some h ∧ h.IsDisposed = false ∧ h._ObjectID = (i : Int)) ∧
    (∀ (i p : Nat) (h : HandleProxy), e.heap[p]? = some h → h.IsDisposed = true →
      e._Objects[i]? ≠ some (some p)) ∧
    (∀ (p q i : Nat), q ≠ p → e._Objects[i]? = some (some q) →
      (HandleProxy.Dispose g e p).1._Objects[i]? = some (some q)) ∧
    (∀ (loops : Int) (q i : Nat), q ∉ e._HandlesPendingDisposal →
      e._Objects[i]? = some (some q) →
      (e.ProcessHandleQueues g loops)._Objects[i]? = some (some q)) := by
  have hI := hR.registry.1
  refine ⟨hI.objsSound, ?_, ?_, ?_⟩
  · intro i p h hp hd hc
    obtain ⟨x, hx, hxd, _⟩ := hI.objsSound i p hc
    rw [hp] at hx
    cases hx
    rw [hd] at hxd
    cases hxd
  · intro p q i hne hq
    exact (keeps_dispose hI q p (fun hc => hne hc.symm)).objs i hq
  · intro loops q i hq hi
    exact (keeps_processHandleQueues hI q hq loops).objs i hi

/-- C17, on the engine of `connectedAB`. -/
theorem C17_identity_table_entries_are_live_witness :
    ∃ h, Example.connectedAB.heap[1]? = some h ∧ h.IsDisposed = false ∧
      h._ObjectID = ((8 : Nat) : Int) :=
  (C17_identity_table_entries_are_live Example.statics Example.connectedAB
    (IdentityReachable.connectObject 1 8 (fun _ => unused_of_check (by decide))
      (IdentityReachable.connectObject 0 7 (fun _ => unused_of_check (by decide))
        (IdentityReachable.getHandleProxy _ _
          (IdentityReachable.getHandleProxy _ _ (IdentityReachable.init 0 (by decide))))))).1
    8 1 (by decide)

/-- C23: evidence against the code.  In the engine of `disposedNumber` slot 0 is cached
(its id is in the free-list).  The destructor flags the engine and calls `_Dispose(false)`
on the proxy, which returns at its first test because the proxy is disposed: the proxy
is not freed. -/
theorem C23_destructor_leaves_cached_proxy_allocated :
    Example.disposedNumber._DisposedHandles = [0] ∧
    V8EngineProxy.IsDisposed (V8EngineProxy.dtor Example.statics Example.disposedNumber).1 0
      = true ∧
    (V8EngineProxy.dtor Example.statics Example.disposedNumber).2.heap.map
      (fun h => (h._ID, h.IsDisposed, h.freed)) = [(0, true, false)] := by
  decide

/-- C27: evidence against the code.  For an object without internal fields the static
`GetManagedObjectID` yields -1 whatever private property the object holds.  After
`ConnectObject(proxy, 7, null)` on the proxy of `wrappedA` the identity table refers to
the proxy at index 7, the static `GetManagedObjectID` on the object still yields -1, and
`GetHandleProxy` on the object allocates slot 1 instead of returning slot 0. -/
theorem C27_connected_plain_object_is_not_recognised :
    (∀ v : Value,
      HandleProxy.GetManagedObjectIDStatic (some { v with InternalFieldCount := 0 }) = -1) ∧
    Example.connectedA._Objects[7]? = some (some 0) ∧
    Example.connectedA.heap.map (fun h => h._Handle.map (fun p => p.value))
      = [some Example.objectA] ∧
    HandleProxy.GetManagedObjectIDStatic (some Example.objectA) = -1 ∧
    (Example.connectedA.GetHandleProxy Example.statics (some Example.objectA) []).2 = .ok 1 :=
  ⟨fun v => static_id_without_internal_fields _ (by simp), by decide, by decide, by decide,
    rfl⟩

/-- C28, counterexample: a native error object passes the object check; `SetHandle` tags
it `JSV_Undefined` and does not pull its identity id. -/
theorem C28_counterexample :
    Example.nativeError.IsObject = true ∧
    HandleProxy.tagAfterSetHandle Example.wrappedA 0 (some Example.nativeError)
      = some .JSV_Undefined ∧
    (HandleProxy.classify (some Example.nativeError)).2 = false := by
  decide

/-- C28, amended: for every value that passes the object check and neither the external
nor the native-error check (and answers the checks as V8 values do), `SetHandle` assigns
one of the tags `JSV_BoolObject`, `JSV_NumberObject`, `JSV_StringObject`, `JSV_Date`,
`JSV_Array`, `JSV_RegExp`, `JSV_Function`, `JSV_Object` and takes a branch that pulls the
identity id.  An object of none of the seven classes that passes the external or the
native-error check is tagged `JSV_Undefined`, its identity id not pulled. -/
theorem C28_object_values_get_object_tags (e : V8EngineProxy) (p : Nat) (h : HandleProxy)
    (v : Value) (hp : e.heap[p]? = some h) (hv : v.Coherent) (ho : v.IsObject = true) :
    (v.IsExternal = false → v.IsNativeError = false →
      ∃ t, HandleProxy.tagAfterSetHandle e p (some v) = some t ∧
        HandleProxy.classify (some v) = (t, true) ∧
        t ∈ [JSValueType.JSV_BoolObject, .JSV_NumberObject, .JSV_StringObject, .JSV_Date,
          .JSV_Array, .JSV_RegExp, .JSV_Function, .JSV_Object]) ∧
    (v.IsExternal = true ∨ v.IsNativeError = true →
      v.IsBooleanObject = false ∧ v.IsNumberObject = false ∧ v.IsStringObject = false ∧
        v.IsDate = false ∧ v.IsArray = false ∧ v.IsRegExp = false ∧ v.IsFunction = false →
      HandleProxy.tagAfterSetHandle e p (some v) = some .JSV_Undefined ∧
        (HandleProxy.classify (some v)).2 = false) := by
  rw [SetHandle_type e p (some v) h hp]
  constructor
  · intro he hn
    have hm := classify_of_object v hv ho he hn
    refine ⟨(HandleProxy.classify (some v)).1, rfl, ?_, ?_⟩
    · revert hm
      generalize HandleProxy.classify (some v) = c
      intro hm
      simp only [HandleProxy.objectKinds, List.mem_cons, List.mem_singleton,
        List.not_mem_nil, or_false] at hm
      rcases hm with h1 | h1 | h1 | h1 | h1 | h1 | h1 | h1 <;> rw [h1]
    · revert hm
      generalize HandleProxy.classify (some v) = c
      intro hm
      simp only [HandleProxy.objectKinds, List.mem_cons, List.mem_singleton,
        List.not_mem_nil, or_false] at hm
      rcases hm with h1 | h1 | h1 | h1 | h1 | h1 | h1 | h1 <;> rw [h1] <;> decide
  · intro hn hc
    rw [classify_of_error_object v hv ho hn hc]
    exact ⟨rfl, rfl⟩

/-- C28, on the proxy of `wrappedA` and the array `objectB`. -/
theorem C28_object_values_get_object_tags_witness :
    ∃ t, HandleProxy.tagAfterSetHandle Example.wrappedA 0 (some Example.objectB) = some t ∧
      HandleProxy.classify (some Example.objectB) = (t, true) ∧
      t ∈ [JSValueType.JSV_BoolObject, .JSV_NumberObject, .JSV_StringObject, .JSV_Date,
        .JSV_Array, .JSV_RegExp, .JSV_Function, .JSV_Object] :=
  (C28_object_values_get_object_tags Example.wrappedA 0 Example.proxyA Example.objectB
    (by decide) (by decide) rfl).1 rfl rfl

/-- C30: evidence against the code.  In `int` arithmetic with overflow modulo `2^32`,
`GB` is `2^30`, the expression `10 * GB` is `-2^31` and the expression `9 * GB` is `2^30`:
neither is the nominal `10 * 2^30` or `9 * 2^30`. -/
theorem C30_heap_limits_overflow_int :
    KB = 2 ^ 10 ∧ MB = 2 ^ 20 ∧ GB = 2 ^ 30 ∧
    V8EngineProxy.maximumHeapSize = -2147483648 ∧
    V8EngineProxy.maximumHeapSize ≠ 10 * 2 ^ 30 ∧
    V8EngineProxy.codeRangeSize = 1073741824 ∧
    V8EngineProxy.codeRangeSize ≠ 9 * 2 ^ 30 := by
  decide

/-- C21: each of the three queues is served last in, first out.  Requests for distinct
proxies submitted through `QueueHandleDisposal` (on live proxies that are not queued),
`QueueMakeWeak` or `QueueMakeStrong` (on proxies whose queued bit is clear) are appended
to the queue in the order of submission; and the proxies the blocks of
`ProcessHandleQueues` pop in successive iterations are the entries of the queue in
reverse order (the disposal block while the reentrancy counter is zero), each block
applying its transition to the last entry of its queue. -/
theorem C21_queues_are_served_last_in_first_out (g : Statics) (e : V8EngineProxy)
    (hR : Reachable g e) :
    (∀ ps : List Nat, ps.Nodup →
      (∀ p ∈ ps, p ∉ e._HandlesPendingDisposal ∧
        ∃ h, e.heap[p]? = some h ∧ h.IsDisposed = false ∧ h.IsDisposing = false) →
      (ps.foldl (fun e0 p => e0.QueueHandleDisposal (some p)) e)._HandlesPendingDisposal =
        e._HandlesPendingDisposal ++ ps) ∧
    (∀ ps : List Nat, ps.Nodup →
      (∀ p ∈ ps, ∃ h, e.heap[p]? = some h ∧ h._Disposed &&& 4 = 0) →
      (ps.foldl (fun e0 p => e0.QueueMakeWeak p) e)._HandlesToBeMadeWeak =
        e._HandlesToBeMadeWeak ++ ps) ∧
    (∀ ps : List Nat, ps.Nodup →
      (∀ p ∈ ps, ∃ h, e.heap[p]? = some h ∧ h._Disposed &&& 8 = 0) →
      (ps.foldl (fun e0 p => e0.QueueMakeStrong p) e)._HandlesToBeMadeStrong =
        e._HandlesToBeMadeStrong ++ ps) ∧
    (∀ n : Nat, e._InCallbackScope = 0 →
      e.appliedDisposals g n = e._HandlesPendingDisposal.reverse.take n) ∧
    (∀ n : Nat, e.appliedMakeWeaks g n = e._HandlesToBeMadeWeak.reverse.take n) ∧
    (∀ n : Nat, e.appliedMakeStrongs g n = e._HandlesToBeMadeStrong.reverse.take n) ∧
    (∀ p : Nat, e._InCallbackScope = 0 → e._HandlesPendingDisposal.getLast? = some p →
      e.processPendingDisposal g =
        (HandleProxy.Dispose g
          (({ e with _HandlesPendingDisposal := e._HandlesPendingDisposal.dropLast }
              : V8EngineProxy).update p
            (fun h0 => { h0 with _Disposed := clearBits h0._Disposed 16 })) p).1) ∧
    (∀ p : Nat, e._HandlesToBeMadeWeak.getLast? = some p →
      e.processMakeWeak.1 =
        HandleProxy.MakeWeak
          (({ e with _HandlesToBeMadeWeak := e._HandlesToBeMadeWeak.dropLast }
              : V8EngineProxy).update p
            (fun h0 => { h0 with _Disposed := clearBits (clearBits h0._Disposed 4) 16 })) p) ∧
    (∀ p : Nat, e._HandlesToBeMadeStrong.getLast? = some p →
      e.processMakeStrong.1 =
        HandleProxy.MakeStrong
          (({ e with _HandlesToBeMadeStrong := e._HandlesToBeMadeStrong.dropLast }
              : V8EngineProxy).update p
            (fun h0 => { h0 with _Disposed := clearBits h0._Disposed 8 })) p) :=
  ⟨fun ps hnd hnew => queue_disposals ps e hR.inv hnd hnew,
    fun ps hnd hnew => queue_makeWeaks ps e hnd hnew,
    fun ps hnd hnew => queue_makeStrongs ps e hnd hnew,
    fun n hs => appliedDisposals_eq g n e hs,
    fun n => appliedMakeWeaks_eq g n e,
    fun n => appliedMakeStrongs_eq g n e,
    fun p hs hl => processPendingDisposal_of_last g e p hs hl,
    fun p hl => processMakeWeak_of_last e p hl,
    fun p hl => processMakeStrong_of_last e p hl⟩

/-- C21, on the engine of `twoQueued`, where slot 0 was queued before slot 1: two
iterations dispose slot 1 first and slot 0 last. -/
theorem C21_queues_are_served_last_in_first_out_witness :
    Example.twoQueued._HandlesPendingDisposal = [0, 1] ∧
    Example.twoQueued.appliedDisposals Example.statics 2 = [1, 0] :=
  ⟨by decide,
    ((C21_queues_are_served_last_in_first_out Example.statics Example.twoQueued
      (Reachable.queueHandleDisposal _ (Reachable.queueHandleDisposal _
        (Reachable.getHandleProxy _ _ (Reachable.getHandleProxy _ _
          (Reachable.init 0 (by decide))))))).2.2.2.1 2 (by decide)).trans (by decide)⟩

/-- C22: for every `loops` and every state, `ProcessHandleQueues(loops)` is the result of
`k` iterations of its loop body for some `k` with `k ≤ max(loops, 0)`; one iteration
removes the last entry of each queue and nothing else (of the disposal queue only when the
reentrancy counter is zero), so each queue is left with a prefix of its entries, at most
`max(loops, 0)` shorter. -/
theorem C22_processHandleQueues_is_bounded (g : Statics) (e : V8EngineProxy) (loops : Int) :
    (∃ k : Nat, (k : Int) ≤ max loops 0 ∧
      e.ProcessHandleQueues g loops = (V8EngineProxy.iteration g)^[k] e ∧
      (e.ProcessHandleQueues g loops)._HandlesPendingDisposal =
        e._HandlesPendingDisposal.take
          (e._HandlesPendingDisposal.length - (if e._InCallbackScope = 0 then k else 0)) ∧
      (e.ProcessHandleQueues g loops)._HandlesToBeMadeWeak =
        e._HandlesToBeMadeWeak.take (e._HandlesToBeMadeWeak.length - k) ∧
      (e.ProcessHandleQueues g loops)._HandlesToBeMadeStrong =
        e._HandlesToBeMadeStrong.take (e._HandlesToBeMadeStrong.length - k)) ∧
    (∀ e0 : V8EngineProxy,
      (e0.iteration g)._HandlesPendingDisposal =
        (if e0._InCallbackScope = 0 then e0._HandlesPendingDisposal.dropLast
          else e0._HandlesPendingDisposal) ∧
      (e0.iteration g)._HandlesToBeMadeWeak = e0._HandlesToBeMadeWeak.dropLast ∧
      (e0.iteration g)._HandlesToBeMadeStrong = e0._HandlesToBeMadeStrong.dropLast) := by
  constructor
  · obtain ⟨k, hk, heq⟩ := processLoop_iterations g loops.toNat true e
    have hq := iterate_queues g k e
    refine ⟨k, by omega, heq, ?_, ?_, ?_⟩
    · show (V8EngineProxy.processLoop g loops.toNat true e)._HandlesPendingDisposal = _
      rw [heq]; exact hq.1
    · show (V8EngineProxy.processLoop g loops.toNat true e)._HandlesToBeMadeWeak = _
      rw [heq]; exact hq.2.1
    · show (V8EngineProxy.processLoop g loops.toNat true e)._HandlesToBeMadeStrong = _
      rw [heq]; exact hq.2.2.1
  · intro e0
    have h := iteration_queues g e0
    exact ⟨h.1, h.2.1, h.2.2.1⟩

/-- C26: evidence against the code.  In the engine of `twoQueued` the reentrancy counter
is zero, the make-weak and make-strong queues are empty and two disposals are pending.
`ProcessHandleQueues(1000)` applies one of them and leaves the other in the queue; no
value of `loops` empties the queue. -/
theorem C26_one_disposal_per_call :
    Example.twoQueued._InCallbackScope = 0 ∧
    Example.twoQueued._HandlesToBeMadeWeak = [] ∧
    Example.twoQueued._HandlesToBeMadeStrong = [] ∧
    Example.twoQueued._HandlesPendingDisposal = [0, 1] ∧
    (Example.twoQueued.ProcessHandleQueues Example.statics 1000)._HandlesPendingDisposal
      = [0] ∧
    ∀ loops : Int,
      (Example.twoQueued.ProcessHandleQueues Example.statics loops)._HandlesPendingDisposal
        ≠ [] := by
  have hw : Example.twoQueued._HandlesToBeMadeWeak = [] := by decide
  have hs : Example.twoQueued._HandlesToBeMadeStrong = [] := by decide
  have hone : (Example.twoQueued.processPendingDisposal Example.statics)._HandlesPendingDisposal
      = [0] := by decide
  refine ⟨by decide, hw, hs, by decide, ?_, ?_⟩
  · show (V8EngineProxy.processLoop Example.statics (999 + 1) true
      Example.twoQueued)._HandlesPendingDisposal = [0]
    rw [processLoop_disposes_once _ _ _ hw hs]
    exact hone
  · intro loops
    show (V8EngineProxy.processLoop Example.statics loops.toNat true
      Example.twoQueued)._HandlesPendingDisposal ≠ []
    cases loops.toNat with
    | zero => unfold V8EngineProxy.processLoop; decide
    | succ n =>
      rw [processLoop_disposes_once _ _ _ hw hs, hone]
      decide

/-- C25, counterexample: `HandleProxy::Dispose` on a queued proxy disposes it and leaves it in
the pending-disposal queue (engine `staleQueue`: slot 0 is queued, disposed, bit 16
clear).  In the engine of `recycledWhileQueued` slot 1 is still queued although
`GetHandleProxy` recycled it for `number` (tag `JSV_Int32`, not disposed); the next
`ProcessHandleQueues(1)` disposes this new occupant. -/
theorem C25_counterexample :
    Example.staleQueue._HandlesPendingDisposal = [0] ∧
    Example.staleQueue.heap.map (fun h => (h._ID, h.IsDisposed, h.IsDisposing))
      = [(0, true, false)] ∧
    Example.recycledWhileQueued._HandlesPendingDisposal = [1] ∧
    Example.recycledWhileQueued.heap.map (fun h => (h._ID, h.IsDisposed, h._Type))
      = [(0, true, .JSV_Uninitialized), (1, false, .JSV_Int32)] ∧
    (Example.recycledWhileQueued.ProcessHandleQueues Example.statics 1).heap.map
      (fun h => (h._ID, h.IsDisposed, h._Type))
      = [(0, true, .JSV_Uninitialized), (1, true, .JSV_Uninitialized)] := by
  decide

/-- C25, amended: in every state reached through `GetHandleProxy`, `QueueHandleDisposal`,
`QueueMakeStrong`, `ProcessHandleQueues`, and `HandleProxy::Dispose` on proxies that are not in
the pending-disposal queue, no proxy occurs twice in the pending-disposal queue, and each
proxy in it has bit 16 set, is not disposed, and its slot id is not in the free-list, so
the slot cannot be recycled while the request waits. -/
theorem C25_pending_queue_holds_live_proxies_once (g : Statics) (e : V8EngineProxy)
    (hR : DisposalReachable g e) :
    e._HandlesPendingDisposal.Nodup ∧
    ∀ p ∈ e._HandlesPendingDisposal,
      ∃ h, e.heap[p]? = some h ∧ h.IsDisposing = true ∧ h.IsDisposed = false ∧
        (p : Int) ∉ e._DisposedHandles := by
  have hP := hR.pendingOK
  have hI := hR.reachable.inv
  refine ⟨hP.nodup, ?_⟩
  intro p hp
  obtain ⟨h, hh, hd, hg⟩ := hP.queued p hp
  refine ⟨h, hh, hg, hd, ?_⟩
  intro hc
  obtain ⟨_, x, hx, hxd⟩ := hI.freeDisposed _ hc
  simp only [Int.toNat_ofNat] at hx
  rw [hh] at hx
  cases hx
  rw [hd] at hxd
  cases hxd

/-- C25, on the engine of `twoQueued` and its queued slot 1. -/
theorem C25_pending_queue_holds_live_proxies_once_witness :
    ∃ h, Example.twoQueued.heap[1]? = some h ∧ h.IsDisposing = true ∧ h.IsDisposed = false ∧
      ((1 : Nat) : Int) ∉ Example.twoQueued._DisposedHandles :=
  (C25_pending_queue_holds_live_proxies_once Example.statics Example.twoQueued
    (DisposalReachable.queueHandleDisposal _ (DisposalReachable.queueHandleDisposal _
      (DisposalReachable.getHandleProxy _ _ (DisposalReachable.getHandleProxy _ _
        (DisposalReachable.init 0 (by decide))))))).2 1 (by decide)

/-- C29: the `k`-th call of `GetNextNonTemplateObjectID` on a constructed engine returns
`-(k+1)`, and for `k < 2^31 - 1` the value and the decremented counter are 32-bit integers;
in a state reached through `GetHandleProxy` on values with a host id or none,
`GetManagedObjectID`, `SetManagedObjectID` and `ConnectObject` with unused host ids, `Dispose`
and `ProcessHandleQueues`, the function `GetManagedObjectID` on a live proxy that is connected to no
host id and whose value carries none yields an id below `-1` (the next id of the counter when
the proxy had none) that no other proxy holds, and a repeated call returns the same id and
the same state. -/
theorem C29_non_template_ids_are_fresh (engineID : Int) (k : Nat) (hk : 1 ≤ k)
    (hmax : k < 2147483647) (g : Statics) (e : V8EngineProxy) (p : Nat) (h : HandleProxy)
    (hR : NativeReachable g e) (hp : e.heap[p]? = some h) (hd : h.IsDisposed = false)
    (ho : h._ObjectID < 0)
    (hs : HandleProxy.GetManagedObjectIDStatic (h._Handle.map (fun x => x.value)) = -1) :
    (((V8EngineProxy.init engineID).afterNextIDs (k - 1)).GetNextNonTemplateObjectID.2
        = -((k : Int) + 1) ∧
      toInt32 (-((k : Int) + 1)) = -((k : Int) + 1) ∧
      toInt32 ((V8EngineProxy.init engineID).afterNextIDs k)._NextNonTemplateObjectID
        = ((V8EngineProxy.init engineID).afterNextIDs k)._NextNonTemplateObjectID) ∧
    (HandleProxy.GetManagedObjectID e p).2 < -1 ∧
    (h._ObjectID = -1 →
      (HandleProxy.GetManagedObjectID e p).2 = e.GetNextNonTemplateObjectID.2) ∧
    (∀ (q : Nat) (x : HandleProxy), q ≠ p →
      (HandleProxy.GetManagedObjectID e p).1.heap[q]? = some x →
      x._ObjectID ≠ (HandleProxy.GetManagedObjectID e p).2) ∧
    HandleProxy.GetManagedObjectID (HandleProxy.GetManagedObjectID e p).1 p
      = ((HandleProxy.GetManagedObjectID e p).1, (HandleProxy.GetManagedObjectID e p).2) := by
  refine ⟨⟨?_, ?_, ?_⟩, ?_⟩
  · show ((V8EngineProxy.init engineID).afterNextIDs (k - 1))._NextNonTemplateObjectID = _
    rw [afterNextIDs_next]
    show (-2 : Int) - ((k - 1 : Nat) : Int) = _
    omega
  · unfold toInt32
    omega
  · rw [afterNextIDs_next]
    show toInt32 ((-2 : Int) - (k : Int)) = (-2 : Int) - (k : Int)
    unfold toInt32
    omega
  · obtain ⟨hI, hD, hF⟩ := hR.fresh
    have hlow := hI.next
    by_cases h1 : h._ObjectID = -1
    · have hx := (hI.owner p h hp hd).2
      have hget : HandleProxy.GetManagedObjectID e p = HandleProxy.SetManagedObjectID e p (-1) := by
        unfold HandleProxy.GetManagedObjectID
        simp only [hp, hd, Bool.false_eq_true, if_false, hs]
        rw [if_neg (by omega)]
      rw [hget, SetManagedObjectID_eq e p (-1) h _ hp hx]
      simp only [if_true]
      have hlt := getElem?_lt hp
      refine ⟨by omega, fun _ => rfl, ?_, ?_⟩
      · intro q x hq hx1
        have hx2 : (e.heap.set p { h with _ObjectID := e._NextNonTemplateObjectID })[q]?
            = some x := hx1
        rw [List.getElem?_set_ne (Ne.symm hq)] at hx2
        have := hF.above q x hx2
        omega
      · refine getManagedObjectID_of_pulled _ p
          { h with _ObjectID := e._NextNonTemplateObjectID } ?_ hd ?_
        · show (e.heap.set p { h with _ObjectID := e._NextNonTemplateObjectID })[p]? = _
          rw [List.getElem?_set_self hlt]
        · show e._NextNonTemplateObjectID < -1
          omega
    · have ho2 : h._ObjectID < -1 := by omega
      rw [getManagedObjectID_of_pulled e p h hp hd ho2]
      refine ⟨ho2, fun h0 => absurd h0 h1, ?_, getManagedObjectID_of_pulled e p h hp hd ho2⟩
      intro q x hq hx1 heq
      exact hF.distinct p q h x (Ne.symm hq) hp hx1 ho2 heq.symm

/-- C29, for the first call on engine 0 and for the proxy of `wrappedNumber`, which wraps a
number: the first id is `-2`, and the proxy is given `-2`. -/
theorem C29_non_template_ids_are_fresh_witness :
    (V8EngineProxy.init 0).GetNextNonTemplateObjectID.2 = -2 ∧
      (HandleProxy.GetManagedObjectID Example.wrappedNumber 0).2 = -2 ∧
      HandleProxy.GetManagedObjectID (HandleProxy.GetManagedObjectID Example.wrappedNumber 0).1 0
        = ((HandleProxy.GetManagedObjectID Example.wrappedNumber 0).1, -2) :=
  have c := C29_non_template_ids_are_fresh 0 1 (by decide) (by decide) Example.statics
    Example.wrappedNumber 0 Example.proxyNumber
    (NativeReachable.getHandleProxy (some Example.number) [] (by decide)
      (NativeReachable.init 0 (by decide)))
    (by decide) (by decide) (by decide) (by decide)
  ⟨c.1.1, (c.2.2.1 rfl).trans rfl, c.2.2.2.2.trans rfl⟩


end V8DotNet
